import Mathlib

/-!
# Per-slot UE scheduler orchestration: shallow embedding

Embedding of `lib/scheduler/ue_scheduling/ue_scheduler_impl.cpp`
(`run_sched_strategy`, `run_slot`, `update_harq_pucch_counter`,
`puxch_grant_sanitizer`, `handle_error_indication`) as state-passing functions.
The scheduler object carries, next to its data members, an ordered record
`events` of the logger calls and collaborator calls it performs, so that
statements about which calls happen, how often and in which order can be made.

Smaller embeddings follow it: the Open Fronthaul configuration validator, the
string helper `string_parse_list`, the MAC to FAPI conversion of the SSB PDU,
the F1AP helper `get_gnb_du_ue_f1ap_id`, the session bookkeeping of the CU-CP
metrics handler and `stop()` of the F1-U split gateway bearer.
-/

namespace srsran

/-! ## Basic identifiers -/

abbrev slot_point := Nat
abbrev rnti_t := Nat
abbrev du_cell_index_t := Nat
abbrev du_ue_index_t := Nat
abbrev harq_id_t := Nat

/-- Modelled from the spec: `to_harq_id` is declared outside the sources at hand;
it converts a DCI HARQ process number into the HARQ process identifier of the
same value. -/
def to_harq_id (h_id : Nat) : harq_id_t := h_id

/-! ## HARQ process tracker -/

/-- Modelled from the spec: the HARQ process classes are not among the sources.
States of one HARQ process (spec section 3): Empty, Pending, and
Waiting-for-Ack together with the slot at which the feedback is expected. -/
inductive harq_state
  | empty
  | pending
  | waiting_ack (slot_ack : slot_point)
  deriving DecidableEq, Repr

/-- Modelled from the spec: a downlink HARQ process holds one state per codeword
(a process is identified by terminal, direction, process id and codeword index),
the feedback counter of section 4.1 and the ordinal position of its
acknowledgment bit within the feedback report it awaits. -/
structure dl_harq_process where
  tb_array : List harq_state
  pucch_counter : Nat := 0
  harq_bit_idx : Nat := 0
  deriving DecidableEq, Repr

/-- Modelled from the spec: an uplink HARQ process holds a single state. -/
structure ul_harq_process where
  tb : harq_state
  deriving DecidableEq, Repr

/-- Modelled from the spec: `dl_harq_process::cancel_harq(tb_idx)`, the Cancel
transition of section 3 applied to one codeword: the codeword returns to Empty
unconditionally (a no-op when it is Empty already). -/
def dl_harq_process.cancel_harq (h : dl_harq_process) (tb_idx : Nat) : dl_harq_process :=
  { h with tb_array := h.tb_array.set tb_idx harq_state.empty }

/-- Modelled from the spec: `ul_harq_process::cancel_harq()`, the Cancel
transition of section 3: the process returns to Empty unconditionally. -/
def ul_harq_process.cancel_harq (h : ul_harq_process) : ul_harq_process :=
  { h with tb := harq_state.empty }

/-- Modelled from the spec: the cancellation applied by `cancel_dl_harqs` to one
codeword state: a codeword awaiting its acknowledgment at `uci_slot` returns
to Empty, every other state is left as it is. -/
def cancel_if_waiting_ack (uci_slot : slot_point) (st : harq_state) : harq_state :=
  if st = harq_state.waiting_ack uci_slot then harq_state.empty else st

/-- Modelled from the spec: `cancel_dl_harqs` on one downlink process: each of its
codewords awaiting the acknowledgment at `uci_slot` is cancelled. -/
def dl_harq_process.cancel_waiting_ack (h : dl_harq_process) (uci_slot : slot_point) :
    dl_harq_process :=
  { h with tb_array := h.tb_array.map (cancel_if_waiting_ack uci_slot) }

/-- Modelled from the spec: the HARQ entity of a terminal in one cell, its
downlink and uplink processes indexed by process id. -/
structure harq_entity where
  dl_harqs : List dl_harq_process
  ul_harqs : List ul_harq_process
  deriving DecidableEq, Repr

/-- Modelled from the spec: `harqs.dl_harq(h_id).cancel_harq(tb_idx)`. -/
def harq_entity.dl_cancel_harq (e : harq_entity) (h_id : harq_id_t) (tb_idx : Nat) : harq_entity :=
  { e with dl_harqs := e.dl_harqs.modify (fun h => h.cancel_harq tb_idx) h_id }

/-- Modelled from the spec: `harqs.ul_harq(h_id).cancel_harq()`. -/
def harq_entity.ul_cancel_harq (e : harq_entity) (h_id : harq_id_t) : harq_entity :=
  { e with ul_harqs := e.ul_harqs.modify (fun h => h.cancel_harq) h_id }

/-- Modelled from the spec: `harq_entity::cancel_dl_harqs(uci_slot)` cancels the
downlink HARQ processes that were awaiting an acknowledgment carried by the
uplink transmission of `uci_slot` (section 4.5, error-indication rollback). -/
def harq_entity.cancel_dl_harqs (e : harq_entity) (uci_slot : slot_point) : harq_entity :=
  { e with
    dl_harqs := e.dl_harqs.map (fun h => h.cancel_waiting_ack uci_slot) }

/-! ## Terminal directory -/

structure ue_cell where
  harqs : harq_entity
  deriving DecidableEq, Repr

/-- Terminal: `get_pcell()` of the source is the field `pcell`. -/
structure ue where
  ue_index : du_ue_index_t
  crnti : rnti_t
  pcell : ue_cell
  deriving DecidableEq, Repr

/-- Modelled from the spec: the terminal directory is not among the sources.
Following the design notes it is an array of terminal slots addressed by the
stable index, plus a side mapping from the radio identifier to that index. -/
structure ue_repository where
  ues : List (Option ue)
  rnti_to_ue_index_lookup : List (rnti_t × du_ue_index_t)
  deriving DecidableEq, Repr

/-- Modelled from the spec: `ue_repository::find_by_rnti`; the result stands for
the pointer to the terminal (its stable index), `none` for the null pointer. -/
def ue_repository.find_by_rnti (db : ue_repository) (rnti : rnti_t) : Option du_ue_index_t :=
  match db.rnti_to_ue_index_lookup.lookup rnti with
  | none => none
  | some idx =>
    match db.ues[idx]? with
    | some (some _) => some idx
    | _ => none

/-- Write access to the terminal behind the pointer `u`. -/
def ue_repository.modify_ue (db : ue_repository) (u : du_ue_index_t) (f : ue → ue) : ue_repository :=
  { db with ues := db.ues.modify (Option.map f) u }

/-- Update of a terminal's primary-cell HARQ entity. -/
def ue.modify_harqs (x : ue) (f : harq_entity → harq_entity) : ue :=
  { x with pcell := { x.pcell with harqs := f x.pcell.harqs } }

/-! ## Grants and slot results -/

inductive dci_dl_rnti_config_type
  | si_f1_0
  | ra_f1_0
  | c_rnti_f1_0
  | tc_rnti_f1_0
  | p_rnti_f1_0
  deriving DecidableEq, Repr

inductive dci_ul_rnti_config_type
  | tc_rnti_f0_0
  | c_rnti_f0_0
  | c_rnti_f0_1
  deriving DecidableEq, Repr

/-- The part of a DCI payload read by the scheduler: the HARQ process number. -/
structure dci_harq_configuration where
  harq_process_number : Nat := 0
  deriving DecidableEq, Repr

structure dci_context_information where
  rnti : rnti_t
  deriving DecidableEq, Repr

/-- Downlink DCI: the payload members are those of the union read by the source. -/
structure dci_dl_info where
  type : dci_dl_rnti_config_type
  tc_rnti_f1_0 : dci_harq_configuration := {}
  c_rnti_f1_0 : dci_harq_configuration := {}
  deriving DecidableEq, Repr

structure dci_ul_info where
  type : dci_ul_rnti_config_type
  c_rnti_f0_0 : dci_harq_configuration := {}
  c_rnti_f0_1 : dci_harq_configuration := {}
  deriving DecidableEq, Repr

structure pdcch_dl_information where
  ctx : dci_context_information
  dci : dci_dl_info
  deriving DecidableEq, Repr

structure pdcch_ul_information where
  ctx : dci_context_information
  dci : dci_ul_info
  deriving DecidableEq, Repr

structure pdsch_codeword where
  rv_index : Nat := 0
  deriving DecidableEq, Repr

structure pdsch_information where
  rnti : rnti_t
  harq_id : harq_id_t
  codewords : List pdsch_codeword
  deriving DecidableEq, Repr

structure dl_msg_alloc where
  pdsch_cfg : pdsch_information
  deriving DecidableEq, Repr

structure pusch_information where
  rnti : rnti_t
  harq_id : harq_id_t
  deriving DecidableEq, Repr

structure uci_harq_info where
  harq_ack_nof_bits : Nat
  deriving DecidableEq, Repr

structure uci_info where
  harq : Option uci_harq_info
  deriving DecidableEq, Repr

structure ul_sched_info where
  pusch_cfg : pusch_information
  uci : Option uci_info
  deriving DecidableEq, Repr

/-- PUCCH formats; the source singles out formats 1 and 2 and sends every other
format to the default branch. -/
inductive pucch_format
  | FORMAT_0
  | FORMAT_1
  | FORMAT_2
  | FORMAT_3
  | FORMAT_4
  deriving DecidableEq, Repr

/-- Number of scheduling-request bits of a PUCCH grant (`sr_nof_bits`). -/
inductive sr_nof_bits
  | no_sr
  | one
  | two
  | three
  | four
  deriving DecidableEq, Repr

/-- Modelled from the spec: `sr_nof_bits_to_uint` is declared outside the sources; it
gives the number of scheduling-request bits as an unsigned value. -/
def sr_nof_bits_to_uint : sr_nof_bits → Nat
  | sr_nof_bits.no_sr => 0
  | sr_nof_bits.one => 1
  | sr_nof_bits.two => 2
  | sr_nof_bits.three => 3
  | sr_nof_bits.four => 4

/-- Per-format PUCCH content read by the scheduler: the HARQ-ACK bit count, the
scheduling-request bits and (read for format 2 only) the CSI part 1 bits. -/
structure pucch_format_content where
  harq_ack_nof_bits : Nat := 0
  sr_bits : sr_nof_bits := sr_nof_bits.no_sr
  csi_part1_bits : Nat := 0
  deriving DecidableEq, Repr

/-- PUCCH grant. The per-format members form a union in the source; only the
member of the active `format` is meaningful. -/
structure pucch_info where
  crnti : rnti_t
  format : pucch_format
  format_0 : pucch_format_content := {}
  format_1 : pucch_format_content := {}
  format_2 : pucch_format_content := {}
  format_3 : pucch_format_content := {}
  format_4 : pucch_format_content := {}
  deriving DecidableEq, Repr

structure csi_rs_info where
  deriving DecidableEq, Repr

structure dl_sched_result where
  dl_pdcchs : List pdcch_dl_information := []
  ul_pdcchs : List pdcch_ul_information := []
  ue_grants : List dl_msg_alloc := []
  csi_rs : List csi_rs_info := []
  deriving DecidableEq, Repr

structure ul_sched_result where
  puschs : List ul_sched_info := []
  pucchs : List pucch_info := []
  deriving DecidableEq, Repr

structure sched_result where
  dl : dl_sched_result := {}
  ul : ul_sched_result := {}
  deriving DecidableEq, Repr

structure cell_slot_resource_allocator where
  slot : slot_point
  result : sched_result := {}
  deriving DecidableEq, Repr

/-! ## Cell context -/

/-- Modelled from the spec: the cell configuration is not among the sources; of
it the scheduler reads whether the downlink, and whether the uplink, is active
in a slot. -/
structure cell_configuration where
  is_dl_enabled : slot_point → Bool
  is_ul_enabled : slot_point → Bool

/-- Modelled from the spec: the cell resource grid is not among the sources. It
holds the allocator of the slot being scheduled (`res_grid[0]`) and the
bounded history of finalized slot results queried by `get_history`. -/
structure cell_resource_allocator where
  cfg : cell_configuration
  current : cell_slot_resource_allocator
  history : List cell_slot_resource_allocator

/-- Modelled from the spec: `get_history(slot) -> result|not-found`. -/
def cell_resource_allocator.get_history (res_grid : cell_resource_allocator) (sl : slot_point) :
    Option cell_slot_resource_allocator :=
  res_grid.history.find? (fun r => r.slot == sl)

/-- Per-cell bundle of the scheduler; `cell_res_alloc` is a pointer in the source. -/
structure cell where
  cell_res_alloc : Option cell_resource_allocator

structure scheduler_ue_expert_config where
  enable_csi_rs_pdsch_multiplexing : Bool

/-! ## Scheduler object -/

/-- A HARQ cancellation call issued by the rollback path on the terminal `u`. -/
inductive harq_cancellation
  | dl_cancel_harq (u : du_ue_index_t) (h_id : harq_id_t) (cw_idx : Nat)
  | ul_cancel_harq (u : du_ue_index_t) (h_id : harq_id_t)
  | cancel_dl_harqs (u : du_ue_index_t) (uci_slot : slot_point)
  deriving DecidableEq, Repr

/-- Observable calls of the scheduler to its logger and to its collaborators.
`sync_point_wait` is the call `sync_point.wait(slot_tx, nof_cells, callback)` and
names first the cell whose thread makes the call. -/
inductive sched_event
  | error_cell_not_configured (cell_index : du_cell_index_t)
  | warning_slot_result_erased (cell_index : du_cell_index_t) (sl_tx : slot_point)
  | cancel (c : harq_cancellation)
  | ue_db_slot_indication (slot_tx : slot_point)
  | dl_sched
  | ul_sched
  | event_mng_run (slot_tx : slot_point) (cell_index : du_cell_index_t)
  | ue_alloc_slot_indication
  | uci_sched_run_slot (cell_index : du_cell_index_t) (slot_tx : slot_point)
  | srb0_sched_run_slot (cell_index : du_cell_index_t)
  | sync_point_wait (cell_index : du_cell_index_t) (slot_tx : slot_point) (nof_cells : Nat)
  | warning_no_user (rnti : rnti_t) (slot : slot_point)
  | warning_no_dl_harq (u : du_ue_index_t) (slot : slot_point) (harq_bit_idx : Nat)
  | increment_pucch_counter (u : du_ue_index_t) (h_id : harq_id_t)
  | error_pucch_and_pusch (rnti : rnti_t) (slot : slot_point) (format : pucch_format)
      (harq_bits csi_bits sr_bits : Nat)
  deriving DecidableEq, Repr

/-- Modelled from the spec: the multi-cell synchronization barrier (section 4.3) is
not among the sources. It is a generation-counted rendezvous: it remembers the
slot of the round last opened, the participant count of that round and the
threads that have arrived in the round being assembled and wait for its
release (none when no round is open). One thread drives each cell (section 5),
and a thread is named by the index of its cell. -/
structure slot_sync_point where
  last_sl : Option slot_point := none
  nof_workers : Nat := 0
  waiting : List du_cell_index_t := []
  deriving DecidableEq, Repr

/-- Number of participants that have arrived in the round being assembled. -/
def slot_sync_point.count (sp : slot_sync_point) : Nat :=
  sp.waiting.length

/-- Modelled from the spec: arrival of the thread `caller` at
`wait(sl, nof_workers, callback)`. The result holds the barrier after the
arrival and whether the arriving thread is the last of its round, which then
runs the callback and releases the others. The result is `none` on a contract
violation, which is fatal: no participant; with no round open, a call for the
slot of the round last released or for an older slot; with a round open, a
call that disagrees with it on the slot (an older slot included) or on the
participant count, or a repeated call of a thread that waits in the round
already. Slots are compared as numbers (the wraparound of the slot counter is
left out). -/
def slot_sync_point.wait (sp : slot_sync_point) (caller : du_cell_index_t) (sl : slot_point)
    (nof_workers : Nat) : Option (slot_sync_point × Bool) :=
  if nof_workers = 0 then none
  else if sp.waiting = [] then
    match sp.last_sl with
    | some last =>
      if sl ≤ last then none
      else if nof_workers = 1 then
        some ({ last_sl := some sl, nof_workers := nof_workers, waiting := [] }, true)
      else some ({ last_sl := some sl, nof_workers := nof_workers, waiting := [caller] }, false)
    | none =>
      if nof_workers = 1 then
        some ({ last_sl := some sl, nof_workers := nof_workers, waiting := [] }, true)
      else some ({ last_sl := some sl, nof_workers := nof_workers, waiting := [caller] }, false)
  else if sp.last_sl ≠ some sl ∨ sp.nof_workers ≠ nof_workers then none
  else if caller ∈ sp.waiting then none
  else if sp.waiting.length + 1 = nof_workers then some ({ sp with waiting := [] }, true)
  else some ({ sp with waiting := sp.waiting ++ [caller] }, false)

structure ue_scheduler_impl where
  expert_cfg : scheduler_ue_expert_config
  ue_db : ue_repository
  cells : List (Option cell)
  events : List sched_event := []
  sync_point : slot_sync_point := {}

/-- Effect of one cancellation call on the terminal directory. -/
def harq_cancellation.run (c : harq_cancellation) (db : ue_repository) : ue_repository :=
  match c with
  | harq_cancellation.dl_cancel_harq u h_id cw_idx =>
    db.modify_ue u (fun x => x.modify_harqs (fun e => e.dl_cancel_harq h_id cw_idx))
  | harq_cancellation.ul_cancel_harq u h_id =>
    db.modify_ue u (fun x => x.modify_harqs (fun e => e.ul_cancel_harq h_id))
  | harq_cancellation.cancel_dl_harqs u uci_slot =>
    db.modify_ue u (fun x => x.modify_harqs (fun e => e.cancel_dl_harqs uci_slot))

/-- The scheduler performs a cancellation call: the directory is updated and the
call is recorded. -/
def ue_scheduler_impl.perform (s : ue_scheduler_impl) (c : harq_cancellation) : ue_scheduler_impl :=
  { s with ue_db := c.run s.ue_db, events := s.events ++ [sched_event.cancel c] }

/-- The scheduler records a logger or collaborator call. -/
def ue_scheduler_impl.record (s : ue_scheduler_impl) (e : sched_event) : ue_scheduler_impl :=
  { s with events := s.events ++ [e] }

/-- The resource allocator `*cells[cell_index]->cell_res_alloc`, or `none` when
`cells[cell_index]` or its `cell_res_alloc` is null. -/
def ue_scheduler_impl.cell_res_alloc (s : ue_scheduler_impl) (cell_index : du_cell_index_t) :
    Option cell_resource_allocator :=
  match s.cells[cell_index]? with
  | some (some c) => c.cell_res_alloc
  | _ => none

/-! ## Collaborators taken as parameters -/

/-- Collaborators of the scheduler whose code lies outside the sources at hand:
`ue_db.slot_indication` of the terminal directory and the pluggable allocation
strategy (`dl_sched`, `ul_sched`), which writes grants into the cell resource
grids and updates HARQ state through the grant allocator. -/
structure collaborators where
  ue_db_slot_indication : slot_point → ue_repository → ue_repository
  dl_sched : ue_repository × List (Option cell) → ue_repository × List (Option cell)
  ul_sched : ue_repository × List (Option cell) → ue_repository × List (Option cell)

/-- Call `ue_db.slot_indication(slot_tx)`. -/
def ue_scheduler_impl.call_slot_indication (env : collaborators) (s : ue_scheduler_impl)
    (slot_tx : slot_point) : ue_scheduler_impl :=
  { s with
    ue_db := env.ue_db_slot_indication slot_tx s.ue_db,
    events := s.events ++ [sched_event.ue_db_slot_indication slot_tx] }

/-- Call `sched_strategy->dl_sched(ue_alloc, ue_res_grid_view, ue_db)`. -/
def ue_scheduler_impl.call_dl_sched (env : collaborators) (s : ue_scheduler_impl) :
    ue_scheduler_impl :=
  { s with
    ue_db := (env.dl_sched (s.ue_db, s.cells)).1,
    cells := (env.dl_sched (s.ue_db, s.cells)).2,
    events := s.events ++ [sched_event.dl_sched] }

/-- Call `sched_strategy->ul_sched(ue_alloc, ue_res_grid_view, ue_db)`. -/
def ue_scheduler_impl.call_ul_sched (env : collaborators) (s : ue_scheduler_impl) :
    ue_scheduler_impl :=
  { s with
    ue_db := (env.ul_sched (s.ue_db, s.cells)).1,
    cells := (env.ul_sched (s.ue_db, s.cells)).2,
    events := s.events ++ [sched_event.ul_sched] }

/-! ## `ue_scheduler_impl::run_sched_strategy` -/

/-- Source lines 37-58. The result is `none` when `cell_index` names no registered
cell: the source then dereferences a null pointer, which has no defined
behaviour. `ue_res_grid_view.get_cell_cfg_common(cell_index)` is the
configuration of the allocator registered for the cell in `add_cell`. -/
def run_sched_strategy (env : collaborators) (s : ue_scheduler_impl) (slot_tx : slot_point)
    (cell_index : du_cell_index_t) : Option ue_scheduler_impl :=
  -- Update all UEs state.
  let s1 := s.call_slot_indication env slot_tx
  match s1.cell_res_alloc cell_index with
  | none => none
  | some res_alloc =>
    if !(res_alloc.cfg.is_dl_enabled slot_tx) then
      -- This slot is inactive for PDCCH in this cell: skip the scheduling strategy.
      some s1
    else
      let s2 :=
        if s1.expert_cfg.enable_csi_rs_pdsch_multiplexing || res_alloc.current.result.dl.csi_rs.isEmpty
        then s1.call_dl_sched env
        else s1
      some (s2.call_ul_sched env)

/-! ## `ue_scheduler_impl::handle_error_indication` -/

/-- Body of the loop over `dl_pdcchs` (source lines 193-212). -/
def cancel_dl_pdcch (s : ue_scheduler_impl) (pdcch : pdcch_dl_information) : ue_scheduler_impl :=
  match s.ue_db.find_by_rnti pdcch.ctx.rnti with
  | none => s
  | some u =>
    match pdcch.dci.type with
    | dci_dl_rnti_config_type.tc_rnti_f1_0 =>
      s.perform (harq_cancellation.dl_cancel_harq u
        (to_harq_id pdcch.dci.tc_rnti_f1_0.harq_process_number) 0)
    | dci_dl_rnti_config_type.c_rnti_f1_0 =>
      s.perform (harq_cancellation.dl_cancel_harq u
        (to_harq_id pdcch.dci.c_rnti_f1_0.harq_process_number) 0)
    | _ => s

/-- Body of the loop over `ul_pdcchs` (source lines 213-232). -/
def cancel_ul_pdcch (s : ue_scheduler_impl) (pdcch : pdcch_ul_information) : ue_scheduler_impl :=
  match s.ue_db.find_by_rnti pdcch.ctx.rnti with
  | none => s
  | some u =>
    match pdcch.dci.type with
    | dci_ul_rnti_config_type.c_rnti_f0_0 =>
      s.perform (harq_cancellation.ul_cancel_harq u
        (to_harq_id pdcch.dci.c_rnti_f0_0.harq_process_number))
    | dci_ul_rnti_config_type.c_rnti_f0_1 =>
      s.perform (harq_cancellation.ul_cancel_harq u
        (to_harq_id pdcch.dci.c_rnti_f0_1.harq_process_number))
    | _ => s

/-- Body of the loop over `ue_grants` (source lines 235-244). -/
def cancel_ue_grant (s : ue_scheduler_impl) (grant : dl_msg_alloc) : ue_scheduler_impl :=
  match s.ue_db.find_by_rnti grant.pdsch_cfg.rnti with
  | none => s
  | some u =>
    (List.range grant.pdsch_cfg.codewords.length).foldl
      (fun acc cw_idx =>
        acc.perform (harq_cancellation.dl_cancel_harq u grant.pdsch_cfg.harq_id cw_idx))
      s

/-- Condition of source line 258: the PUSCH carries multiplexed HARQ-ACK bits. -/
def ul_sched_info.has_harq_ack (grant : ul_sched_info) : Bool :=
  match grant.uci with
  | none => false
  | some uci =>
    match uci.harq with
    | none => false
    | some harq => decide (harq.harq_ack_nof_bits > 0)

/-- Body of the loop over `puschs` (source lines 247-261). -/
def cancel_pusch (sl_tx : slot_point) (s : ue_scheduler_impl) (grant : ul_sched_info) :
    ue_scheduler_impl :=
  match s.ue_db.find_by_rnti grant.pusch_cfg.rnti with
  | none => s
  | some u =>
    -- Cancel UL HARQs due to missed PUSCH.
    let s1 := s.perform (harq_cancellation.ul_cancel_harq u grant.pusch_cfg.harq_id)
    -- Cancel DL HARQs due to missed UCI.
    if grant.has_harq_ack then s1.perform (harq_cancellation.cancel_dl_harqs u sl_tx) else s1

/-- Switch of source lines 268-278: the local `has_harq_ack` of a PUCCH grant. -/
def pucch_info.has_harq_ack (pucch : pucch_info) : Bool :=
  match pucch.format with
  | pucch_format.FORMAT_1 => decide (pucch.format_1.harq_ack_nof_bits > 0)
  | pucch_format.FORMAT_2 => decide (pucch.format_2.harq_ack_nof_bits > 0)
  | _ => false

/-- Body of the loop over `pucchs` (source lines 262-283). -/
def cancel_pucch (sl_tx : slot_point) (s : ue_scheduler_impl) (pucch : pucch_info) :
    ue_scheduler_impl :=
  match s.ue_db.find_by_rnti pucch.crnti with
  | none => s
  | some u =>
    if pucch.has_harq_ack then s.perform (harq_cancellation.cancel_dl_harqs u sl_tx) else s

/-- Category flags of an error indication (`scheduler_slot_handler::error_outcome`). -/
structure error_outcome where
  pdcch_discarded : Bool
  pdsch_discarded : Bool
  pusch_and_pucch_discarded : Bool
  deriving DecidableEq, Repr

/-- Source lines 171-285. The result is `none` when `cell_index` lies outside the
cell table `cells`: the source then reads past the array, which has no defined
behaviour; in every other case the call returns. -/
def handle_error_indication (s : ue_scheduler_impl) (sl_tx : slot_point)
    (cell_index : du_cell_index_t) (event : error_outcome) : Option ue_scheduler_impl :=
  if s.cells.length ≤ cell_index then none
  else
    match s.cell_res_alloc cell_index with
    | none =>
      -- Discarding error indication: cell with provided index is not configured.
      some (s.record (sched_event.error_cell_not_configured cell_index))
    | some res_grid =>
      match res_grid.get_history sl_tx with
      | none =>
        -- Discarding error indication: the results of the slot have been erased.
        some (s.record (sched_event.warning_slot_result_erased cell_index sl_tx))
      | some prev_slot_result =>
        let s1 :=
          if event.pdcch_discarded then
            prev_slot_result.result.dl.ul_pdcchs.foldl cancel_ul_pdcch
              (prev_slot_result.result.dl.dl_pdcchs.foldl cancel_dl_pdcch s)
          else s
        let s2 :=
          if event.pdsch_discarded then
            prev_slot_result.result.dl.ue_grants.foldl cancel_ue_grant s1
          else s1
        if event.pusch_and_pucch_discarded then
          some (prev_slot_result.result.ul.pucchs.foldl (cancel_pucch sl_tx)
            (prev_slot_result.result.ul.puschs.foldl (cancel_pusch sl_tx) s2))
        else some s2

/-! ## HARQ feedback bookkeeping -/

/-- Modelled from the spec: `dl_harq_process::increment_pucch_counter()`, the
feedback-counter increment of section 4.1. -/
def dl_harq_process.increment_pucch_counter (h : dl_harq_process) : dl_harq_process :=
  { h with pucch_counter := h.pucch_counter + 1 }

/-- Modelled from the spec: the process awaits an acknowledgment at slot `sl_ack`
(one of its codewords is in Waiting-for-Ack for that slot). -/
def dl_harq_process.is_waiting_ack_at (h : dl_harq_process) (sl_ack : slot_point) : Bool :=
  h.tb_array.any (fun st => decide (st = harq_state.waiting_ack sl_ack))

/-- Modelled from the spec: `find_dl_harq_waiting_ack_slot(sl_ack, harq_bit_idx)`
(`find_waiting_ack` of section 4.1): among the processes awaiting feedback at
the slot, the one addressed by the ordinal bit position, as its process id;
`none` when no process matches. -/
def harq_entity.find_dl_harq_waiting_ack_slot (e : harq_entity) (sl_ack : slot_point)
    (harq_bit_idx : Nat) : Option harq_id_t :=
  e.dl_harqs.findIdx? (fun h => h.is_waiting_ack_at sl_ack && h.harq_bit_idx == harq_bit_idx)

/-- Call `user->get_pcell().harqs.find_dl_harq_waiting_ack_slot(..)` on terminal `u`. -/
def ue_repository.find_dl_harq_waiting_ack_slot (db : ue_repository) (u : du_ue_index_t)
    (sl_ack : slot_point) (harq_bit_idx : Nat) : Option harq_id_t :=
  match db.ues[u]? with
  | some (some x) => x.pcell.harqs.find_dl_harq_waiting_ack_slot sl_ack harq_bit_idx
  | _ => none

/-- Call `h_dl->increment_pucch_counter()` on process `h_id` of terminal `u`. -/
def ue_repository.increment_pucch_counter (db : ue_repository) (u : du_ue_index_t)
    (h_id : harq_id_t) : ue_repository :=
  db.modify_ue u (fun x => x.modify_harqs (fun e =>
    { e with dl_harqs := e.dl_harqs.modify dl_harq_process.increment_pucch_counter h_id }))

/-- The scheduler increments a feedback counter: the directory is updated and the
call is recorded. -/
def ue_scheduler_impl.call_increment_pucch_counter (s : ue_scheduler_impl) (u : du_ue_index_t)
    (h_id : harq_id_t) : ue_scheduler_impl :=
  { s with
    ue_db := s.ue_db.increment_pucch_counter u h_id,
    events := s.events ++ [sched_event.increment_pucch_counter u h_id] }

/-! ## `ue_scheduler_impl::update_harq_pucch_counter` -/

/-- Body of the loop over `harq_bit_idx` (source lines 89-101). -/
def count_harq_bit (slot : slot_point) (u : du_ue_index_t) (s : ue_scheduler_impl)
    (harq_bit_idx : Nat) : ue_scheduler_impl :=
  match s.ue_db.find_dl_harq_waiting_ack_slot u slot harq_bit_idx with
  | none => s.record (sched_event.warning_no_dl_harq u slot harq_bit_idx)
  | some h_dl => s.call_increment_pucch_counter u h_dl

/-- Body of the loop over the PUCCH grants (source lines 69-103). The assertion of
line 82 holds on the path that reaches it, by the condition of lines 70-71. -/
def count_pucch (slot : slot_point) (s : ue_scheduler_impl) (pucch : pucch_info) :
    ue_scheduler_impl :=
  if (pucch.format = pucch_format.FORMAT_1 ∧ pucch.format_1.harq_ack_nof_bits > 0) ∨
      (pucch.format = pucch_format.FORMAT_2 ∧ pucch.format_2.harq_ack_nof_bits > 0) then
    match s.ue_db.find_by_rnti pucch.crnti with
    | none => s.record (sched_event.warning_no_user pucch.crnti slot)
    | some user =>
      let nof_harqs_per_rnti_per_slot :=
        if pucch.format = pucch_format.FORMAT_1 then pucch.format_1.harq_ack_nof_bits
        else pucch.format_2.harq_ack_nof_bits
      (List.range nof_harqs_per_rnti_per_slot).foldl (count_harq_bit slot user) s
  else s

/-- Source lines 60-104; `cell_alloc[HARQ_SLOT_DELAY]` with `HARQ_SLOT_DELAY = 0` is
the allocator of the current slot. -/
def update_harq_pucch_counter (s : ue_scheduler_impl) (cell_alloc : cell_resource_allocator) :
    ue_scheduler_impl :=
  cell_alloc.current.result.ul.pucchs.foldl (count_pucch cell_alloc.current.slot) s

/-! ## `ue_scheduler_impl::puxch_grant_sanitizer` -/

/-- The bit counts logged for a PUCCH grant (source lines 123-133): HARQ-ACK, CSI
part 1 and SR bits, all zero for a format other than 1 and 2. -/
def logged_pucch_bits (pucch : pucch_info) : Nat × Nat × Nat :=
  if pucch.format = pucch_format.FORMAT_1 then
    (pucch.format_1.harq_ack_nof_bits, 0, sr_nof_bits_to_uint pucch.format_1.sr_bits)
  else if pucch.format = pucch_format.FORMAT_2 then
    (pucch.format_2.harq_ack_nof_bits, pucch.format_2.csi_part1_bits,
      sr_nof_bits_to_uint pucch.format_2.sr_bits)
  else (0, 0, 0)

/-- Body of the loop over the PUCCH grants (source lines 116-143). -/
def sanitize_pucch (slot_alloc : cell_slot_resource_allocator) (s : ue_scheduler_impl)
    (pucch : pucch_info) : ue_scheduler_impl :=
  match slot_alloc.result.ul.puschs.find? (fun pusch => pusch.pusch_cfg.rnti == pucch.crnti) with
  | none => s
  | some _ =>
    s.record (sched_event.error_pucch_and_pusch pucch.crnti slot_alloc.slot pucch.format
      (logged_pucch_bits pucch).1 (logged_pucch_bits pucch).2.1 (logged_pucch_bits pucch).2.2)

/-- Source lines 106-144. -/
def puxch_grant_sanitizer (s : ue_scheduler_impl) (cell_alloc : cell_resource_allocator) :
    ue_scheduler_impl :=
  if !(cell_alloc.cfg.is_ul_enabled cell_alloc.current.slot) then s
  else cell_alloc.current.result.ul.pucchs.foldl (sanitize_pucch cell_alloc.current) s

/-! ## `ue_scheduler_impl::run_slot` -/

/-- Collaborators of the per-slot pipeline whose code lies outside the sources at
hand: the event manager, which applies queued terminal events to the
directory, and the UCI and SRB0 sub-schedulers of a cell, which work on the
directory and on the resource grid of their cell. -/
structure slot_collaborators where
  event_mng_run : slot_point → du_cell_index_t → ue_repository → ue_repository
  uci_sched_run_slot : slot_point → ue_repository × cell_resource_allocator →
    ue_repository × cell_resource_allocator
  srb0_sched_run_slot : ue_repository × cell_resource_allocator →
    ue_repository × cell_resource_allocator

/-- Modelled from the spec: `ue_alloc.nof_cells()`, the number of cells registered
with `add_cell`. -/
def ue_scheduler_impl.nof_cells (s : ue_scheduler_impl) : Nat :=
  s.cells.countP Option.isSome

/-- Write through the pointer `cells[cell_index]->cell_res_alloc`. -/
def ue_scheduler_impl.set_cell_res_alloc (s : ue_scheduler_impl) (cell_index : du_cell_index_t)
    (res_alloc : cell_resource_allocator) : ue_scheduler_impl :=
  { s with
    cells := s.cells.modify
      (Option.map (fun c => { c with cell_res_alloc := some res_alloc })) cell_index }

/-- Call `event_mng.run(slot_tx, cell_index)`. -/
def ue_scheduler_impl.call_event_mng_run (cenv : slot_collaborators) (s : ue_scheduler_impl)
    (slot_tx : slot_point) (cell_index : du_cell_index_t) : ue_scheduler_impl :=
  { s with
    ue_db := cenv.event_mng_run slot_tx cell_index s.ue_db,
    events := s.events ++ [sched_event.event_mng_run slot_tx cell_index] }

/-- Call `cells[cell_index]->uci_sched.run_slot(*cells[cell_index]->cell_res_alloc, slot_tx)`. -/
def ue_scheduler_impl.call_uci_sched_run_slot (cenv : slot_collaborators) (s : ue_scheduler_impl)
    (cell_index : du_cell_index_t) (res_alloc : cell_resource_allocator) (slot_tx : slot_point) :
    ue_scheduler_impl :=
  { (s.set_cell_res_alloc cell_index (cenv.uci_sched_run_slot slot_tx (s.ue_db, res_alloc)).2) with
    ue_db := (cenv.uci_sched_run_slot slot_tx (s.ue_db, res_alloc)).1,
    events := s.events ++ [sched_event.uci_sched_run_slot cell_index slot_tx] }

/-- Call `cells[cell_index]->srb0_sched.run_slot(*cells[cell_index]->cell_res_alloc)`. -/
def ue_scheduler_impl.call_srb0_sched_run_slot (cenv : slot_collaborators) (s : ue_scheduler_impl)
    (cell_index : du_cell_index_t) (res_alloc : cell_resource_allocator) : ue_scheduler_impl :=
  { (s.set_cell_res_alloc cell_index (cenv.srb0_sched_run_slot (s.ue_db, res_alloc)).2) with
    ue_db := (cenv.srb0_sched_run_slot (s.ue_db, res_alloc)).1,
    events := s.events ++ [sched_event.srb0_sched_run_slot cell_index] }

/-- Source lines 164-168: the steps of `run_slot` after `sync_point.wait` has
returned. The result is `none` when `cell_index` names no registered cell. -/
def run_slot_after_wait (s : ue_scheduler_impl) (cell_index : du_cell_index_t) :
    Option ue_scheduler_impl :=
  match s.cell_res_alloc cell_index with
  | none => none
  | some res_alloc =>
    -- Update the PUCCH counter after the UE DL and UL scheduler.
    some (puxch_grant_sanitizer (update_harq_pucch_counter s res_alloc) res_alloc)

/-- How a call of `run_slot` stands in a sequential run: it has returned, or its
thread is suspended in `sync_point.wait` until the other cells arrive. -/
inductive run_slot_outcome
  | returned (s : ue_scheduler_impl)
  | blocked (s : ue_scheduler_impl)

/-- Scheduler state carried by an outcome. -/
def run_slot_outcome.state : run_slot_outcome → ue_scheduler_impl
  | run_slot_outcome.returned s => s
  | run_slot_outcome.blocked s => s

/-- Source lines 146-169, called by the thread that drives the cell `cell_index`,
which is the thread arriving at the barrier. The thread that arrives last at
the barrier runs the callback `run_sched_strategy(slot_tx, cell_index)` and
goes on; any other thread is suspended in `wait`. The result is `none` when
`cell_index` names no registered cell or the barrier reports a contract
violation. -/
def run_slot (env : collaborators) (cenv : slot_collaborators) (s : ue_scheduler_impl)
    (slot_tx : slot_point) (cell_index : du_cell_index_t) : Option run_slot_outcome :=
  -- Process any pending events that are directed at UEs.
  let s1 := s.call_event_mng_run cenv slot_tx cell_index
  -- Mark the start of a new slot in the UE grid allocator.
  let s2 := s1.record sched_event.ue_alloc_slot_indication
  match s2.cell_res_alloc cell_index with
  | none => none
  | some res_alloc =>
    -- Schedule periodic UCI (SR and CSI) before any UL grants.
    let s3 := s2.call_uci_sched_run_slot cenv cell_index res_alloc slot_tx
    -- Run cell-specific SRB0 scheduler.
    let s4 := s3.call_srb0_sched_run_slot cenv cell_index
      (cenv.uci_sched_run_slot slot_tx (s2.ue_db, res_alloc)).2
    -- Synchronize all carriers. Last thread to reach this synchronization point, runs UE
    -- scheduling strategy.
    match s4.sync_point.wait cell_index slot_tx s4.nof_cells with
    | none => none
    | some (sp, last) =>
      let s5 : ue_scheduler_impl :=
        { s4 with
          sync_point := sp,
          events := s4.events ++ [sched_event.sync_point_wait cell_index slot_tx s4.nof_cells] }
      if last then
        match run_sched_strategy env s5 slot_tx cell_index with
        | none => none
        | some s6 => (run_slot_after_wait s6 cell_index).map run_slot_outcome.returned
      else some (run_slot_outcome.blocked s5)

/-- The cell threads of `cells` call `run_slot` for `slot_tx` one after the other, in
the order of the list (the order in which they reach the barrier). -/
def run_slot_arrivals (env : collaborators) (cenv : slot_collaborators) (slot_tx : slot_point) :
    ue_scheduler_impl → List du_cell_index_t → Option ue_scheduler_impl
  | s, [] => some s
  | s, cell_index :: rest =>
    match run_slot env cenv s slot_tx cell_index with
    | none => none
    | some out => run_slot_arrivals env cenv slot_tx out.state rest

/-! ## Open Fronthaul RU configuration validator (`lib/ru/ofh/ru_ofh_config_validator.cpp`) -/

/-- Compression methods of the Open Fronthaul interface; the validator accepts
`none` and `BFP` and rejects every other method. -/
inductive compression_type
  | none
  | BFP
  | block_scaling
  | mu_law
  | modulation
  | BFP_selective
  | mod_selective
  deriving DecidableEq, Repr

structure ru_compression_params where
  type : compression_type
  data_width : Nat
  deriving DecidableEq, Repr

structure ru_ofh_sector_configuration where
  ru_prach_port : Nat
  ru_ul_ports : List Nat
  ru_dl_ports : List Nat
  deriving DecidableEq, Repr

structure ru_ofh_configuration where
  ul_compression_params : ru_compression_params
  dl_compression_params : ru_compression_params
  is_downlink_broadcast_enabled : Bool
  is_prach_control_plane_enabled : Bool
  sector_configs : List ru_ofh_sector_configuration
  deriving DecidableEq, Repr

/-- Source lines 16-31 (the printed diagnostics are left out). -/
def check_compression_params (params : ru_compression_params) : Bool :=
  if !(params.type == compression_type.none) && !(params.type == compression_type.BFP) then
    false
  else if params.type == compression_type.BFP && !(params.data_width == 8) &&
      !(params.data_width == 9) && !(params.data_width == 12) && !(params.data_width == 14) &&
      !(params.data_width == 16) then
    false
  else true

/-- Loop of source lines 35-49 over the sectors still to be visited. -/
def check_dl_ports_loop (config : ru_ofh_configuration) :
    List ru_ofh_sector_configuration → Bool
  | [] => true
  | sector :: rest =>
    if !config.is_downlink_broadcast_enabled then check_dl_ports_loop config rest
    -- When broadcast flag is enabled, two downlink ports are supported.
    else if config.is_downlink_broadcast_enabled && sector.ru_dl_ports.length == 2 then
      check_dl_ports_loop config rest
    else false

/-- Source lines 33-52. -/
def check_dl_ports_if_broadcast_is_enabled (config : ru_ofh_configuration) : Bool :=
  check_dl_ports_loop config config.sector_configs

/-- Source lines 54-62; the constant `ofh::MAX_SUPPORTED_EAXC_ID_VALUE` is declared
outside the sources and is taken as a parameter. -/
def check_port_id (MAX_SUPPORTED_EAXC_ID_VALUE : Nat) (port_id : Nat) : Bool :=
  decide (port_id < MAX_SUPPORTED_EAXC_ID_VALUE)

/-- Loop over a port list (source lines 73-77 and 80-84): `false` stands for the
early `return false`, `true` for the loop running to its end. -/
def check_port_list (MAX_SUPPORTED_EAXC_ID_VALUE : Nat) : List Nat → Bool
  | [] => true
  | port :: rest =>
    if !check_port_id MAX_SUPPORTED_EAXC_ID_VALUE port then false
    else check_port_list MAX_SUPPORTED_EAXC_ID_VALUE rest

/-- Loop of source lines 66-85 over the sectors still to be visited. -/
def check_ports_id_loop (MAX_SUPPORTED_EAXC_ID_VALUE : Nat) :
    List ru_ofh_sector_configuration → Bool
  | [] => true
  | sector :: rest =>
    -- Check PRACH port.
    if !check_port_id MAX_SUPPORTED_EAXC_ID_VALUE sector.ru_prach_port then false
    -- Check uplink ports.
    else if !check_port_list MAX_SUPPORTED_EAXC_ID_VALUE sector.ru_ul_ports then false
    -- Check downlink ports
    else if !check_port_list MAX_SUPPORTED_EAXC_ID_VALUE sector.ru_dl_ports then false
    else check_ports_id_loop MAX_SUPPORTED_EAXC_ID_VALUE rest

/-- Source lines 64-88. -/
def check_ports_id (MAX_SUPPORTED_EAXC_ID_VALUE : Nat) (config : ru_ofh_configuration) : Bool :=
  check_ports_id_loop MAX_SUPPORTED_EAXC_ID_VALUE config.sector_configs

/-- Source lines 90-115. -/
def is_valid_ru_ofh_config (MAX_SUPPORTED_EAXC_ID_VALUE : Nat) (config : ru_ofh_configuration) :
    Bool :=
  if !check_compression_params config.ul_compression_params then false
  else if !check_compression_params config.dl_compression_params then false
  else if !check_dl_ports_if_broadcast_is_enabled config then false
  else if !check_ports_id MAX_SUPPORTED_EAXC_ID_VALUE config then false
  else if config.is_prach_control_plane_enabled then false
  else true

/-! ## String helper (`apps/gnb/helpers/string_helpers.h`, namespace `srsgnb`) -/

abbrev std_string := List Char

/-- Input string stream: the characters not yet extracted and whether the stream
is still `good()`. -/
structure stringstream where
  rest : List Char
  good : Bool
  deriving DecidableEq, Repr

/-- Call `std::getline(ss, substr, delimiter)` on a good stream holding `rest`: the
characters up to the delimiter are extracted into `substr` and the delimiter
is extracted and dropped; when the end of the input is reached first, the
stream is no longer good. The result is `substr` and the stream afterwards. -/
def getline (delimiter : Char) : List Char → std_string × stringstream
  | [] => ([], { rest := [], good := false })
  | c :: cs =>
    if c = delimiter then ([], { rest := cs, good := true })
    else (c :: (getline delimiter cs).1, (getline delimiter cs).2)

/-- Loop `while (ss.good())` of source lines 30-37, run for at most `fuel`
iterations; `none` when the fuel runs out before the stream stops being good. -/
def string_parse_list_loop (delimiter : Char) :
    Nat → stringstream → List std_string → Option (List std_string)
  | 0, ss, list => if ss.good then none else some list
  | fuel + 1, ss, list =>
    if ss.good then
      string_parse_list_loop delimiter fuel (getline delimiter ss.rest).2
        (if (getline delimiter ss.rest).1 ≠ [] then list ++ [(getline delimiter ss.rest).1]
         else list)
    else some list

/-- Source lines 22-38 for a sequence container: the stream is built over `input`,
the container is cleared, and the loop is given one iteration more than the
input has characters. -/
def string_parse_list (input : std_string) (delimiter : Char) (_list : List std_string) :
    Option (List std_string) :=
  string_parse_list_loop delimiter (input.length + 1) { rest := input, good := true } []

/-! ## MAC to FAPI conversion of the SSB PDU (`lib/fapi_adaptor/mac/messages/ssb.cpp`) -/

/-- Modelled from the spec: the enumeration `ssb_pss_to_sss_epre` of the MAC is declared
outside the sources; its enumerators are the two that the conversion names,
numbered in that order. -/
inductive ssb_pss_to_sss_epre
  | dB_0
  | dB_3
  deriving DecidableEq, Repr

/-- Numeric value of the enumerator (`static_cast<unsigned>`). -/
def ssb_pss_to_sss_epre.to_uint : ssb_pss_to_sss_epre → Nat
  | ssb_pss_to_sss_epre.dB_0 => 0
  | ssb_pss_to_sss_epre.dB_3 => 1

/-- SSB pattern case of the MAC PDU (`ssb_pattern_case`). -/
inductive ssb_pattern_case
  | A
  | B
  | C
  | D
  | E
  deriving DecidableEq, Repr

inductive subcarrier_spacing
  | kHz15
  | kHz30
  | kHz60
  | kHz120
  | kHz240
  deriving DecidableEq, Repr

inductive dmrs_typeA_position
  | pos2
  | pos3
  deriving DecidableEq, Repr

/-- MIB content of the MAC PDU (`ssb_mib_data_pdu`). -/
structure ssb_mib_data_pdu where
  dmrs_typeA_pos : dmrs_typeA_position
  pdcch_config_sib1 : Nat
  cell_barred : Bool
  intra_freq_reselection : Bool
  deriving DecidableEq, Repr

/-- The MAC SSB PDU `srsran::dl_ssb_pdu`, with the members that the conversion reads;
`subcarrier_offset` and `offset_to_pointA` are bounded integers, held by their
value. -/
structure dl_ssb_pdu where
  pci : Nat
  pss_to_sss_epre : ssb_pss_to_sss_epre
  ssb_index : Nat
  scs : subcarrier_spacing
  subcarrier_offset : Nat
  offset_to_pointA : Nat
  ssb_case : ssb_pattern_case
  L_max : Nat
  mib_data : ssb_mib_data_pdu
  deriving DecidableEq, Repr

namespace fapi

/-- Modelled from the spec: the enumeration `fapi::beta_pss_profile_type` is declared
outside the sources; `dB_0` and `dB_3` carry the numbers 0 and 1 of the FAPI
parameter betaPssProfileNR and `beta_pss_profile_sss` the number 255. -/
inductive beta_pss_profile_type
  | dB_0
  | dB_3
  | beta_pss_profile_sss
  deriving DecidableEq, Repr

/-- Numeric value of the enumerator (`static_cast<unsigned>`). -/
def beta_pss_profile_type.to_uint : beta_pss_profile_type → Nat
  | beta_pss_profile_type.dB_0 => 0
  | beta_pss_profile_type.dB_3 => 1
  | beta_pss_profile_type.beta_pss_profile_sss => 255

inductive bch_payload_type
  | mac_full
  | phy_timing_info
  | phy_full
  deriving DecidableEq, Repr

inductive dmrs_typeA_pos
  | pos2
  | pos3
  deriving DecidableEq, Repr

structure dl_ssb_phy_mib_pdu where
  dmrs_typeA_position : dmrs_typeA_pos := dmrs_typeA_pos.pos2
  pdcch_config_sib1 : Nat := 0
  cell_barred : Bool := false
  intrafreq_reselection : Bool := false
  deriving DecidableEq, Repr

structure dl_ssb_bch_payload where
  phy_mib_pdu : dl_ssb_phy_mib_pdu := {}
  deriving DecidableEq, Repr

structure dl_ssb_maintenance_v3 where
  case_type : ssb_pattern_case := ssb_pattern_case.A
  scs : subcarrier_spacing := subcarrier_spacing.kHz15
  L_max : Nat := 0
  deriving DecidableEq, Repr

/-- The FAPI SSB PDU `fapi::dl_ssb_pdu`, with the members that the unit test
`dl_ssb_pdu_test.cpp` reads. -/
structure dl_ssb_pdu where
  phys_cell_id : Nat := 0
  beta_pss_profile_nr : beta_pss_profile_type := beta_pss_profile_type.dB_0
  ssb_block_index : Nat := 0
  ssb_subcarrier_offset : Nat := 0
  ssb_offset_pointA : Nat := 0
  bch_payload_flag : bch_payload_type := bch_payload_type.mac_full
  bch_payload : dl_ssb_bch_payload := {}
  ssb_maintenance_v3 : dl_ssb_maintenance_v3 := {}
  deriving DecidableEq, Repr

/-- Modelled from the spec: `fapi::dl_ssb_pdu_builder` is not among the sources, only
its calls in `convert_ssb_mac_to_fapi` and the unit test are. The builder
writes into the PDU it was built on; `set_basic_parameters` stores its five
arguments in the members read back by the test. -/
def dl_ssb_pdu_builder.set_basic_parameters (pdu : dl_ssb_pdu) (phys_cell_id : Nat)
    (beta_pss_profile_nr : beta_pss_profile_type) (ssb_block_index : Nat)
    (ssb_subcarrier_offset : Nat) (ssb_offset_pointA : Nat) : dl_ssb_pdu :=
  { pdu with
    phys_cell_id := phys_cell_id,
    beta_pss_profile_nr := beta_pss_profile_nr,
    ssb_block_index := ssb_block_index,
    ssb_subcarrier_offset := ssb_subcarrier_offset,
    ssb_offset_pointA := ssb_offset_pointA }

/-- Modelled from the spec: `set_maintenance_v3_basic_parameters` of the absent builder
stores the case, the subcarrier spacing and `L_max` in `ssb_maintenance_v3`. -/
def dl_ssb_pdu_builder.set_maintenance_v3_basic_parameters (pdu : dl_ssb_pdu)
    (case_type : ssb_pattern_case) (scs : subcarrier_spacing) (L_max : Nat) : dl_ssb_pdu :=
  { pdu with
    ssb_maintenance_v3 :=
      { pdu.ssb_maintenance_v3 with case_type := case_type, scs := scs, L_max := L_max } }

/-- Modelled from the spec: `set_bch_payload_phy_full` of the absent builder sets the
BCH payload flag to `phy_full` and stores the MIB fields, the DM-RS type-A
position as the FAPI enumerator of the same name. -/
def dl_ssb_pdu_builder.set_bch_payload_phy_full (pdu : dl_ssb_pdu)
    (dmrs_type_a_position : dmrs_typeA_position) (pdcch_config_sib1 : Nat)
    (cell_barred : Bool) (intra_freq_reselection : Bool) : dl_ssb_pdu :=
  { pdu with
    bch_payload_flag := bch_payload_type.phy_full,
    bch_payload :=
      { phy_mib_pdu :=
          { dmrs_typeA_position :=
              if dmrs_type_a_position = dmrs_typeA_position.pos2 then dmrs_typeA_pos.pos2
              else dmrs_typeA_pos.pos3,
            pdcch_config_sib1 := pdcch_config_sib1,
            cell_barred := cell_barred,
            intrafreq_reselection := intra_freq_reselection } } }

end fapi

namespace fapi_adaptor

/-- Source lines 16-31. The `default` branch of the source, which also returns `dB_0`,
is reached by no enumerator. -/
def convert_to_beta_pss_profile_nr (value : ssb_pss_to_sss_epre) : fapi.beta_pss_profile_type :=
  match value with
  | ssb_pss_to_sss_epre.dB_0 => fapi.beta_pss_profile_type.dB_0
  | ssb_pss_to_sss_epre.dB_3 => fapi.beta_pss_profile_type.dB_3

/-- Source lines 40-53, the overload on the builder. -/
def convert_ssb_mac_to_fapi_builder (builder : fapi.dl_ssb_pdu) (mac_pdu : dl_ssb_pdu) :
    fapi.dl_ssb_pdu :=
  let b1 := fapi.dl_ssb_pdu_builder.set_basic_parameters builder mac_pdu.pci
    (convert_to_beta_pss_profile_nr mac_pdu.pss_to_sss_epre) mac_pdu.ssb_index
    mac_pdu.subcarrier_offset mac_pdu.offset_to_pointA
  let b2 := fapi.dl_ssb_pdu_builder.set_maintenance_v3_basic_parameters b1 mac_pdu.ssb_case
    mac_pdu.scs mac_pdu.L_max
  let mib_pdu := mac_pdu.mib_data
  fapi.dl_ssb_pdu_builder.set_bch_payload_phy_full b2 mib_pdu.dmrs_typeA_pos
    mib_pdu.pdcch_config_sib1 mib_pdu.cell_barred mib_pdu.intra_freq_reselection

/-- Source lines 33-38: a builder is made on `fapi_pdu` and the conversion is run on
it. -/
def convert_ssb_mac_to_fapi (fapi_pdu : fapi.dl_ssb_pdu) (mac_pdu : dl_ssb_pdu) :
    fapi.dl_ssb_pdu :=
  convert_ssb_mac_to_fapi_builder fapi_pdu mac_pdu

end fapi_adaptor

/-! ## F1AP PDU helpers (`lib/f1ap/common/f1ap_asn1_utils.h`, namespace `srsgnb`) -/

/-- Identifier `gnb_du_ue_f1ap_id_t`: an enumeration over `uint64_t`, so that the cast
of the source keeps the number. -/
abbrev gnb_du_ue_f1ap_id_t := Nat

/-- Error value of `expected`. -/
structure default_error_t where
  deriving DecidableEq, Repr

/-- The result type `expected<T>`: a value or the default error. -/
abbrev expected (α : Type) := Except default_error_t α

/-- Information elements of a UE-associated F1AP message, of which the helpers read
`gnb_du_ue_f1ap_id->value` (and `transaction_id->value` in the initial UL RRC
message transfer). The ASN.1 types are declared outside the sources. -/
structure f1ap_ue_msg_ies where
  gnb_du_ue_f1ap_id : Nat
  transaction_id : Nat := 0
  deriving DecidableEq, Repr

/-- Information elements of an F1AP message that is not UE-associated, of which the
helpers read `transaction_id`. -/
structure f1ap_common_msg_ies where
  transaction_id : Nat
  deriving DecidableEq, Repr

/-- The choice `f1ap_elem_procs_o::init_msg_c`. The twelve types that the header names
have a constructor each; `other` stands for every further initiating message
of the F1AP definition (reset, error indication, paging, and so on), numbered
by its procedure, and `nulltype` for the unset choice. -/
inductive init_msg_c
  | f1_setup_request (m : f1ap_common_msg_ies)
  | gnb_cu_cfg_upd (m : f1ap_common_msg_ies)
  | gnb_du_cfg_upd (m : f1ap_common_msg_ies)
  | f1_removal_request (m : f1ap_common_msg_ies)
  | ue_context_setup_request (m : f1ap_ue_msg_ies)
  | ue_context_release_cmd (m : f1ap_ue_msg_ies)
  | ue_context_mod_request (m : f1ap_ue_msg_ies)
  | ue_context_mod_required (m : f1ap_ue_msg_ies)
  | ue_context_release_request (m : f1ap_ue_msg_ies)
  | dl_rrc_msg_transfer (m : f1ap_ue_msg_ies)
  | ul_rrc_msg_transfer (m : f1ap_ue_msg_ies)
  | init_ul_rrc_msg_transfer (m : f1ap_ue_msg_ies)
  | other (proc_code : Nat)
  | nulltype
  deriving DecidableEq, Repr

/-- The choice `f1ap_elem_procs_o::successful_outcome_c`, with `other` and `nulltype`
as for the initiating messages. -/
inductive successful_outcome_c
  | f1_setup_resp (m : f1ap_common_msg_ies)
  | gnb_cu_cfg_upd_ack (m : f1ap_common_msg_ies)
  | gnb_du_cfg_upd_ack (m : f1ap_common_msg_ies)
  | f1_removal_resp (m : f1ap_common_msg_ies)
  | other (proc_code : Nat) (m : f1ap_ue_msg_ies)
  | nulltype
  deriving DecidableEq, Repr

/-- The choice `f1ap_elem_procs_o::unsuccessful_outcome_c`, with `other` and `nulltype`
as for the initiating messages. -/
inductive unsuccessful_outcome_c
  | f1_setup_fail (m : f1ap_common_msg_ies)
  | gnb_cu_cfg_upd_fail (m : f1ap_common_msg_ies)
  | gnb_du_cfg_upd_fail (m : f1ap_common_msg_ies)
  | f1_removal_fail (m : f1ap_common_msg_ies)
  | other (proc_code : Nat) (m : f1ap_ue_msg_ies)
  | nulltype
  deriving DecidableEq, Repr

structure init_msg_s where
  value : init_msg_c
  deriving DecidableEq, Repr

structure successful_outcome_s where
  value : successful_outcome_c
  deriving DecidableEq, Repr

structure unsuccessful_outcome_s where
  value : unsuccessful_outcome_c
  deriving DecidableEq, Repr

/-- The choice `asn1::f1ap::f1ap_pdu_c`. -/
inductive f1ap_pdu_c
  | init_msg (m : init_msg_s)
  | successful_outcome (m : successful_outcome_s)
  | unsuccessful_outcome (m : unsuccessful_outcome_s)
  | nulltype
  deriving DecidableEq, Repr

/-- Source lines 134-158, `get_gnb_du_ue_f1ap_id(const init_msg_s&)`. -/
def get_gnb_du_ue_f1ap_id_init_msg (init_msg : init_msg_s) : expected gnb_du_ue_f1ap_id_t :=
  match init_msg.value with
  | init_msg_c.ue_context_setup_request m => Except.ok m.gnb_du_ue_f1ap_id
  | init_msg_c.ue_context_release_cmd m => Except.ok m.gnb_du_ue_f1ap_id
  | init_msg_c.ue_context_mod_request m => Except.ok m.gnb_du_ue_f1ap_id
  | init_msg_c.ue_context_mod_required m => Except.ok m.gnb_du_ue_f1ap_id
  | init_msg_c.ue_context_release_request m => Except.ok m.gnb_du_ue_f1ap_id
  | init_msg_c.dl_rrc_msg_transfer m => Except.ok m.gnb_du_ue_f1ap_id
  | init_msg_c.ul_rrc_msg_transfer m => Except.ok m.gnb_du_ue_f1ap_id
  | init_msg_c.init_ul_rrc_msg_transfer m => Except.ok m.gnb_du_ue_f1ap_id
  | _ => Except.error {}

/-- Source lines 160-163, `get_gnb_du_ue_f1ap_id(const successful_outcome_s&)`. -/
def get_gnb_du_ue_f1ap_id_successful_outcome (_success_outcome : successful_outcome_s) :
    expected gnb_du_ue_f1ap_id_t :=
  Except.error {}

/-- Source lines 165-169, `get_gnb_du_ue_f1ap_id(const unsuccessful_outcome_s&)`. -/
def get_gnb_du_ue_f1ap_id_unsuccessful_outcome (_unsuccessful_outcome : unsuccessful_outcome_s) :
    expected gnb_du_ue_f1ap_id_t :=
  Except.error {}

/-- Source lines 171-185, `get_gnb_du_ue_f1ap_id(const f1ap_pdu_c&)`. -/
def get_gnb_du_ue_f1ap_id (pdu : f1ap_pdu_c) : expected gnb_du_ue_f1ap_id_t :=
  match pdu with
  | f1ap_pdu_c.init_msg m => get_gnb_du_ue_f1ap_id_init_msg m
  | f1ap_pdu_c.successful_outcome m => get_gnb_du_ue_f1ap_id_successful_outcome m
  | f1ap_pdu_c.unsuccessful_outcome m => get_gnb_du_ue_f1ap_id_unsuccessful_outcome m
  | _ => Except.error {}

/-- The UE-associated initiating messages of the eight types (UE context setup
request, release command, modification request, modification required,
release request, DL RRC transfer, UL RRC transfer, initial UL RRC transfer),
with their information elements. -/
def init_msg_c.ue_associated : init_msg_c → Option f1ap_ue_msg_ies
  | init_msg_c.ue_context_setup_request m => some m
  | init_msg_c.ue_context_release_cmd m => some m
  | init_msg_c.ue_context_mod_request m => some m
  | init_msg_c.ue_context_mod_required m => some m
  | init_msg_c.ue_context_release_request m => some m
  | init_msg_c.dl_rrc_msg_transfer m => some m
  | init_msg_c.ul_rrc_msg_transfer m => some m
  | init_msg_c.init_ul_rrc_msg_transfer m => some m
  | _ => none

/-! ## CU-CP metrics handler (`lib/cu_cp/metrics_handler/metrics_handler_impl.cpp`) -/

/-- Request of a periodic report: the period and the notifier to report to (the
notifier is held by its identity). -/
structure periodic_metric_report_request where
  period : Nat
  report_notifier : Nat
  deriving DecidableEq, Repr

/-- Context of a periodic session in `sessions`: the notifier and the duration its
timer was last set to, when it was. -/
structure periodic_session_context where
  report_notifier : Option Nat := none
  timer_period : Option Nat := none
  deriving DecidableEq, Repr

/-- Members `sessions` and `free_list` of `metrics_handler_impl`. -/
structure metrics_handler_impl where
  sessions : List periodic_session_context := []
  free_list : List Nat := []
  deriving DecidableEq, Repr

/-- Source lines 86-113, `create_periodic_session`: the new state of the handler and
the session id returned. -/
def metrics_handler_impl.create_periodic_session (h : metrics_handler_impl)
    (request : periodic_metric_report_request) : metrics_handler_impl × Nat :=
  -- Allocate new session
  let alloc : metrics_handler_impl × Nat :=
    if h.free_list.isEmpty then
      ({ h with sessions := h.sessions ++ [({} : periodic_session_context)] },
        (h.sessions ++ [({} : periodic_session_context)]).length - 1)
    else
      ({ h with free_list := h.free_list.dropLast }, h.free_list.getLast?.getD 0)
  -- Setup session timer and handler.
  ({ alloc.1 with
     sessions := alloc.1.sessions.modify
       (fun _ => { report_notifier := some request.report_notifier,
                   timer_period := some request.period }) alloc.2 },
   alloc.2)

/-- Source lines 117-123, `request_session_deletion`; stopping the timer leaves the
context as it is. -/
def metrics_handler_impl.request_session_deletion (h : metrics_handler_impl)
    (session_id : Nat) : metrics_handler_impl :=
  { h with free_list := h.free_list ++ [session_id] }

/-- The session object `periodic_metrics_report_session_impl` (source lines 27-53):
`handler` tells whether the pointer is set (it is set by the constructor and no
member function assigns it afterwards). -/
structure periodic_metrics_report_session_impl where
  handler : Bool
  session_id : Nat
  deriving DecidableEq, Repr

/-- Source lines 43-48, `stop()` of a session, acting on the handler it points to. -/
def periodic_metrics_report_session_impl.stop (session : periodic_metrics_report_session_impl)
    (h : metrics_handler_impl) : periodic_metrics_report_session_impl × metrics_handler_impl :=
  if session.handler then (session, h.request_session_deletion session.session_id)
  else (session, h)

/-- The handler together with the session objects that were returned by
`create_periodic_report_session` and are not destroyed yet, in the order of
their creation. -/
structure metrics_sessions where
  handler : metrics_handler_impl := {}
  live : List periodic_metrics_report_session_impl := []
  deriving DecidableEq, Repr

/-- Source lines 23-58, `create_periodic_report_session`: a session context is
allocated and the session object made for it is handed to the caller. -/
def metrics_sessions.create_periodic_report_session (w : metrics_sessions)
    (request : periodic_metric_report_request) : metrics_sessions :=
  let r := w.handler.create_periodic_session request
  { handler := r.1, live := w.live ++ [{ handler := true, session_id := r.2 }] }

/-- Explicit `stop()` on the live session at position `k` (nothing happens when there
is no such session). -/
def metrics_sessions.stop (w : metrics_sessions) (k : Nat) : metrics_sessions :=
  match w.live[k]? with
  | none => w
  | some session =>
    { handler := (session.stop w.handler).2,
      live := w.live.set k (session.stop w.handler).1 }

/-- Destruction of the live session at position `k`: the destructor (source line 34)
calls `stop()`, and the object is gone. -/
def metrics_sessions.destroy (w : metrics_sessions) (k : Nat) : metrics_sessions :=
  match w.live[k]? with
  | none => w
  | some session =>
    { handler := (session.stop w.handler).2, live := w.live.eraseIdx k }

/-- The calls that a user of the handler can make. -/
inductive metrics_session_call
  | create (request : periodic_metric_report_request)
  | stop (k : Nat)
  | destroy (k : Nat)
  deriving DecidableEq, Repr

def metrics_sessions.call (w : metrics_sessions) : metrics_session_call → metrics_sessions
  | metrics_session_call.create request => w.create_periodic_report_session request
  | metrics_session_call.stop k => w.stop k
  | metrics_session_call.destroy k => w.destroy k

/-- A sequence of calls on a handler that starts without sessions. -/
def metrics_sessions.run (calls : List metrics_session_call) : metrics_sessions :=
  calls.foldl metrics_sessions.call {}

/-- The invariant of the session ids: the live sessions have pairwise distinct ids
and no id of a live session is in the free list. -/
def metrics_sessions.ids_consistent (w : metrics_sessions) : Prop :=
  (w.live.map (fun session => session.session_id)).Nodup ∧
    ∀ session ∈ w.live, session.session_id ∉ w.handler.free_list

instance (w : metrics_sessions) : Decidable w.ids_consistent := by
  unfold metrics_sessions.ids_consistent
  exact inferInstance

/-- Bookkeeping that holds as long as every session id is released once (used in the
proofs): the live sessions have distinct ids and a set handler, the free list
has no repetition and no id of a live session, and every id in use or free is
an index of `sessions`. -/
def metrics_sessions.released_once (w : metrics_sessions) : Prop :=
  w.live.Pairwise (fun a b => a.session_id ≠ b.session_id) ∧
    w.handler.free_list.Nodup ∧
    (∀ session ∈ w.live, session.session_id ∉ w.handler.free_list) ∧
    (∀ session ∈ w.live,
      session.session_id < w.handler.sessions.length ∧ session.handler = true) ∧
    ∀ i ∈ w.handler.free_list, i < w.handler.sessions.length

/-! ## F1-U split gateway bearer (`include/srsran/f1u/cu_up/split_connector/f1u_split_connector.h`) -/

/-- Uplink transport-layer information of a bearer (transport address and GTP-U
tunnel endpoint); the type is declared outside the sources and only the
identity of its values matters here. -/
structure up_transport_layer_info where
  tp_address : Nat
  gtp_teid : Nat
  deriving DecidableEq, Repr

/-- The interface `srs_cu_up::f1u_bearer_disconnector`, seen through the calls made
on it: the arguments of the `disconnect_cu_bearer` calls, in order. -/
structure f1u_bearer_disconnector where
  disconnect_cu_bearer_calls : List up_transport_layer_info := []
  deriving DecidableEq, Repr

/-- Call `disconnector.disconnect_cu_bearer(ul_up_tnl_info)`. -/
def f1u_bearer_disconnector.disconnect_cu_bearer (d : f1u_bearer_disconnector)
    (ul_up_tnl_info : up_transport_layer_info) : f1u_bearer_disconnector :=
  { d with disconnect_cu_bearer_calls := d.disconnect_cu_bearer_calls ++ [ul_up_tnl_info] }

/-- Members of `f1u_split_gateway_cu_bearer` that `stop()` reads or writes, and the
index of the terminal; the disconnector is held by reference and is passed
along with the bearer. -/
structure f1u_split_gateway_cu_bearer where
  ue_index : Nat
  stopped : Bool := false
  ul_tnl_info : up_transport_layer_info
  deriving DecidableEq, Repr

/-- Constructor (source lines 98-114): `stopped` takes its default value `false`. -/
def f1u_split_gateway_cu_bearer.create (ue_index_ : Nat)
    (ul_tnl_info_ : up_transport_layer_info) : f1u_split_gateway_cu_bearer :=
  { ue_index := ue_index_, ul_tnl_info := ul_tnl_info_ }

/-- Source lines 118-124, `stop()`. -/
def f1u_split_gateway_cu_bearer.stop
    (b : f1u_split_gateway_cu_bearer × f1u_bearer_disconnector) :
    f1u_split_gateway_cu_bearer × f1u_bearer_disconnector :=
  let disconnector :=
    if !b.1.stopped then b.2.disconnect_cu_bearer b.1.ul_tnl_info else b.2
  ({ b.1 with stopped := true }, disconnector)

/-- Source line 116, the destructor: it calls `stop()`, after which the bearer is
gone and the disconnector remains. -/
def f1u_split_gateway_cu_bearer.destroy
    (b : f1u_split_gateway_cu_bearer × f1u_bearer_disconnector) : f1u_bearer_disconnector :=
  (f1u_split_gateway_cu_bearer.stop b).2

/-- The bearer after `n` calls of `stop()`. -/
def f1u_split_gateway_cu_bearer.stop_times (n : Nat)
    (b : f1u_split_gateway_cu_bearer × f1u_bearer_disconnector) :
    f1u_split_gateway_cu_bearer × f1u_bearer_disconnector :=
  Nat.iterate f1u_split_gateway_cu_bearer.stop n b

/-! ## Notions used in the statements -/

/-- State of codeword `cw_idx` of downlink HARQ process `h_id` of the terminal at
index `u`, when there is one. -/
def ue_repository.dl_harq_state (db : ue_repository) (u : du_ue_index_t) (h_id : harq_id_t)
    (cw_idx : Nat) : Option harq_state :=
  match db.ues[u]? with
  | some (some x) =>
    match x.pcell.harqs.dl_harqs[h_id]? with
    | some h => h.tb_array[cw_idx]?
    | none => none
  | _ => none

/-- State of uplink HARQ process `h_id` of the terminal at index `u`. -/
def ue_repository.ul_harq_state (db : ue_repository) (u : du_ue_index_t) (h_id : harq_id_t) :
    Option harq_state :=
  match db.ues[u]? with
  | some (some x) =>
    match x.pcell.harqs.ul_harqs[h_id]? with
    | some h => some h.tb
    | none => none
  | _ => none

/-- Number of HARQ-ACK bits carried by a PUCCH grant, read from the member of its
active format. -/
def pucch_info.harq_ack_nof_bits (pucch : pucch_info) : Nat :=
  match pucch.format with
  | pucch_format.FORMAT_0 => pucch.format_0.harq_ack_nof_bits
  | pucch_format.FORMAT_1 => pucch.format_1.harq_ack_nof_bits
  | pucch_format.FORMAT_2 => pucch.format_2.harq_ack_nof_bits
  | pucch_format.FORMAT_3 => pucch.format_3.harq_ack_nof_bits
  | pucch_format.FORMAT_4 => pucch.format_4.harq_ack_nof_bits

/-- Every category named by `a` is named by `b`. -/
def error_outcome.subset (a b : error_outcome) : Prop :=
  (a.pdcch_discarded = true → b.pdcch_discarded = true) ∧
  (a.pdsch_discarded = true → b.pdsch_discarded = true) ∧
  (a.pusch_and_pucch_discarded = true → b.pusch_and_pucch_discarded = true)

/-- The categories named by `a` or by `b`. -/
def error_outcome.union (a b : error_outcome) : error_outcome :=
  { pdcch_discarded := a.pdcch_discarded || b.pdcch_discarded,
    pdsch_discarded := a.pdsch_discarded || b.pdsch_discarded,
    pusch_and_pucch_discarded := a.pusch_and_pucch_discarded || b.pusch_and_pucch_discarded }

/-- The two category sets have a category in common. -/
def error_outcome.overlap (a b : error_outcome) : Prop :=
  (a.pdcch_discarded = true ∧ b.pdcch_discarded = true) ∨
  (a.pdsch_discarded = true ∧ b.pdsch_discarded = true) ∨
  (a.pusch_and_pucch_discarded = true ∧ b.pusch_and_pucch_discarded = true)

/-- A slot result restricted to the grants whose RNTI is found in the directory. -/
def restrict_to_found (db : ue_repository) (res : sched_result) : sched_result :=
  { dl :=
      { dl_pdcchs := res.dl.dl_pdcchs.filter (fun g => (db.find_by_rnti g.ctx.rnti).isSome),
        ul_pdcchs := res.dl.ul_pdcchs.filter (fun g => (db.find_by_rnti g.ctx.rnti).isSome),
        ue_grants := res.dl.ue_grants.filter (fun g => (db.find_by_rnti g.pdsch_cfg.rnti).isSome),
        csi_rs := res.dl.csi_rs },
    ul :=
      { puschs := res.ul.puschs.filter (fun g => (db.find_by_rnti g.pusch_cfg.rnti).isSome),
        pucchs := res.ul.pucchs.filter (fun g => (db.find_by_rnti g.crnti).isSome) } }

/-! ## The rollback as a list of cancellation calls (used in the proofs) -/

/-- Run a list of cancellation calls on the directory, first call first. -/
def run_cancellations (cs : List harq_cancellation) (db : ue_repository) : ue_repository :=
  cs.foldl (fun acc c => c.run acc) db

/-- The scheduler performs a list of cancellation calls. -/
def ue_scheduler_impl.perform_all (s : ue_scheduler_impl) (cs : List harq_cancellation) :
    ue_scheduler_impl :=
  cs.foldl ue_scheduler_impl.perform s

/-- Terminal addressed by a cancellation call. -/
def harq_cancellation.target : harq_cancellation → du_ue_index_t
  | harq_cancellation.dl_cancel_harq u _ _ => u
  | harq_cancellation.ul_cancel_harq u _ => u
  | harq_cancellation.cancel_dl_harqs u _ => u

/-- Effect of a cancellation call on the HARQ entity of its terminal. -/
def harq_cancellation.on_harqs : harq_cancellation → harq_entity → harq_entity
  | harq_cancellation.dl_cancel_harq _ h_id cw_idx => fun e => e.dl_cancel_harq h_id cw_idx
  | harq_cancellation.ul_cancel_harq _ h_id => fun e => e.ul_cancel_harq h_id
  | harq_cancellation.cancel_dl_harqs _ uci_slot => fun e => e.cancel_dl_harqs uci_slot

/-- Effect of a cancellation call on the state of codeword `cw_idx` of downlink
process `h_id` of terminal `u`. -/
def harq_cancellation.dl_effect (c : harq_cancellation) (u : du_ue_index_t) (h_id : harq_id_t)
    (cw_idx : Nat) (st : harq_state) : harq_state :=
  match c with
  | harq_cancellation.dl_cancel_harq u0 h0 cw0 =>
    if u0 = u ∧ h0 = h_id ∧ cw0 = cw_idx then harq_state.empty else st
  | harq_cancellation.ul_cancel_harq _ _ => st
  | harq_cancellation.cancel_dl_harqs u0 uci_slot =>
    if u0 = u then cancel_if_waiting_ack uci_slot st else st

/-- Calls issued for one downlink PDCCH, given the directory lookup `find`. -/
def dl_pdcch_cancellations (find : rnti_t → Option du_ue_index_t) (pdcch : pdcch_dl_information) :
    List harq_cancellation :=
  match find pdcch.ctx.rnti with
  | none => []
  | some u =>
    match pdcch.dci.type with
    | dci_dl_rnti_config_type.tc_rnti_f1_0 =>
      [harq_cancellation.dl_cancel_harq u (to_harq_id pdcch.dci.tc_rnti_f1_0.harq_process_number) 0]
    | dci_dl_rnti_config_type.c_rnti_f1_0 =>
      [harq_cancellation.dl_cancel_harq u (to_harq_id pdcch.dci.c_rnti_f1_0.harq_process_number) 0]
    | _ => []

/-- Calls issued for one uplink PDCCH. -/
def ul_pdcch_cancellations (find : rnti_t → Option du_ue_index_t) (pdcch : pdcch_ul_information) :
    List harq_cancellation :=
  match find pdcch.ctx.rnti with
  | none => []
  | some u =>
    match pdcch.dci.type with
    | dci_ul_rnti_config_type.c_rnti_f0_0 =>
      [harq_cancellation.ul_cancel_harq u (to_harq_id pdcch.dci.c_rnti_f0_0.harq_process_number)]
    | dci_ul_rnti_config_type.c_rnti_f0_1 =>
      [harq_cancellation.ul_cancel_harq u (to_harq_id pdcch.dci.c_rnti_f0_1.harq_process_number)]
    | _ => []

/-- Calls issued for one downlink data grant. -/
def ue_grant_cancellations (find : rnti_t → Option du_ue_index_t) (grant : dl_msg_alloc) :
    List harq_cancellation :=
  match find grant.pdsch_cfg.rnti with
  | none => []
  | some u =>
    (List.range grant.pdsch_cfg.codewords.length).map
      (fun cw_idx => harq_cancellation.dl_cancel_harq u grant.pdsch_cfg.harq_id cw_idx)

/-- Calls issued for one PUSCH grant. -/
def pusch_cancellations (sl_tx : slot_point) (find : rnti_t → Option du_ue_index_t)
    (grant : ul_sched_info) : List harq_cancellation :=
  match find grant.pusch_cfg.rnti with
  | none => []
  | some u =>
    harq_cancellation.ul_cancel_harq u grant.pusch_cfg.harq_id ::
      (if grant.has_harq_ack then [harq_cancellation.cancel_dl_harqs u sl_tx] else [])

/-- Calls issued for one PUCCH grant. -/
def pucch_cancellations (sl_tx : slot_point) (find : rnti_t → Option du_ue_index_t)
    (pucch : pucch_info) : List harq_cancellation :=
  match find pucch.crnti with
  | none => []
  | some u => if pucch.has_harq_ack then [harq_cancellation.cancel_dl_harqs u sl_tx] else []

/-- Calls issued for the control-channel category. -/
def pdcch_category_cancellations (find : rnti_t → Option du_ue_index_t) (res : sched_result) :
    List harq_cancellation :=
  res.dl.dl_pdcchs.flatMap (dl_pdcch_cancellations find) ++
    res.dl.ul_pdcchs.flatMap (ul_pdcch_cancellations find)

/-- Calls issued for the downlink-data category. -/
def pdsch_category_cancellations (find : rnti_t → Option du_ue_index_t) (res : sched_result) :
    List harq_cancellation :=
  res.dl.ue_grants.flatMap (ue_grant_cancellations find)

/-- Calls issued for the uplink category. -/
def pusch_pucch_category_cancellations (sl_tx : slot_point) (find : rnti_t → Option du_ue_index_t)
    (res : sched_result) : List harq_cancellation :=
  res.ul.puschs.flatMap (pusch_cancellations sl_tx find) ++
    res.ul.pucchs.flatMap (pucch_cancellations sl_tx find)

/-- All calls of a rollback, in the order in which the source issues them. -/
def rollback_cancellations (find : rnti_t → Option du_ue_index_t) (sl_tx : slot_point)
    (event : error_outcome) (res : sched_result) : List harq_cancellation :=
  (if event.pdcch_discarded then pdcch_category_cancellations find res else []) ++
    ((if event.pdsch_discarded then pdsch_category_cancellations find res else []) ++
      (if event.pusch_and_pucch_discarded then pusch_pucch_category_cancellations sl_tx find res
       else []))

/-! ## Notions used in the statements on the per-slot pipeline -/

/-- The terminal and process of an `increment_pucch_counter` call, `none` for any
other event. -/
def increment_of : sched_event → Option (du_ue_index_t × harq_id_t)
  | sched_event.increment_pucch_counter u h_id => some (u, h_id)
  | _ => none

/-- Apply a list of feedback-counter increments to the directory, first one first. -/
def apply_increments (ps : List (du_ue_index_t × harq_id_t)) (db : ue_repository) :
    ue_repository :=
  ps.foldl (fun acc p => acc.increment_pucch_counter p.1 p.2) db

/-- The pairs (PUCCH grant, bit index) of a slot result that resolve to a process, in
the order of the grants and of the bit indices, each given as the terminal and
the process it resolves to: the grant has format 1 or 2, the bit index is below
its number of HARQ-ACK bits, its RNTI is found in the directory and
`find_dl_harq_waiting_ack_slot(slot, i)` returns a process. -/
def resolved_feedback_bits (db : ue_repository) (slot : slot_point) (pucchs : List pucch_info) :
    List (du_ue_index_t × harq_id_t) :=
  pucchs.flatMap (fun g =>
    if g.format = pucch_format.FORMAT_1 ∨ g.format = pucch_format.FORMAT_2 then
      match db.find_by_rnti g.crnti with
      | none => []
      | some u =>
        (List.range g.harq_ack_nof_bits).filterMap
          (fun i => (db.find_dl_harq_waiting_ack_slot u slot i).map (fun h_id => (u, h_id)))
    else [])

/-- Events that `update_harq_pucch_counter` can record. -/
def sched_event.is_pucch_counter_event : sched_event → Prop
  | sched_event.increment_pucch_counter _ _ => True
  | sched_event.warning_no_user _ _ => True
  | sched_event.warning_no_dl_harq _ _ _ => True
  | _ => False

/-- Events that `puxch_grant_sanitizer` can record. -/
def sched_event.is_sanitizer_event : sched_event → Prop
  | sched_event.error_pucch_and_pusch _ _ _ _ _ _ => True
  | _ => False

/-- Content of the active format of a PUCCH grant. -/
def pucch_info.active_content (pucch : pucch_info) : pucch_format_content :=
  match pucch.format with
  | pucch_format.FORMAT_0 => pucch.format_0
  | pucch_format.FORMAT_1 => pucch.format_1
  | pucch_format.FORMAT_2 => pucch.format_2
  | pucch_format.FORMAT_3 => pucch.format_3
  | pucch_format.FORMAT_4 => pucch.format_4

/-- Number of HARQ-ACK, scheduling-request and CSI bits carried by a PUCCH grant. -/
def pucch_info.nof_uci_bits (pucch : pucch_info) : Nat :=
  pucch.active_content.harq_ack_nof_bits + sr_nof_bits_to_uint pucch.active_content.sr_bits +
    pucch.active_content.csi_part1_bits

/-- The cancellations of the control-channel category as the claim lists them: for
each downlink PDCCH of type tc_rnti_f1_0 or c_rnti_f1_0 whose terminal is
found, codeword 0 of the downlink process numbered by the DCI; then for each
uplink PDCCH of type c_rnti_f0_0 or c_rnti_f0_1 whose terminal is found, the
uplink process numbered by the DCI. -/
def expected_pdcch_cancellations (db : ue_repository) (res : sched_result) :
    List harq_cancellation :=
  res.dl.dl_pdcchs.filterMap (fun pdcch =>
    match db.find_by_rnti pdcch.ctx.rnti with
    | none => none
    | some u =>
      if pdcch.dci.type = dci_dl_rnti_config_type.tc_rnti_f1_0 then
        some (harq_cancellation.dl_cancel_harq u
          (to_harq_id pdcch.dci.tc_rnti_f1_0.harq_process_number) 0)
      else if pdcch.dci.type = dci_dl_rnti_config_type.c_rnti_f1_0 then
        some (harq_cancellation.dl_cancel_harq u
          (to_harq_id pdcch.dci.c_rnti_f1_0.harq_process_number) 0)
      else none) ++
  res.dl.ul_pdcchs.filterMap (fun pdcch =>
    match db.find_by_rnti pdcch.ctx.rnti with
    | none => none
    | some u =>
      if pdcch.dci.type = dci_ul_rnti_config_type.c_rnti_f0_0 then
        some (harq_cancellation.ul_cancel_harq u
          (to_harq_id pdcch.dci.c_rnti_f0_0.harq_process_number))
      else if pdcch.dci.type = dci_ul_rnti_config_type.c_rnti_f0_1 then
        some (harq_cancellation.ul_cancel_harq u
          (to_harq_id pdcch.dci.c_rnti_f0_1.harq_process_number))
      else none)

/-- The scheduler records the events of the feedback bookkeeping and applies the
increments among them. -/
def ue_scheduler_impl.log_counter_events (s : ue_scheduler_impl) (evs : List sched_event) :
    ue_scheduler_impl :=
  { s with
    ue_db := apply_increments (evs.filterMap increment_of) s.ue_db,
    events := s.events ++ evs }

/-- Events recorded for one acknowledgment bit of a PUCCH grant. -/
def count_harq_bit_events (db : ue_repository) (slot : slot_point) (u : du_ue_index_t)
    (harq_bit_idx : Nat) : List sched_event :=
  match db.find_dl_harq_waiting_ack_slot u slot harq_bit_idx with
  | none => [sched_event.warning_no_dl_harq u slot harq_bit_idx]
  | some h_dl => [sched_event.increment_pucch_counter u h_dl]

/-- Events recorded for one PUCCH grant. -/
def count_pucch_events (db : ue_repository) (slot : slot_point) (pucch : pucch_info) :
    List sched_event :=
  if (pucch.format = pucch_format.FORMAT_1 ∧ pucch.format_1.harq_ack_nof_bits > 0) ∨
      (pucch.format = pucch_format.FORMAT_2 ∧ pucch.format_2.harq_ack_nof_bits > 0) then
    match db.find_by_rnti pucch.crnti with
    | none => [sched_event.warning_no_user pucch.crnti slot]
    | some user =>
      (List.range
        (if pucch.format = pucch_format.FORMAT_1 then pucch.format_1.harq_ack_nof_bits
         else pucch.format_2.harq_ack_nof_bits)).flatMap (count_harq_bit_events db slot user)
  else []

/-- Events recorded by the sanitizer for one PUCCH grant. -/
def sanitize_pucch_events (slot_alloc : cell_slot_resource_allocator) (pucch : pucch_info) :
    List sched_event :=
  match slot_alloc.result.ul.puschs.find? (fun pusch => pusch.pusch_cfg.rnti == pucch.crnti) with
  | none => []
  | some _ =>
    [sched_event.error_pucch_and_pusch pucch.crnti slot_alloc.slot pucch.format
      (logged_pucch_bits pucch).1 (logged_pucch_bits pucch).2.1 (logged_pucch_bits pucch).2.2]

/-- Effect of a cancellation call on the state of uplink process `h_id` of terminal
`u`. -/
def harq_cancellation.ul_effect (c : harq_cancellation) (u : du_ue_index_t) (h_id : harq_id_t)
    (st : harq_state) : harq_state :=
  match c with
  | harq_cancellation.ul_cancel_harq u0 h0 =>
    if u0 = u ∧ h0 = h_id then harq_state.empty else st
  | _ => st

/-! ## The per-slot pipeline up to the barrier (used in the proofs) -/

/-- Scheduler after the steps of `run_slot` that precede `sync_point.wait` (source
lines 148-158), for a registered cell with resource allocator `res_alloc`. -/
def run_slot_before_wait (cenv : slot_collaborators) (s : ue_scheduler_impl)
    (slot_tx : slot_point) (cell_index : du_cell_index_t) (res_alloc : cell_resource_allocator) :
    ue_scheduler_impl :=
  (((s.call_event_mng_run cenv slot_tx cell_index).record
    sched_event.ue_alloc_slot_indication).call_uci_sched_run_slot cenv cell_index res_alloc
      slot_tx).call_srb0_sched_run_slot cenv cell_index
        (cenv.uci_sched_run_slot slot_tx
          (((s.call_event_mng_run cenv slot_tx cell_index).record
            sched_event.ue_alloc_slot_indication).ue_db, res_alloc)).2

/-- The cancellation call an event records, when the event is one. -/
def sched_event.cancellation : sched_event → Option harq_cancellation
  | sched_event.cancel c => some c
  | _ => none

/-- Cancellations performed by a call that takes the scheduler from `s` to `r`: the
cancellation calls recorded in `r` after the events of `s`, in their order. -/
def performed_cancellations (s r : ue_scheduler_impl) : List harq_cancellation :=
  (r.events.drop s.events.length).filterMap sched_event.cancellation

/-- Joining the elements of a list with the delimiter between consecutive elements. -/
def string_join (delimiter : Char) (list : List std_string) : std_string :=
  [delimiter].intercalate list

/-! ## Concrete schedulers used to evaluate the embedding -/

/-- Terminal with RNTI 17921 at index 0: downlink HARQ process 0 awaits its
acknowledgment at slot 54, uplink HARQ process 0 is pending. -/
def sample_ue : ue :=
  { ue_index := 0, crnti := 17921,
    pcell := { harqs := { dl_harqs := [{ tb_array := [harq_state.waiting_ack 54] }],
                          ul_harqs := [{ tb := harq_state.pending }] } } }

def sample_ue_db : ue_repository :=
  { ues := [some sample_ue], rnti_to_ue_index_lookup := [(17921, 0)] }

/-- Resource grid of the sample cell, with the given downlink activity and history. -/
def sample_grid (dl_enabled : Bool) (history : List cell_slot_resource_allocator) :
    cell_resource_allocator :=
  { cfg := { is_dl_enabled := fun _ => dl_enabled, is_ul_enabled := fun _ => true },
    current := { slot := 55 }, history := history }

/-- Scheduler with the sample terminal and one registered cell (index 0). -/
def sample_sched (dl_enabled : Bool) (history : List cell_slot_resource_allocator) :
    ue_scheduler_impl :=
  { expert_cfg := { enable_csi_rs_pdsch_multiplexing := false },
    ue_db := sample_ue_db,
    cells := [some { cell_res_alloc := some (sample_grid dl_enabled history) }] }

/-- Scheduler whose cell table has one entry, left unconfigured. -/
def sample_sched_no_cell : ue_scheduler_impl :=
  { expert_cfg := { enable_csi_rs_pdsch_multiplexing := false },
    ue_db := sample_ue_db,
    cells := [none] }

/-- Collaborators that leave the scheduler data as they find it. -/
def sample_env : collaborators :=
  { ue_db_slot_indication := fun _ db => db, dl_sched := id, ul_sched := id }

/-- PUCCH grant of format 3 for the sample terminal carrying one HARQ-ACK bit. -/
def sample_pucch_f3 : pucch_info :=
  { crnti := 17921, format := pucch_format.FORMAT_3,
    format_0 := { harq_ack_nof_bits := 1 }, format_1 := { harq_ack_nof_bits := 1 },
    format_2 := { harq_ack_nof_bits := 1 }, format_3 := { harq_ack_nof_bits := 1 },
    format_4 := { harq_ack_nof_bits := 1 } }

/-- PUCCH grant of format 1 for the sample terminal carrying one HARQ-ACK bit. -/
def sample_pucch_f1 : pucch_info :=
  { crnti := 17921, format := pucch_format.FORMAT_1, format_1 := { harq_ack_nof_bits := 1 } }

/-- Downlink PDCCH for the sample terminal, DCI 1_0 with C-RNTI, HARQ process 0. -/
def sample_dl_pdcch : pdcch_dl_information :=
  { ctx := { rnti := 17921 },
    dci := { type := dci_dl_rnti_config_type.c_rnti_f1_0,
             c_rnti_f1_0 := { harq_process_number := 0 } } }

/-- Downlink PDCCH for a terminal (RNTI 17999) that is not in the directory. -/
def sample_dl_pdcch_unknown : pdcch_dl_information :=
  { ctx := { rnti := 17999 },
    dci := { type := dci_dl_rnti_config_type.c_rnti_f1_0,
             c_rnti_f1_0 := { harq_process_number := 0 } } }

/-- Downlink data grant for the sample terminal: HARQ process 0, one codeword. -/
def sample_ue_grant : dl_msg_alloc :=
  { pdsch_cfg := { rnti := 17921, harq_id := 0, codewords := [{}] } }

/-- PUSCH grant for the sample terminal: HARQ process 0, no multiplexed UCI. -/
def sample_pusch : ul_sched_info :=
  { pusch_cfg := { rnti := 17921, harq_id := 0 }, uci := none }

/-- History whose slot 54 holds a PDCCH of a removed terminal before one of the
sample terminal. -/
def sample_history_removed_ue : List cell_slot_resource_allocator :=
  [{ slot := 54,
     result := { dl := { dl_pdcchs := [sample_dl_pdcch_unknown, sample_dl_pdcch] } } }]

/-- The same history restricted to the grants of terminals in the directory. -/
def sample_history_found_ue : List cell_slot_resource_allocator :=
  [{ slot := 54, result := { dl := { dl_pdcchs := [sample_dl_pdcch] } } }]

/-- History whose slot 54 holds a downlink data grant and a PUSCH grant of the
sample terminal. -/
def sample_history_data : List cell_slot_resource_allocator :=
  [{ slot := 54,
     result := { dl := { ue_grants := [sample_ue_grant] }, ul := { puschs := [sample_pusch] } } }]

/-- Strategy calls of `run_sched_strategy` after the slot indication, as decided by
the two conditions of the source: the downlink being enabled in the slot (line
42) and the admission of PDSCH next to CSI-RS (line 54). -/
def strategy_calls (dl_enabled pdsch_allowed : Bool) : List sched_event :=
  if dl_enabled then
    (if pdsch_allowed then [sched_event.dl_sched] else []) ++ [sched_event.ul_sched]
  else []

/-- Collaborators of the per-slot pipeline that leave the scheduler data as they
find it. -/
def sample_cenv : slot_collaborators :=
  { event_mng_run := fun _ _ db => db, uci_sched_run_slot := fun _ d => d,
    srb0_sched_run_slot := fun d => d }

/-- Resource grid whose current slot 55 holds the given uplink grants, with the
given uplink activity. -/
def sample_grid_ul (ul_enabled : Bool) (pucchs : List pucch_info) (puschs : List ul_sched_info) :
    cell_resource_allocator :=
  { cfg := { is_dl_enabled := fun _ => true, is_ul_enabled := fun _ => ul_enabled },
    current := { slot := 55, result := { ul := { puschs := puschs, pucchs := pucchs } } },
    history := [] }

/-- PUCCH grant of format 1 for the sample terminal that carries no HARQ-ACK, no
scheduling-request and no CSI bit. -/
def sample_pucch_no_bits : pucch_info :=
  { crnti := 17921, format := pucch_format.FORMAT_1 }

/-- Scheduler with the sample terminal and two registered cells (indices 0 and 1). -/
def sample_sched_two_cells : ue_scheduler_impl :=
  { expert_cfg := { enable_csi_rs_pdsch_multiplexing := false },
    ue_db := sample_ue_db,
    cells := [some { cell_res_alloc := some (sample_grid true []) },
              some { cell_res_alloc := some (sample_grid true []) }] }

/-- Scheduler with the sample terminal and two registered cells: the downlink is
enabled in cell 0 and disabled in cell 1. -/
def sample_sched_mixed_cells : ue_scheduler_impl :=
  { expert_cfg := { enable_csi_rs_pdsch_multiplexing := false },
    ue_db := sample_ue_db,
    cells := [some { cell_res_alloc := some (sample_grid true []) },
              some { cell_res_alloc := some (sample_grid false []) }] }

/-- The slot result without the PUCCH grants of a format other than 1 and 2. -/
def without_other_pucch_formats (res : sched_result) : sched_result :=
  { res with
    ul := { res.ul with
      pucchs := res.ul.pucchs.filter
        (fun pucch => decide (pucch.format = pucch_format.FORMAT_1 ∨
          pucch.format = pucch_format.FORMAT_2)) } }

/-- History whose slot 54 holds two PUCCH grants of the sample terminal with one
HARQ-ACK bit each, the first of format 3 and the second of format 1. -/
def sample_history_pucch_formats : List cell_slot_resource_allocator :=
  [{ slot := 54, result := { ul := { pucchs := [sample_pucch_f3, sample_pucch_f1] } } }]

/-! ## List lemmas -/

theorem list_modify_comm {α : Type} (f g : α → α) (m n : Nat) (l : List α)
    (h : m ≠ n ∨ ∀ x, f (g x) = g (f x)) :
    (l.modify g n).modify f m = (l.modify f m).modify g n := by
  by_cases hmn : m = n
  · subst hmn
    have hc : ∀ x, f (g x) = g (f x) := by
      rcases h with h | h
      · exact absurd rfl h
      · exact h
    rw [List.modify_modify_eq, List.modify_modify_eq]
    congr 1
    funext x
    exact hc x
  · exact (List.modify_modify_ne f g l hmn).symm

theorem list_modify_idem {α : Type} (f : α → α) (n : Nat) (l : List α)
    (h : ∀ x, f (f x) = f x) : (l.modify f n).modify f n = l.modify f n := by
  rw [List.modify_modify_eq]
  congr 1
  funext x
  exact h x

theorem list_map_modify {α : Type} (F f : α → α) (n : Nat) (l : List α)
    (h : ∀ x, F (f x) = f (F x)) : (l.modify f n).map F = (l.map F).modify f n := by
  induction l generalizing n with
  | nil => simp
  | cons a t ih =>
    cases n with
    | zero => simp [h]
    | succ k => simp [ih]

theorem list_map_set {α : Type} (F : α → α) (n : Nat) (a : α) (l : List α) (h : F a = a) :
    (l.set n a).map F = (l.map F).set n a := by
  induction l generalizing n with
  | nil => simp
  | cons b t ih =>
    cases n with
    | zero => simp [h]
    | succ k => simp [ih]

theorem list_set_comm_same {α : Type} (a : α) (m n : Nat) (l : List α) :
    (l.set m a).set n a = (l.set n a).set m a := by
  by_cases hmn : m = n
  · subst hmn; rfl
  · exact List.set_comm a a l hmn

/-! ## Algebra of the cancellation calls -/

theorem cancel_if_waiting_ack_comm (a b : slot_point) (st : harq_state) :
    cancel_if_waiting_ack a (cancel_if_waiting_ack b st) =
      cancel_if_waiting_ack b (cancel_if_waiting_ack a st) := by
  unfold cancel_if_waiting_ack
  by_cases h1 : st = harq_state.waiting_ack a <;> by_cases h2 : st = harq_state.waiting_ack b
  · simp [h1, h2]
  · simp [h1, h2]
  · subst h2
    by_cases hba : b = a
    · subst hba; exact absurd rfl h1
    · simp [hba]
  · simp [h1, h2]

theorem cancel_if_waiting_ack_idem (a : slot_point) (st : harq_state) :
    cancel_if_waiting_ack a (cancel_if_waiting_ack a st) = cancel_if_waiting_ack a st := by
  unfold cancel_if_waiting_ack
  by_cases h1 : st = harq_state.waiting_ack a <;> simp [h1]

theorem cancel_if_waiting_ack_empty (a : slot_point) :
    cancel_if_waiting_ack a harq_state.empty = harq_state.empty := by
  simp [cancel_if_waiting_ack]

theorem on_harqs_comm (a b : harq_cancellation) (e : harq_entity) :
    a.on_harqs (b.on_harqs e) = b.on_harqs (a.on_harqs e) := by
  cases a with
  | dl_cancel_harq u h c =>
    cases b with
    | dl_cancel_harq u2 h2 c2 =>
      simp only [harq_cancellation.on_harqs, harq_entity.dl_cancel_harq]
      congr 1
      apply list_modify_comm
      right
      intro x
      simp only [dl_harq_process.cancel_harq]
      congr 1
      exact list_set_comm_same _ _ _ _
    | ul_cancel_harq u2 h2 => rfl
    | cancel_dl_harqs u2 sl2 =>
      simp only [harq_cancellation.on_harqs, harq_entity.dl_cancel_harq,
        harq_entity.cancel_dl_harqs]
      congr 1
      symm
      apply list_map_modify
      intro x
      simp only [dl_harq_process.cancel_harq, dl_harq_process.cancel_waiting_ack]
      congr 1
      exact list_map_set _ _ _ _ (cancel_if_waiting_ack_empty sl2)
  | ul_cancel_harq u h =>
    cases b with
    | dl_cancel_harq u2 h2 c2 => rfl
    | ul_cancel_harq u2 h2 =>
      simp only [harq_cancellation.on_harqs, harq_entity.ul_cancel_harq]
      congr 1
      apply list_modify_comm
      right
      intro x
      rfl
    | cancel_dl_harqs u2 sl2 => rfl
  | cancel_dl_harqs u sl =>
    cases b with
    | dl_cancel_harq u2 h2 c2 =>
      simp only [harq_cancellation.on_harqs, harq_entity.dl_cancel_harq,
        harq_entity.cancel_dl_harqs]
      congr 1
      apply list_map_modify
      intro x
      simp only [dl_harq_process.cancel_harq, dl_harq_process.cancel_waiting_ack]
      congr 1
      exact list_map_set _ _ _ _ (cancel_if_waiting_ack_empty sl)
    | ul_cancel_harq u2 h2 => rfl
    | cancel_dl_harqs u2 sl2 =>
      simp only [harq_cancellation.on_harqs, harq_entity.cancel_dl_harqs, List.map_map]
      congr 1
      apply List.map_congr_left
      intro x _
      simp only [Function.comp, dl_harq_process.cancel_waiting_ack, List.map_map]
      congr 1
      apply List.map_congr_left
      intro st _
      exact cancel_if_waiting_ack_comm _ _ _

theorem on_harqs_idem (a : harq_cancellation) (e : harq_entity) :
    a.on_harqs (a.on_harqs e) = a.on_harqs e := by
  cases a with
  | dl_cancel_harq u h c =>
    simp only [harq_cancellation.on_harqs, harq_entity.dl_cancel_harq]
    congr 1
    apply list_modify_idem
    intro x
    simp [dl_harq_process.cancel_harq]
  | ul_cancel_harq u h =>
    simp only [harq_cancellation.on_harqs, harq_entity.ul_cancel_harq]
    congr 1
    apply list_modify_idem
    intro x
    rfl
  | cancel_dl_harqs u sl =>
    simp only [harq_cancellation.on_harqs, harq_entity.cancel_dl_harqs, List.map_map]
    congr 1
    apply List.map_congr_left
    intro x _
    simp only [Function.comp, dl_harq_process.cancel_waiting_ack, List.map_map]
    congr 1
    apply List.map_congr_left
    intro st _
    exact cancel_if_waiting_ack_idem _ _

theorem run_eq_modify_ue (c : harq_cancellation) (db : ue_repository) :
    c.run db = db.modify_ue c.target (fun x => x.modify_harqs c.on_harqs) := by
  cases c <;> rfl

theorem run_comm (a b : harq_cancellation) (db : ue_repository) :
    a.run (b.run db) = b.run (a.run db) := by
  simp only [run_eq_modify_ue, ue_repository.modify_ue]
  congr 1
  apply list_modify_comm
  right
  intro x
  cases x with
  | none => rfl
  | some x =>
    simp only [Option.map_some', ue.modify_harqs]
    rw [on_harqs_comm]

theorem run_idem (a : harq_cancellation) (db : ue_repository) :
    a.run (a.run db) = a.run db := by
  simp only [run_eq_modify_ue, ue_repository.modify_ue]
  congr 1
  apply list_modify_idem
  intro x
  cases x with
  | none => rfl
  | some x =>
    simp only [Option.map_some', ue.modify_harqs]
    rw [on_harqs_idem]

/-! ## The directory lookup is untouched by cancellations -/

theorem find_by_rnti_modify_ue (db : ue_repository) (u : du_ue_index_t) (f : ue → ue)
    (rnti : rnti_t) : (db.modify_ue u f).find_by_rnti rnti = db.find_by_rnti rnti := by
  unfold ue_repository.find_by_rnti ue_repository.modify_ue
  simp only
  cases db.rnti_to_ue_index_lookup.lookup rnti with
  | none => rfl
  | some idx =>
    simp only [List.getElem?_modify]
    cases hx : db.ues[idx]? with
    | none => rfl
    | some o =>
      cases o with
      | none => by_cases hu : u = idx <;> simp [hu]
      | some x => by_cases hu : u = idx <;> simp [hu]

theorem find_by_rnti_run (c : harq_cancellation) (db : ue_repository) :
    (c.run db).find_by_rnti = db.find_by_rnti := by
  funext rnti
  rw [run_eq_modify_ue, find_by_rnti_modify_ue]

theorem find_by_rnti_run_cancellations (cs : List harq_cancellation) (db : ue_repository) :
    (run_cancellations cs db).find_by_rnti = db.find_by_rnti := by
  induction cs generalizing db with
  | nil => rfl
  | cons c t ih =>
    simp only [run_cancellations, List.foldl_cons] at ih ⊢
    rw [ih, find_by_rnti_run]

/-! ## The rollback loops as lists of calls -/

theorem perform_all_eq (cs : List harq_cancellation) (s : ue_scheduler_impl) :
    s.perform_all cs =
      { s with
        ue_db := run_cancellations cs s.ue_db,
        events := s.events ++ cs.map sched_event.cancel } := by
  induction cs generalizing s with
  | nil => simp [ue_scheduler_impl.perform_all, run_cancellations]
  | cons c t ih =>
    have h := ih (s.perform c)
    simp only [ue_scheduler_impl.perform_all, List.foldl_cons] at h ⊢
    rw [h]
    simp [ue_scheduler_impl.perform, run_cancellations]

theorem perform_all_append (a b : List harq_cancellation) (s : ue_scheduler_impl) :
    s.perform_all (a ++ b) = (s.perform_all a).perform_all b := by
  simp [ue_scheduler_impl.perform_all, List.foldl_append]

theorem perform_all_nil (s : ue_scheduler_impl) : s.perform_all [] = s := rfl

theorem find_by_rnti_perform_all (cs : List harq_cancellation) (s : ue_scheduler_impl) :
    (s.perform_all cs).ue_db.find_by_rnti = s.ue_db.find_by_rnti := by
  rw [perform_all_eq]
  exact find_by_rnti_run_cancellations cs s.ue_db

theorem foldl_step_eq_perform_all {α : Type} (step : ue_scheduler_impl → α → ue_scheduler_impl)
    (calls : (rnti_t → Option du_ue_index_t) → α → List harq_cancellation)
    (hstep : ∀ s a, step s a = s.perform_all (calls s.ue_db.find_by_rnti a))
    (l : List α) (s : ue_scheduler_impl) :
    l.foldl step s = s.perform_all (l.flatMap (calls s.ue_db.find_by_rnti)) := by
  induction l generalizing s with
  | nil => rfl
  | cons a t ih =>
    rw [List.foldl_cons, ih, hstep, List.flatMap_cons, perform_all_append,
      find_by_rnti_perform_all]

theorem cancel_dl_pdcch_eq (s : ue_scheduler_impl) (pdcch : pdcch_dl_information) :
    cancel_dl_pdcch s pdcch =
      s.perform_all (dl_pdcch_cancellations s.ue_db.find_by_rnti pdcch) := by
  unfold cancel_dl_pdcch dl_pdcch_cancellations
  cases s.ue_db.find_by_rnti pdcch.ctx.rnti with
  | none => rfl
  | some u => cases pdcch.dci.type <;> rfl

theorem cancel_ul_pdcch_eq (s : ue_scheduler_impl) (pdcch : pdcch_ul_information) :
    cancel_ul_pdcch s pdcch =
      s.perform_all (ul_pdcch_cancellations s.ue_db.find_by_rnti pdcch) := by
  unfold cancel_ul_pdcch ul_pdcch_cancellations
  cases s.ue_db.find_by_rnti pdcch.ctx.rnti with
  | none => rfl
  | some u => cases pdcch.dci.type <;> rfl

theorem cancel_ue_grant_eq (s : ue_scheduler_impl) (grant : dl_msg_alloc) :
    cancel_ue_grant s grant =
      s.perform_all (ue_grant_cancellations s.ue_db.find_by_rnti grant) := by
  unfold cancel_ue_grant ue_grant_cancellations
  cases s.ue_db.find_by_rnti grant.pdsch_cfg.rnti with
  | none => rfl
  | some u => simp only [ue_scheduler_impl.perform_all, List.foldl_map]

theorem cancel_pusch_eq (sl_tx : slot_point) (s : ue_scheduler_impl) (grant : ul_sched_info) :
    cancel_pusch sl_tx s grant =
      s.perform_all (pusch_cancellations sl_tx s.ue_db.find_by_rnti grant) := by
  unfold cancel_pusch pusch_cancellations
  cases s.ue_db.find_by_rnti grant.pusch_cfg.rnti with
  | none => rfl
  | some u => cases grant.has_harq_ack <;> rfl

theorem cancel_pucch_eq (sl_tx : slot_point) (s : ue_scheduler_impl) (pucch : pucch_info) :
    cancel_pucch sl_tx s pucch =
      s.perform_all (pucch_cancellations sl_tx s.ue_db.find_by_rnti pucch) := by
  unfold cancel_pucch pucch_cancellations
  cases s.ue_db.find_by_rnti pucch.crnti with
  | none => rfl
  | some u => cases pucch.has_harq_ack <;> rfl

theorem cell_res_alloc_lt (s : ue_scheduler_impl) (cell_index : du_cell_index_t)
    (res_grid : cell_resource_allocator) (h : s.cell_res_alloc cell_index = some res_grid) :
    cell_index < s.cells.length := by
  by_contra hlt
  have hnone : s.cells[cell_index]? = none := List.getElem?_eq_none (Nat.le_of_not_lt hlt)
  simp [ue_scheduler_impl.cell_res_alloc, hnone] at h

theorem handle_error_indication_eq (s : ue_scheduler_impl) (sl_tx : slot_point)
    (cell_index : du_cell_index_t) (event : error_outcome) (res_grid : cell_resource_allocator)
    (prev_slot_result : cell_slot_resource_allocator)
    (hcell : s.cell_res_alloc cell_index = some res_grid)
    (hhist : res_grid.get_history sl_tx = some prev_slot_result) :
    handle_error_indication s sl_tx cell_index event =
      some (s.perform_all
        (rollback_cancellations s.ue_db.find_by_rnti sl_tx event prev_slot_result.result)) := by
  have hlt := cell_res_alloc_lt s cell_index res_grid hcell
  unfold handle_error_indication
  rw [if_neg (Nat.not_le_of_lt hlt)]
  simp only [hcell, hhist]
  rw [foldl_step_eq_perform_all cancel_dl_pdcch dl_pdcch_cancellations cancel_dl_pdcch_eq]
  rcases event with ⟨e1, e2, e3⟩
  cases e1 <;> cases e2 <;> cases e3 <;>
    simp only [rollback_cancellations, pdcch_category_cancellations, pdsch_category_cancellations,
      pusch_pucch_category_cancellations, if_true, if_false, Bool.false_eq_true,
      foldl_step_eq_perform_all cancel_ul_pdcch ul_pdcch_cancellations cancel_ul_pdcch_eq,
      foldl_step_eq_perform_all cancel_ue_grant ue_grant_cancellations cancel_ue_grant_eq,
      foldl_step_eq_perform_all (cancel_pusch sl_tx) (pusch_cancellations sl_tx)
        (cancel_pusch_eq sl_tx),
      foldl_step_eq_perform_all (cancel_pucch sl_tx) (pucch_cancellations sl_tx)
        (cancel_pucch_eq sl_tx),
      perform_all_append, find_by_rnti_perform_all, perform_all_nil, List.append_nil,
      List.nil_append]

/-! ## Order and repetition of cancellations do not matter -/

theorem run_cancellations_cons (c : harq_cancellation) (cs : List harq_cancellation)
    (db : ue_repository) : run_cancellations (c :: cs) db = run_cancellations cs (c.run db) := rfl

theorem run_cancellations_append (a b : List harq_cancellation) (db : ue_repository) :
    run_cancellations (a ++ b) db = run_cancellations b (run_cancellations a db) := by
  simp [run_cancellations, List.foldl_append]

theorem run_cancellations_comm_one (c : harq_cancellation) (cs : List harq_cancellation)
    (db : ue_repository) : c.run (run_cancellations cs db) = run_cancellations cs (c.run db) := by
  induction cs generalizing db with
  | nil => rfl
  | cons d t ih => rw [run_cancellations_cons, run_cancellations_cons, ih, run_comm]

theorem run_cancellations_absorb (c : harq_cancellation) (cs : List harq_cancellation)
    (hc : c ∈ cs) (db : ue_repository) :
    c.run (run_cancellations cs db) = run_cancellations cs db := by
  induction cs generalizing db with
  | nil => cases hc
  | cons d t ih =>
    rw [run_cancellations_cons]
    rcases List.mem_cons.mp hc with h | h
    · subst h
      rw [run_cancellations_comm_one, run_idem]
    · exact ih h _

theorem run_cancellations_subset (cs ds : List harq_cancellation) (h : ∀ c ∈ ds, c ∈ cs)
    (db : ue_repository) :
    run_cancellations ds (run_cancellations cs db) = run_cancellations cs db := by
  induction ds with
  | nil => rfl
  | cons d t ih =>
    rw [run_cancellations_cons, run_cancellations_absorb d cs (h d (List.mem_cons_self d t))]
    exact ih (fun c hc => h c (List.mem_cons_of_mem d hc))

theorem run_cancellations_swap (cs ds : List harq_cancellation) (db : ue_repository) :
    run_cancellations ds (run_cancellations cs db) =
      run_cancellations cs (run_cancellations ds db) := by
  induction ds generalizing db with
  | nil => rfl
  | cons d t ih =>
    rw [run_cancellations_cons, run_cancellations_cons, run_cancellations_comm_one, ih]

theorem run_cancellations_congr (cs ds : List harq_cancellation) (h : ∀ c, c ∈ cs ↔ c ∈ ds)
    (db : ue_repository) : run_cancellations cs db = run_cancellations ds db := by
  have h1 := run_cancellations_subset cs ds (fun c hc => (h c).mpr hc) db
  have h2 := run_cancellations_subset ds cs (fun c hc => (h c).mp hc) db
  rw [← h1, run_cancellations_swap, h2]

/-! ## Effect of the cancellations on one downlink codeword -/

theorem dl_effect_dl_cancel_harq (u0 : du_ue_index_t) (h0 : harq_id_t) (c0 : Nat)
    (u : du_ue_index_t) (h_id : harq_id_t) (cw_idx : Nat) :
    (harq_cancellation.dl_cancel_harq u0 h0 c0).dl_effect u h_id cw_idx =
      fun st => if u0 = u ∧ h0 = h_id ∧ c0 = cw_idx then harq_state.empty else st := rfl

theorem dl_effect_ul_cancel_harq (u0 : du_ue_index_t) (h0 : harq_id_t)
    (u : du_ue_index_t) (h_id : harq_id_t) (cw_idx : Nat) :
    (harq_cancellation.ul_cancel_harq u0 h0).dl_effect u h_id cw_idx = fun st => st := rfl

theorem dl_effect_cancel_dl_harqs (u0 : du_ue_index_t) (sl : slot_point)
    (u : du_ue_index_t) (h_id : harq_id_t) (cw_idx : Nat) :
    (harq_cancellation.cancel_dl_harqs u0 sl).dl_effect u h_id cw_idx =
      fun st => if u0 = u then cancel_if_waiting_ack sl st else st := rfl

theorem dl_harq_state_run (c : harq_cancellation) (db : ue_repository) (u : du_ue_index_t)
    (h_id : harq_id_t) (cw_idx : Nat) :
    (c.run db).dl_harq_state u h_id cw_idx =
      (db.dl_harq_state u h_id cw_idx).map (c.dl_effect u h_id cw_idx) := by
  rw [run_eq_modify_ue]
  unfold ue_repository.dl_harq_state ue_repository.modify_ue
  simp only [List.getElem?_modify]
  cases hx : db.ues[u]? with
  | none => rfl
  | some o =>
    cases o with
    | none => by_cases hu : c.target = u <;> simp [hu]
    | some x =>
      by_cases hu : c.target = u
      · simp only [hu, if_true, Option.map_eq_map, Option.map_some', ue.modify_harqs]
        cases c with
        | dl_cancel_harq u0 h0 c0 =>
          simp only [harq_cancellation.target] at hu
          subst hu
          simp only [harq_cancellation.on_harqs, harq_entity.dl_cancel_harq,
            List.getElem?_modify, dl_effect_dl_cancel_harq]
          cases hp : x.pcell.harqs.dl_harqs[h_id]? with
          | none => rfl
          | some p =>
            by_cases hh : h0 = h_id
            · subst hh
              simp only [if_true, Option.map_eq_map, Option.map_some',
                dl_harq_process.cancel_harq, List.getElem?_set]
              by_cases hc : c0 = cw_idx
              · subst hc
                by_cases hlen : c0 < p.tb_array.length
                · simp [hlen, List.getElem?_eq_getElem hlen]
                · simp [hlen, List.getElem?_eq_none (Nat.le_of_not_lt hlen)]
              · simp [hc]
            · simp [hh]
        | ul_cancel_harq u0 h0 =>
          simp only [harq_cancellation.on_harqs, harq_entity.ul_cancel_harq,
            dl_effect_ul_cancel_harq]
          cases hp : x.pcell.harqs.dl_harqs[h_id]? with
          | none => rfl
          | some p => simp
        | cancel_dl_harqs u0 sl =>
          simp only [harq_cancellation.target] at hu
          subst hu
          simp only [harq_cancellation.on_harqs, harq_entity.cancel_dl_harqs,
            List.getElem?_map, dl_effect_cancel_dl_harqs, if_true]
          cases hp : x.pcell.harqs.dl_harqs[h_id]? with
          | none => rfl
          | some p => simp [dl_harq_process.cancel_waiting_ack]
      · simp only [hu, if_false, Option.map_eq_map, Option.map_some']
        have hid : c.dl_effect u h_id cw_idx = id := by
          funext st
          cases c <;> simp only [harq_cancellation.target] at hu <;>
            simp [harq_cancellation.dl_effect, hu]
        rw [hid]
        simp

theorem dl_effect_cases (c : harq_cancellation) (u : du_ue_index_t) (h_id : harq_id_t)
    (cw_idx : Nat) (st : harq_state) :
    c.dl_effect u h_id cw_idx st = st ∨ c.dl_effect u h_id cw_idx st = harq_state.empty := by
  cases c with
  | dl_cancel_harq u0 h0 c0 =>
    simp only [harq_cancellation.dl_effect]
    split
    · right; rfl
    · left; rfl
  | ul_cancel_harq u0 h0 => left; rfl
  | cancel_dl_harqs u0 sl =>
    simp only [harq_cancellation.dl_effect, cancel_if_waiting_ack]
    split
    · split
      · right; rfl
      · left; rfl
    · left; rfl

theorem dl_harq_state_run_cancellations (cs : List harq_cancellation) (db : ue_repository)
    (u : du_ue_index_t) (h_id : harq_id_t) (cw_idx : Nat) (st : harq_state)
    (h : db.dl_harq_state u h_id cw_idx = some st) :
    (run_cancellations cs db).dl_harq_state u h_id cw_idx = some st ∨
      (run_cancellations cs db).dl_harq_state u h_id cw_idx = some harq_state.empty := by
  induction cs generalizing db st with
  | nil => left; exact h
  | cons c t ih =>
    rw [run_cancellations_cons]
    have hrun := dl_harq_state_run c db u h_id cw_idx
    rw [h, Option.map_some'] at hrun
    rcases dl_effect_cases c u h_id cw_idx st with hc | hc
    · rw [hc] at hrun
      exact ih _ _ hrun
    · rw [hc] at hrun
      right
      rcases ih _ _ hrun with h2 | h2 <;> exact h2

theorem handle_error_indication_of_no_history (s : ue_scheduler_impl)
    (sl_tx : slot_point) (cell_index : du_cell_index_t) (event : error_outcome)
    (res_grid : cell_resource_allocator)
    (hcell : s.cell_res_alloc cell_index = some res_grid)
    (hhist : res_grid.get_history sl_tx = none) :
    handle_error_indication s sl_tx cell_index event =
      some (s.record (sched_event.warning_slot_result_erased cell_index sl_tx)) := by
  have hlt := cell_res_alloc_lt s cell_index res_grid hcell
  unfold handle_error_indication
  rw [if_neg (Nat.not_le_of_lt hlt)]
  simp only [hcell, hhist]

theorem handle_error_indication_of_no_cell (s : ue_scheduler_impl)
    (sl_tx : slot_point) (cell_index : du_cell_index_t) (event : error_outcome)
    (hlt : cell_index < s.cells.length)
    (hcell : s.cell_res_alloc cell_index = none) :
    handle_error_indication s sl_tx cell_index event =
      some (s.record (sched_event.error_cell_not_configured cell_index)) := by
  unfold handle_error_indication
  rw [if_neg (Nat.not_le_of_lt hlt)]
  simp only [hcell]

theorem handle_error_indication_of_out_of_range (s : ue_scheduler_impl)
    (sl_tx : slot_point) (cell_index : du_cell_index_t) (event : error_outcome)
    (hge : s.cells.length ≤ cell_index) :
    handle_error_indication s sl_tx cell_index event = none := by
  unfold handle_error_indication
  rw [if_pos hge]

/-! ## Error-indication rollback: stale slot -/

/-- C1: an error indication, whatever categories it names, for a slot that
`get_history` does not find in the cell's resource allocator is dropped with a
warning: the call returns, performs no cancellation and leaves the HARQ state of
every terminal as it was. -/
theorem handle_error_indication_slot_not_in_history (s : ue_scheduler_impl)
    (sl_tx : slot_point) (cell_index : du_cell_index_t) (event : error_outcome)
    (res_grid : cell_resource_allocator)
    (hcell : s.cell_res_alloc cell_index = some res_grid)
    (hhist : res_grid.get_history sl_tx = none) :
    ∃ r, handle_error_indication s sl_tx cell_index event = some r ∧
      r.ue_db = s.ue_db ∧
      r.events = s.events ++ [sched_event.warning_slot_result_erased cell_index sl_tx] := by
  exact ⟨_, handle_error_indication_of_no_history s sl_tx cell_index event res_grid hcell hhist,
    rfl, rfl⟩

theorem handle_error_indication_slot_not_in_history_witness :
    (sample_sched true [{ slot := 53 }]).cell_res_alloc 0 =
        some (sample_grid true [{ slot := 53 }]) ∧
      (sample_grid true [{ slot := 53 }]).get_history 54 = none ∧
      ∃ r, handle_error_indication (sample_sched true [{ slot := 53 }]) 54 0
          { pdcch_discarded := true, pdsch_discarded := true,
            pusch_and_pucch_discarded := true } = some r ∧
        r.ue_db = (sample_sched true [{ slot := 53 }]).ue_db ∧
        r.events = (sample_sched true [{ slot := 53 }]).events ++
          [sched_event.warning_slot_result_erased 0 54] :=
  ⟨rfl, rfl, handle_error_indication_slot_not_in_history _ 54 0 _ _ rfl rfl⟩

/-! ## Error-indication rollback: which processes end in Empty -/

theorem mem_rollback_cancellations (find : rnti_t → Option du_ue_index_t) (sl_tx : slot_point)
    (event : error_outcome) (res : sched_result) (c : harq_cancellation) :
    c ∈ rollback_cancellations find sl_tx event res ↔
      (event.pdcch_discarded = true ∧ c ∈ pdcch_category_cancellations find res) ∨
      (event.pdsch_discarded = true ∧ c ∈ pdsch_category_cancellations find res) ∨
      (event.pusch_and_pucch_discarded = true ∧
        c ∈ pusch_pucch_category_cancellations sl_tx find res) := by
  rcases event with ⟨e1, e2, e3⟩
  cases e1 <;> cases e2 <;> cases e3 <;> simp [rollback_cancellations]

theorem handle_error_indication_ue_db (s : ue_scheduler_impl) (sl_tx : slot_point)
    (cell_index : du_cell_index_t) (event : error_outcome) (res_grid : cell_resource_allocator)
    (prev_slot_result : cell_slot_resource_allocator)
    (hcell : s.cell_res_alloc cell_index = some res_grid)
    (hhist : res_grid.get_history sl_tx = some prev_slot_result) :
    ∃ r, handle_error_indication s sl_tx cell_index event = some r ∧
      r.ue_db = run_cancellations
        (rollback_cancellations s.ue_db.find_by_rnti sl_tx event prev_slot_result.result)
        s.ue_db ∧
      r.events = s.events ++
        (rollback_cancellations s.ue_db.find_by_rnti sl_tx event
          prev_slot_result.result).map sched_event.cancel ∧
      r.cells = s.cells := by
  refine ⟨_, handle_error_indication_eq s sl_tx cell_index event res_grid prev_slot_result
    hcell hhist, ?_, ?_, ?_⟩ <;> rw [perform_all_eq]

theorem dl_harq_state_of_cancel_dl_harqs_mem (cs : List harq_cancellation) (db : ue_repository)
    (u : du_ue_index_t) (sl_tx : slot_point)
    (hmem : harq_cancellation.cancel_dl_harqs u sl_tx ∈ cs) (h_id : harq_id_t) (cw_idx : Nat)
    (hst : db.dl_harq_state u h_id cw_idx = some (harq_state.waiting_ack sl_tx)) :
    (run_cancellations cs db).dl_harq_state u h_id cw_idx = some harq_state.empty := by
  rcases dl_harq_state_run_cancellations cs db u h_id cw_idx _ hst with h | h
  · have hfix := run_cancellations_absorb _ cs hmem db
    have hrun := dl_harq_state_run (harq_cancellation.cancel_dl_harqs u sl_tx)
      (run_cancellations cs db) u h_id cw_idx
    rw [hfix, h, Option.map_some', dl_effect_cancel_dl_harqs] at hrun
    simp [cancel_if_waiting_ack] at hrun
  · exact h

theorem pucch_has_harq_ack_of_format (pucch : pucch_info)
    (hfmt : pucch.format = pucch_format.FORMAT_1 ∨ pucch.format = pucch_format.FORMAT_2)
    (hbits : 0 < pucch.harq_ack_nof_bits) : pucch.has_harq_ack = true := by
  unfold pucch_info.has_harq_ack
  unfold pucch_info.harq_ack_nof_bits at hbits
  rcases hfmt with h | h <;> rw [h] at hbits ⊢ <;> simpa using hbits

/-- C2 (counterexample): slot 54 is in history and holds a PUCCH grant of format 3
that carries one HARQ-ACK bit for a terminal found by its RNTI, whose downlink
HARQ process 0 awaits its acknowledgment at slot 54; after an error indication
naming pusch_and_pucch_discarded the process still awaits the acknowledgment. -/
theorem handle_error_indication_pucch_format_3_not_cancelled :
    (sample_grid true [{ slot := 54, result := { ul := { pucchs := [sample_pucch_f3] } } }]).get_history
        54 = some { slot := 54, result := { ul := { pucchs := [sample_pucch_f3] } } } ∧
      0 < sample_pucch_f3.harq_ack_nof_bits ∧
      sample_ue_db.find_by_rnti sample_pucch_f3.crnti = some 0 ∧
      sample_ue_db.dl_harq_state 0 0 0 = some (harq_state.waiting_ack 54) ∧
      (handle_error_indication
          (sample_sched true [{ slot := 54, result := { ul := { pucchs := [sample_pucch_f3] } } }])
          54 0
          { pdcch_discarded := false, pdsch_discarded := false,
            pusch_and_pucch_discarded := true }).map
        (fun r => r.ue_db.dl_harq_state 0 0 0) = some (some (harq_state.waiting_ack 54)) := by
  refine ⟨rfl, by decide, rfl, rfl, rfl⟩

theorem mem_pdcch_category_cancellations (find : rnti_t → Option du_ue_index_t)
    (res : sched_result) (c : harq_cancellation)
    (hc : c ∈ pdcch_category_cancellations find res) :
    ∃ u h_id, c = harq_cancellation.dl_cancel_harq u h_id 0 ∨
      c = harq_cancellation.ul_cancel_harq u h_id := by
  unfold pdcch_category_cancellations at hc
  rw [List.mem_append, List.mem_flatMap, List.mem_flatMap] at hc
  rcases hc with ⟨pdcch, -, hin⟩ | ⟨pdcch, -, hin⟩
  · unfold dl_pdcch_cancellations at hin
    cases hf : find pdcch.ctx.rnti with
    | none => simp [hf] at hin
    | some u =>
      cases ht : pdcch.dci.type <;> simp [hf, ht] at hin
      · exact ⟨u, _, Or.inl hin⟩
      · exact ⟨u, _, Or.inl hin⟩
  · unfold ul_pdcch_cancellations at hin
    cases hf : find pdcch.ctx.rnti with
    | none => simp [hf] at hin
    | some u =>
      cases ht : pdcch.dci.type <;> simp [hf, ht] at hin
      · exact ⟨u, _, Or.inr hin⟩
      · exact ⟨u, _, Or.inr hin⟩

theorem option_eq_none_of_isSome_false {α : Type} {o : Option α} (h : o.isSome = false) :
    o = none := by
  cases o with
  | none => rfl
  | some a => simp at h

theorem flatMap_filter_of_nil {α β : Type} (p : α → Bool) (f : α → List β) (l : List α)
    (h : ∀ a, p a = false → f a = []) : (l.filter p).flatMap f = l.flatMap f := by
  induction l with
  | nil => rfl
  | cons a t ih =>
    cases hp : p a with
    | false => rw [List.filter_cons_of_neg (by simp [hp]), List.flatMap_cons, h a hp, ih]; rfl
    | true => rw [List.filter_cons_of_pos hp, List.flatMap_cons, List.flatMap_cons, ih]

theorem rollback_cancellations_restrict (db : ue_repository) (sl_tx : slot_point)
    (event : error_outcome) (res : sched_result) :
    rollback_cancellations db.find_by_rnti sl_tx event (restrict_to_found db res) =
      rollback_cancellations db.find_by_rnti sl_tx event res := by
  have h1 : (res.dl.dl_pdcchs.filter (fun g => (db.find_by_rnti g.ctx.rnti).isSome)).flatMap
      (dl_pdcch_cancellations db.find_by_rnti) =
      res.dl.dl_pdcchs.flatMap (dl_pdcch_cancellations db.find_by_rnti) := by
    apply flatMap_filter_of_nil
    intro a ha
    replace ha := option_eq_none_of_isSome_false ha
    simp [dl_pdcch_cancellations, ha]
  have h2 : (res.dl.ul_pdcchs.filter (fun g => (db.find_by_rnti g.ctx.rnti).isSome)).flatMap
      (ul_pdcch_cancellations db.find_by_rnti) =
      res.dl.ul_pdcchs.flatMap (ul_pdcch_cancellations db.find_by_rnti) := by
    apply flatMap_filter_of_nil
    intro a ha
    replace ha := option_eq_none_of_isSome_false ha
    simp [ul_pdcch_cancellations, ha]
  have h3 : (res.dl.ue_grants.filter (fun g => (db.find_by_rnti g.pdsch_cfg.rnti).isSome)).flatMap
      (ue_grant_cancellations db.find_by_rnti) =
      res.dl.ue_grants.flatMap (ue_grant_cancellations db.find_by_rnti) := by
    apply flatMap_filter_of_nil
    intro a ha
    replace ha := option_eq_none_of_isSome_false ha
    simp [ue_grant_cancellations, ha]
  have h4 : (res.ul.puschs.filter (fun g => (db.find_by_rnti g.pusch_cfg.rnti).isSome)).flatMap
      (pusch_cancellations sl_tx db.find_by_rnti) =
      res.ul.puschs.flatMap (pusch_cancellations sl_tx db.find_by_rnti) := by
    apply flatMap_filter_of_nil
    intro a ha
    replace ha := option_eq_none_of_isSome_false ha
    simp [pusch_cancellations, ha]
  have h5 : (res.ul.pucchs.filter (fun g => (db.find_by_rnti g.crnti).isSome)).flatMap
      (pucch_cancellations sl_tx db.find_by_rnti) =
      res.ul.pucchs.flatMap (pucch_cancellations sl_tx db.find_by_rnti) := by
    apply flatMap_filter_of_nil
    intro a ha
    replace ha := option_eq_none_of_isSome_false ha
    simp [pucch_cancellations, ha]
  simp only [rollback_cancellations, pdcch_category_cancellations, pdsch_category_cancellations,
    pusch_pucch_category_cancellations, restrict_to_found, h1, h2, h3, h4, h5]

/-- C4: in every historical grant list and for every category, a grant whose RNTI
is not found by `find_by_rnti` is skipped without any cancellation and the
grants after it and the later categories are still processed: the call returns
and performs the very cancellation calls, with the same resulting HARQ state,
that it performs when the history holds the lists restricted to the grants whose
terminal is found. -/
theorem handle_error_indication_skips_unknown_rnti (s : ue_scheduler_impl)
    (cells2 : List (Option cell)) (sl_tx : slot_point) (cell_index : du_cell_index_t)
    (event : error_outcome) (res_grid res_grid2 : cell_resource_allocator)
    (prev_slot_result prev_slot_result2 : cell_slot_resource_allocator)
    (hcell : s.cell_res_alloc cell_index = some res_grid)
    (hhist : res_grid.get_history sl_tx = some prev_slot_result)
    (hcell2 : ({ s with cells := cells2 } : ue_scheduler_impl).cell_res_alloc cell_index =
      some res_grid2)
    (hhist2 : res_grid2.get_history sl_tx = some prev_slot_result2)
    (hres : prev_slot_result2.result = restrict_to_found s.ue_db prev_slot_result.result) :
    ∃ r r2, handle_error_indication s sl_tx cell_index event = some r ∧
      handle_error_indication { s with cells := cells2 } sl_tx cell_index event = some r2 ∧
      r.ue_db = r2.ue_db ∧ r.events = r2.events := by
  obtain ⟨r, hr, hdb, hev, -⟩ := handle_error_indication_ue_db s sl_tx cell_index event res_grid
    prev_slot_result hcell hhist
  obtain ⟨r2, hr2, hdb2, hev2, -⟩ := handle_error_indication_ue_db { s with cells := cells2 }
    sl_tx cell_index event res_grid2 prev_slot_result2 hcell2 hhist2
  refine ⟨r, r2, hr, hr2, ?_, ?_⟩
  · rw [hdb, hdb2, hres]
    simp only [rollback_cancellations_restrict]
  · rw [hev, hev2, hres]
    simp only [rollback_cancellations_restrict]

theorem handle_error_indication_skips_unknown_rnti_witness :
    (sample_sched true sample_history_removed_ue).cell_res_alloc 0 =
        some (sample_grid true sample_history_removed_ue) ∧
      sample_ue_db.find_by_rnti sample_dl_pdcch_unknown.ctx.rnti = none ∧
      ∃ r r2, handle_error_indication (sample_sched true sample_history_removed_ue) 54 0
          { pdcch_discarded := true, pdsch_discarded := true,
            pusch_and_pucch_discarded := true } = some r ∧
        handle_error_indication
          { sample_sched true sample_history_removed_ue with
            cells := (sample_sched true sample_history_found_ue).cells } 54 0
          { pdcch_discarded := true, pdsch_discarded := true,
            pusch_and_pucch_discarded := true } = some r2 ∧
        r.ue_db = r2.ue_db ∧ r.events = r2.events :=
  ⟨rfl, rfl,
    handle_error_indication_skips_unknown_rnti (sample_sched true sample_history_removed_ue)
      (sample_sched true sample_history_found_ue).cells 54 0 _
      (sample_grid true sample_history_removed_ue) (sample_grid true sample_history_found_ue)
      { slot := 54,
        result := { dl := { dl_pdcchs := [sample_dl_pdcch_unknown, sample_dl_pdcch] } } }
      { slot := 54, result := { dl := { dl_pdcchs := [sample_dl_pdcch] } } }
      rfl rfl rfl rfl rfl⟩

/-! ## Error-indication rollback: repeated indications -/

theorem cell_res_alloc_perform_all (s : ue_scheduler_impl) (cs : List harq_cancellation)
    (cell_index : du_cell_index_t) :
    (s.perform_all cs).cell_res_alloc cell_index = s.cell_res_alloc cell_index := by
  rw [perform_all_eq]
  rfl

theorem rollback_cancellations_subset (find : rnti_t → Option du_ue_index_t) (sl_tx : slot_point)
    (a b : error_outcome) (res : sched_result) (hab : a.subset b) :
    ∀ c ∈ rollback_cancellations find sl_tx a res, c ∈ rollback_cancellations find sl_tx b res := by
  intro c hc
  rw [mem_rollback_cancellations] at hc ⊢
  rcases hab with ⟨h1, h2, h3⟩
  rcases hc with ⟨hf, hm⟩ | ⟨hf, hm⟩ | ⟨hf, hm⟩
  · exact Or.inl ⟨h1 hf, hm⟩
  · exact Or.inr (Or.inl ⟨h2 hf, hm⟩)
  · exact Or.inr (Or.inr ⟨h3 hf, hm⟩)

theorem rollback_cancellations_union (find : rnti_t → Option du_ue_index_t) (sl_tx : slot_point)
    (a b : error_outcome) (res : sched_result) (c : harq_cancellation) :
    c ∈ rollback_cancellations find sl_tx a res ++ rollback_cancellations find sl_tx b res ↔
      c ∈ rollback_cancellations find sl_tx (a.union b) res := by
  rw [List.mem_append, mem_rollback_cancellations, mem_rollback_cancellations,
    mem_rollback_cancellations]
  simp only [error_outcome.union, Bool.or_eq_true]
  tauto

/-- C5 (counterexample): the category sets {pdsch_discarded} and {pdsch_discarded,
pusch_and_pucch_discarded} overlap; after the first indication for slot 54 the
uplink HARQ process 0 of the sample terminal is still Pending, after the second
indication for the same slot it is Empty: the second call changes the state
left by the first. -/
theorem handle_error_indication_overlapping_sets_change_state :
    error_outcome.overlap
        { pdcch_discarded := false, pdsch_discarded := true, pusch_and_pucch_discarded := false }
        { pdcch_discarded := false, pdsch_discarded := true, pusch_and_pucch_discarded := true } ∧
      (handle_error_indication (sample_sched true sample_history_data) 54 0
          { pdcch_discarded := false, pdsch_discarded := true,
            pusch_and_pucch_discarded := false }).map
        (fun r => r.ue_db.ul_harq_state 0 0) = some (some harq_state.pending) ∧
      ((handle_error_indication (sample_sched true sample_history_data) 54 0
          { pdcch_discarded := false, pdsch_discarded := true,
            pusch_and_pucch_discarded := false }).bind
        (fun r => handle_error_indication r 54 0
          { pdcch_discarded := false, pdsch_discarded := true,
            pusch_and_pucch_discarded := true })).map
        (fun r => r.ue_db.ul_harq_state 0 0) = some (some harq_state.empty) := by
  refine ⟨Or.inr (Or.inl ⟨rfl, rfl⟩), rfl, rfl⟩

/-- C5 (as amended): rollback is idempotent. For every slot, cell and category set,
when a first call of handle_error_indication has returned, a second call for the
same slot and cell returns too, and it leaves every terminal's HARQ state equal
to the state after the first call whenever its category set is the same as, or
contained in, that of the first call; for any two category sets the state after
the two calls is the state after one call naming the union of the two sets. -/
theorem handle_error_indication_idempotent (s s1 : ue_scheduler_impl) (sl_tx : slot_point)
    (cell_index : du_cell_index_t) (event1 event2 : error_outcome)
    (hfirst : handle_error_indication s sl_tx cell_index event1 = some s1) :
    ∃ s2, handle_error_indication s1 sl_tx cell_index event2 = some s2 ∧
      (event2.subset event1 → s2.ue_db = s1.ue_db) ∧
      ∃ s3, handle_error_indication s sl_tx cell_index (event1.union event2) = some s3 ∧
        s3.ue_db = s2.ue_db := by
  by_cases hge : s.cells.length ≤ cell_index
  · rw [handle_error_indication_of_out_of_range s sl_tx cell_index event1 hge] at hfirst
    cases hfirst
  · have hlt : cell_index < s.cells.length := Nat.lt_of_not_le hge
    cases hcell : s.cell_res_alloc cell_index with
    | none =>
      rw [handle_error_indication_of_no_cell s sl_tx cell_index event1 hlt hcell] at hfirst
      cases hfirst
      exact ⟨_, handle_error_indication_of_no_cell _ sl_tx cell_index event2 hlt hcell,
        fun _ => rfl,
        _, handle_error_indication_of_no_cell s sl_tx cell_index _ hlt hcell, rfl⟩
    | some res_grid =>
      cases hhist : res_grid.get_history sl_tx with
      | none =>
        rw [handle_error_indication_of_no_history s sl_tx cell_index event1 res_grid hcell hhist]
          at hfirst
        cases hfirst
        exact ⟨_, handle_error_indication_of_no_history _ sl_tx cell_index event2 res_grid
            hcell hhist,
          fun _ => rfl,
          _, handle_error_indication_of_no_history s sl_tx cell_index _ res_grid hcell hhist,
          rfl⟩
      | some prev =>
        rw [handle_error_indication_eq s sl_tx cell_index event1 res_grid prev hcell hhist]
          at hfirst
        cases hfirst
        have hcell1 := (cell_res_alloc_perform_all s
          (rollback_cancellations s.ue_db.find_by_rnti sl_tx event1 prev.result)
          cell_index).trans hcell
        obtain ⟨s2, hs2, hdb2, -, -⟩ := handle_error_indication_ue_db _ sl_tx cell_index event2
          res_grid prev hcell1 hhist
        obtain ⟨s3, hs3, hdb3, -, -⟩ := handle_error_indication_ue_db s sl_tx cell_index
          (event1.union event2) res_grid prev hcell hhist
        rw [find_by_rnti_perform_all] at hdb2
        have hdb1 : (s.perform_all
            (rollback_cancellations s.ue_db.find_by_rnti sl_tx event1 prev.result)).ue_db =
            run_cancellations
              (rollback_cancellations s.ue_db.find_by_rnti sl_tx event1 prev.result) s.ue_db := by
          rw [perform_all_eq]
        rw [hdb1] at hdb2
        refine ⟨s2, hs2, ?_, s3, hs3, ?_⟩
        · intro hsub
          rw [hdb2, hdb1]
          exact run_cancellations_subset _ _
            (rollback_cancellations_subset _ sl_tx event2 event1 prev.result hsub) _
        · rw [hdb3, hdb2, ← run_cancellations_append]
          exact (run_cancellations_congr _ _
            (rollback_cancellations_union _ sl_tx event1 event2 prev.result) _).symm

theorem handle_error_indication_idempotent_witness :
    handle_error_indication (sample_sched true sample_history_data) 54 0
        { pdcch_discarded := false, pdsch_discarded := true, pusch_and_pucch_discarded := true } =
        some ((sample_sched true sample_history_data).perform_all
          [harq_cancellation.dl_cancel_harq 0 0 0, harq_cancellation.ul_cancel_harq 0 0]) ∧
      ∃ s2, handle_error_indication
          ((sample_sched true sample_history_data).perform_all
            [harq_cancellation.dl_cancel_harq 0 0 0, harq_cancellation.ul_cancel_harq 0 0]) 54 0
          { pdcch_discarded := false, pdsch_discarded := true,
            pusch_and_pucch_discarded := true } = some s2 ∧
        (error_outcome.subset
            { pdcch_discarded := false, pdsch_discarded := true,
              pusch_and_pucch_discarded := true }
            { pdcch_discarded := false, pdsch_discarded := true,
              pusch_and_pucch_discarded := true } →
          s2.ue_db = ((sample_sched true sample_history_data).perform_all
            [harq_cancellation.dl_cancel_harq 0 0 0, harq_cancellation.ul_cancel_harq 0 0]).ue_db) ∧
        ∃ s3, handle_error_indication (sample_sched true sample_history_data) 54 0
            (error_outcome.union
              { pdcch_discarded := false, pdsch_discarded := true,
                pusch_and_pucch_discarded := true }
              { pdcch_discarded := false, pdsch_discarded := true,
                pusch_and_pucch_discarded := true }) = some s3 ∧
          s3.ue_db = s2.ue_db :=
  ⟨rfl, handle_error_indication_idempotent (sample_sched true sample_history_data) _ 54 0 _ _ rfl⟩

/-! ## Error-indication rollback: unconfigured cell -/

/-- C6 (counterexample): the cell table of the scheduler has one entry, which is not
configured; an error indication for cell index 0 returns normally, with the
error logged and the terminal directory unchanged. -/
theorem handle_error_indication_unconfigured_cell_returns :
    sample_sched_no_cell.cell_res_alloc 0 = none ∧
      (handle_error_indication sample_sched_no_cell 54 0
          { pdcch_discarded := true, pdsch_discarded := true,
            pusch_and_pucch_discarded := true }).map
        (fun r => (r.ue_db, r.events)) =
        some (sample_ue_db, [sched_event.error_cell_not_configured 0]) := by
  refine ⟨rfl, rfl⟩

/-- C6 (as amended): for every error indication whose cell index lies within the cell
table and names no configured cell (the entry or its resource allocator is
null), handle_error_indication logs an error, performs no cancellation and
returns normally. -/
theorem handle_error_indication_unconfigured_cell (s : ue_scheduler_impl)
    (sl_tx : slot_point) (cell_index : du_cell_index_t) (event : error_outcome)
    (hlt : cell_index < s.cells.length)
    (hcell : s.cell_res_alloc cell_index = none) :
    ∃ r, handle_error_indication s sl_tx cell_index event = some r ∧
      r.ue_db = s.ue_db ∧
      r.events = s.events ++ [sched_event.error_cell_not_configured cell_index] :=
  ⟨_, handle_error_indication_of_no_cell s sl_tx cell_index event hlt hcell, rfl, rfl⟩

theorem handle_error_indication_unconfigured_cell_witness :
    0 < sample_sched_no_cell.cells.length ∧ sample_sched_no_cell.cell_res_alloc 0 = none ∧
      ∃ r, handle_error_indication sample_sched_no_cell 54 0
          { pdcch_discarded := true, pdsch_discarded := false,
            pusch_and_pucch_discarded := false } = some r ∧
        r.ue_db = sample_sched_no_cell.ue_db ∧
        r.events = sample_sched_no_cell.events ++ [sched_event.error_cell_not_configured 0] :=
  ⟨by decide, rfl, handle_error_indication_unconfigured_cell _ 54 0 _ (by decide) rfl⟩

/-! ## `run_sched_strategy`: calls issued by the last-arrival callback -/

theorem run_sched_strategy_events (env : collaborators) (s : ue_scheduler_impl)
    (slot_tx : slot_point) (cell_index : du_cell_index_t) (res_alloc : cell_resource_allocator)
    (hcell : s.cell_res_alloc cell_index = some res_alloc) :
    ∃ r, run_sched_strategy env s slot_tx cell_index = some r ∧
      r.events = s.events ++ sched_event.ue_db_slot_indication slot_tx ::
        strategy_calls (res_alloc.cfg.is_dl_enabled slot_tx)
          (s.expert_cfg.enable_csi_rs_pdsch_multiplexing ||
            res_alloc.current.result.dl.csi_rs.isEmpty) := by
  have hcell1 : (s.call_slot_indication env slot_tx).cell_res_alloc cell_index =
      some res_alloc := hcell
  unfold run_sched_strategy
  simp only [hcell1]
  cases hdl : res_alloc.cfg.is_dl_enabled slot_tx with
  | false =>
    exact ⟨_, rfl, by simp [strategy_calls, ue_scheduler_impl.call_slot_indication]⟩
  | true =>
    have hcfg : (s.call_slot_indication env slot_tx).expert_cfg = s.expert_cfg := rfl
    rw [hcfg]
    cases hp : (s.expert_cfg.enable_csi_rs_pdsch_multiplexing ||
        res_alloc.current.result.dl.csi_rs.isEmpty) with
    | false =>
      exact ⟨_, rfl, by
        simp [strategy_calls, ue_scheduler_impl.call_slot_indication,
          ue_scheduler_impl.call_ul_sched]⟩
    | true =>
      exact ⟨_, rfl, by
        simp [strategy_calls, ue_scheduler_impl.call_slot_indication,
          ue_scheduler_impl.call_ul_sched, ue_scheduler_impl.call_dl_sched]⟩

/-- C7 (counterexample): in the sample cell the downlink is not enabled in slot 55;
run_sched_strategy returns having invoked neither dl_sched nor ul_sched. -/
theorem run_sched_strategy_dl_disabled_no_strategy_call :
    (sample_sched false []).cell_res_alloc 0 = some (sample_grid false []) ∧
      (sample_grid false []).cfg.is_dl_enabled 55 = false ∧
      (run_sched_strategy sample_env (sample_sched false []) 55 0).map
        (fun r => (r.events, r.events.count sched_event.dl_sched,
          r.events.count sched_event.ul_sched)) =
        some ([sched_event.ue_db_slot_indication 55], 0, 0) := by
  refine ⟨rfl, rfl, rfl⟩

/-- C7 (as amended): run_sched_strategy invokes dl_sched at most once and ul_sched at
most once; for every slot in which the downlink is enabled for the cell of the
calling thread and either enable_csi_rs_pdsch_multiplexing is set or the cell's
current-slot result holds no CSI-RS, it invokes dl_sched exactly once and
ul_sched exactly once. -/
theorem run_sched_strategy_strategy_calls_once (env : collaborators) (s : ue_scheduler_impl)
    (slot_tx : slot_point) (cell_index : du_cell_index_t) (res_alloc : cell_resource_allocator)
    (hcell : s.cell_res_alloc cell_index = some res_alloc) :
    ∃ r evs, run_sched_strategy env s slot_tx cell_index = some r ∧
      r.events = s.events ++ evs ∧
      evs.count sched_event.dl_sched ≤ 1 ∧ evs.count sched_event.ul_sched ≤ 1 ∧
      (res_alloc.cfg.is_dl_enabled slot_tx = true →
        (s.expert_cfg.enable_csi_rs_pdsch_multiplexing = true ∨
          res_alloc.current.result.dl.csi_rs = []) →
        evs.count sched_event.dl_sched = 1 ∧ evs.count sched_event.ul_sched = 1) := by
  obtain ⟨r, hr, hev⟩ := run_sched_strategy_events env s slot_tx cell_index res_alloc hcell
  refine ⟨r, _, hr, hev, ?_, ?_, ?_⟩
  · cases res_alloc.cfg.is_dl_enabled slot_tx <;>
      cases (s.expert_cfg.enable_csi_rs_pdsch_multiplexing ||
        res_alloc.current.result.dl.csi_rs.isEmpty) <;> simp [strategy_calls]
  · cases res_alloc.cfg.is_dl_enabled slot_tx <;>
      cases (s.expert_cfg.enable_csi_rs_pdsch_multiplexing ||
        res_alloc.current.result.dl.csi_rs.isEmpty) <;> simp [strategy_calls]
  · intro hdl hp
    have hp2 : (s.expert_cfg.enable_csi_rs_pdsch_multiplexing ||
        res_alloc.current.result.dl.csi_rs.isEmpty) = true := by
      rcases hp with h | h
      · simp [h]
      · simp [h]
    rw [hdl, hp2]
    simp [strategy_calls]

theorem run_sched_strategy_strategy_calls_once_witness :
    (sample_sched true []).cell_res_alloc 0 = some (sample_grid true []) ∧
      ∃ r evs, run_sched_strategy sample_env (sample_sched true []) 55 0 = some r ∧
        r.events = (sample_sched true []).events ++ evs ∧
        evs.count sched_event.dl_sched ≤ 1 ∧ evs.count sched_event.ul_sched ≤ 1 ∧
        ((sample_grid true []).cfg.is_dl_enabled 55 = true →
          ((sample_sched true []).expert_cfg.enable_csi_rs_pdsch_multiplexing = true ∨
            (sample_grid true []).current.result.dl.csi_rs = []) →
          evs.count sched_event.dl_sched = 1 ∧ evs.count sched_event.ul_sched = 1) :=
  ⟨rfl, run_sched_strategy_strategy_calls_once sample_env (sample_sched true []) 55 0
    (sample_grid true []) rfl⟩

/-- C8: in every slot in which run_sched_strategy invokes both dl_sched and ul_sched,
the dl_sched call comes before the ul_sched call: among the calls of one run,
every dl_sched call stands before every ul_sched call. -/
theorem run_sched_strategy_dl_before_ul (env : collaborators) (s : ue_scheduler_impl)
    (slot_tx : slot_point) (cell_index : du_cell_index_t) (res_alloc : cell_resource_allocator)
    (hcell : s.cell_res_alloc cell_index = some res_alloc) :
    ∃ r evs, run_sched_strategy env s slot_tx cell_index = some r ∧
      r.events = s.events ++ evs ∧
      ∀ i j : Nat, evs[i]? = some sched_event.ul_sched → evs[j]? = some sched_event.dl_sched →
        j < i := by
  obtain ⟨r, hr, hev⟩ := run_sched_strategy_events env s slot_tx cell_index res_alloc hcell
  refine ⟨r, _, hr, hev, ?_⟩
  intro i j hi hj
  cases hdl : res_alloc.cfg.is_dl_enabled slot_tx <;>
    cases hp : (s.expert_cfg.enable_csi_rs_pdsch_multiplexing ||
      res_alloc.current.result.dl.csi_rs.isEmpty) <;>
    rw [hdl, hp] at hi hj <;>
    rcases i with _ | _ | _ | i <;> rcases j with _ | _ | _ | j <;>
    simp [strategy_calls] at hi hj ⊢

theorem run_sched_strategy_dl_before_ul_witness :
    (sample_sched true []).cell_res_alloc 0 = some (sample_grid true []) ∧
      ∃ r evs, run_sched_strategy sample_env (sample_sched true []) 55 0 = some r ∧
        r.events = (sample_sched true []).events ++ evs ∧
        ∀ i j : Nat, evs[i]? = some sched_event.ul_sched → evs[j]? = some sched_event.dl_sched →
          j < i :=
  ⟨rfl, run_sched_strategy_dl_before_ul sample_env (sample_sched true []) 55 0
    (sample_grid true []) rfl⟩

/-- C9: for every slot and cell for which is_dl_enabled(slot) is false in the cell's
common configuration, run_sched_strategy returns without invoking dl_sched. -/
theorem run_sched_strategy_dl_disabled_skips_dl_sched (env : collaborators)
    (s : ue_scheduler_impl) (slot_tx : slot_point) (cell_index : du_cell_index_t)
    (res_alloc : cell_resource_allocator)
    (hcell : s.cell_res_alloc cell_index = some res_alloc)
    (hdl : res_alloc.cfg.is_dl_enabled slot_tx = false) :
    ∃ r evs, run_sched_strategy env s slot_tx cell_index = some r ∧
      r.events = s.events ++ evs ∧ sched_event.dl_sched ∉ evs := by
  obtain ⟨r, hr, hev⟩ := run_sched_strategy_events env s slot_tx cell_index res_alloc hcell
  refine ⟨r, _, hr, hev, ?_⟩
  rw [hdl]
  simp [strategy_calls]

theorem run_sched_strategy_dl_disabled_skips_dl_sched_witness :
    (sample_sched false []).cell_res_alloc 0 = some (sample_grid false []) ∧
      (sample_grid false []).cfg.is_dl_enabled 55 = false ∧
      ∃ r evs, run_sched_strategy sample_env (sample_sched false []) 55 0 = some r ∧
        r.events = (sample_sched false []).events ++ evs ∧ sched_event.dl_sched ∉ evs :=
  ⟨rfl, rfl, run_sched_strategy_dl_disabled_skips_dl_sched sample_env (sample_sched false [])
    55 0 (sample_grid false []) rfl rfl⟩

/-- C10: for every slot and cell, run_sched_strategy calls ue_db.slot_indication(slot)
exactly once, as its first call and so before any dl_sched or ul_sched call of
that slot; this holds also on slots where the downlink is disabled, in which
the slot indication is the only call. -/
theorem run_sched_strategy_slot_indication_first (env : collaborators)
    (s : ue_scheduler_impl) (slot_tx : slot_point) (cell_index : du_cell_index_t)
    (res_alloc : cell_resource_allocator)
    (hcell : s.cell_res_alloc cell_index = some res_alloc) :
    ∃ r evs, run_sched_strategy env s slot_tx cell_index = some r ∧
      r.events = s.events ++ sched_event.ue_db_slot_indication slot_tx :: evs ∧
      (∀ e ∈ evs, e = sched_event.dl_sched ∨ e = sched_event.ul_sched) ∧
      (sched_event.ue_db_slot_indication slot_tx :: evs).count
        (sched_event.ue_db_slot_indication slot_tx) = 1 ∧
      (res_alloc.cfg.is_dl_enabled slot_tx = false → evs = []) := by
  obtain ⟨r, hr, hev⟩ := run_sched_strategy_events env s slot_tx cell_index res_alloc hcell
  refine ⟨r, _, hr, hev, ?_, ?_, ?_⟩
  · intro e he
    cases hdl : res_alloc.cfg.is_dl_enabled slot_tx <;>
      cases hp : (s.expert_cfg.enable_csi_rs_pdsch_multiplexing ||
        res_alloc.current.result.dl.csi_rs.isEmpty) <;>
      rw [hdl, hp] at he <;> simp [strategy_calls] at he ⊢ <;> tauto
  · cases hdl : res_alloc.cfg.is_dl_enabled slot_tx <;>
      cases hp : (s.expert_cfg.enable_csi_rs_pdsch_multiplexing ||
        res_alloc.current.result.dl.csi_rs.isEmpty) <;>
      simp [strategy_calls]
  · intro hdl
    rw [hdl]
    rfl

theorem run_sched_strategy_slot_indication_first_witness :
    (sample_sched false []).cell_res_alloc 0 = some (sample_grid false []) ∧
      ∃ r evs, run_sched_strategy sample_env (sample_sched false []) 55 0 = some r ∧
        r.events = (sample_sched false []).events ++
          sched_event.ue_db_slot_indication 55 :: evs ∧
        (∀ e ∈ evs, e = sched_event.dl_sched ∨ e = sched_event.ul_sched) ∧
        (sched_event.ue_db_slot_indication 55 :: evs).count
          (sched_event.ue_db_slot_indication 55) = 1 ∧
        ((sample_grid false []).cfg.is_dl_enabled 55 = false → evs = []) :=
  ⟨rfl, run_sched_strategy_slot_indication_first sample_env (sample_sched false []) 55 0
    (sample_grid false []) rfl⟩

/-! ## Open Fronthaul RU configuration validator -/

theorem check_compression_params_iff (params : ru_compression_params) :
    check_compression_params params = true ↔
      (params.type = compression_type.none ∨ params.type = compression_type.BFP) ∧
      (params.type = compression_type.BFP →
        params.data_width = 8 ∨ params.data_width = 9 ∨ params.data_width = 12 ∨
          params.data_width = 14 ∨ params.data_width = 16) := by
  unfold check_compression_params
  cases ht : params.type <;> simp [or_assoc]

theorem check_dl_ports_loop_iff (config : ru_ofh_configuration)
    (sectors : List ru_ofh_sector_configuration) :
    check_dl_ports_loop config sectors = true ↔
      (config.is_downlink_broadcast_enabled = true →
        ∀ sector ∈ sectors, sector.ru_dl_ports.length = 2) := by
  induction sectors with
  | nil => simp [check_dl_ports_loop]
  | cons sector rest ih =>
    unfold check_dl_ports_loop
    cases hb : config.is_downlink_broadcast_enabled with
    | false => simpa [hb] using ih
    | true =>
      simp only [hb, forall_const] at ih
      by_cases h2 : sector.ru_dl_ports.length = 2 <;> simp [h2, ih]

theorem check_port_list_iff (MAX_SUPPORTED_EAXC_ID_VALUE : Nat) (ports : List Nat) :
    check_port_list MAX_SUPPORTED_EAXC_ID_VALUE ports = true ↔
      ∀ port ∈ ports, port < MAX_SUPPORTED_EAXC_ID_VALUE := by
  induction ports with
  | nil => simp [check_port_list]
  | cons port rest ih =>
    unfold check_port_list
    by_cases h : port < MAX_SUPPORTED_EAXC_ID_VALUE <;> simp [check_port_id, h, ih]

theorem check_ports_id_loop_iff (MAX_SUPPORTED_EAXC_ID_VALUE : Nat)
    (sectors : List ru_ofh_sector_configuration) :
    check_ports_id_loop MAX_SUPPORTED_EAXC_ID_VALUE sectors = true ↔
      ∀ sector ∈ sectors,
        sector.ru_prach_port < MAX_SUPPORTED_EAXC_ID_VALUE ∧
        (∀ port ∈ sector.ru_ul_ports, port < MAX_SUPPORTED_EAXC_ID_VALUE) ∧
        (∀ port ∈ sector.ru_dl_ports, port < MAX_SUPPORTED_EAXC_ID_VALUE) := by
  induction sectors with
  | nil => simp [check_ports_id_loop]
  | cons sector rest ih =>
    unfold check_ports_id_loop
    by_cases h1 : sector.ru_prach_port < MAX_SUPPORTED_EAXC_ID_VALUE
    · by_cases h2 : check_port_list MAX_SUPPORTED_EAXC_ID_VALUE sector.ru_ul_ports = true
      · by_cases h3 : check_port_list MAX_SUPPORTED_EAXC_ID_VALUE sector.ru_dl_ports = true
        · have h2p := (check_port_list_iff _ _).mp h2
          have h3p := (check_port_list_iff _ _).mp h3
          simp only [check_port_id, h1, h2, h3, decide_True, Bool.not_true, Bool.false_eq_true,
            if_false, ih, List.mem_cons, forall_eq_or_imp, true_and]
          constructor
          · intro h
            exact ⟨⟨h2p, h3p⟩, h⟩
          · intro h
            exact h.2
        · have h3n : ¬ ∀ port ∈ sector.ru_dl_ports, port < MAX_SUPPORTED_EAXC_ID_VALUE :=
            fun h => h3 ((check_port_list_iff _ _).mpr h)
          simp only [Bool.not_eq_true] at h3
          simp [check_port_id, h1, h2, h3]
          intro _ h
          exact absurd h h3n
      · have h2n : ¬ ∀ port ∈ sector.ru_ul_ports, port < MAX_SUPPORTED_EAXC_ID_VALUE :=
          fun h => h2 ((check_port_list_iff _ _).mpr h)
        simp only [Bool.not_eq_true] at h2
        simp [check_port_id, h1, h2]
        intro h
        exact absurd h h2n
    · simp [check_port_id, h1]

theorem is_valid_ru_ofh_config_eq (MAX_SUPPORTED_EAXC_ID_VALUE : Nat)
    (config : ru_ofh_configuration) :
    is_valid_ru_ofh_config MAX_SUPPORTED_EAXC_ID_VALUE config = true ↔
      check_compression_params config.ul_compression_params = true ∧
      check_compression_params config.dl_compression_params = true ∧
      check_dl_ports_if_broadcast_is_enabled config = true ∧
      check_ports_id MAX_SUPPORTED_EAXC_ID_VALUE config = true ∧
      config.is_prach_control_plane_enabled = false := by
  unfold is_valid_ru_ofh_config
  cases check_compression_params config.ul_compression_params <;>
    cases check_compression_params config.dl_compression_params <;>
    cases check_dl_ports_if_broadcast_is_enabled config <;>
    cases check_ports_id MAX_SUPPORTED_EAXC_ID_VALUE config <;>
    cases config.is_prach_control_plane_enabled <;> simp

/-- C19: `is_valid_ru_ofh_config(config)` returns true if and only if the uplink and
the downlink compression type are each none or BFP, a BFP compression has a
data width among 8, 9, 12, 14, 16, every sector has exactly two downlink ports
when downlink broadcast is enabled, the PRACH port and every uplink and downlink
port of every sector is smaller than MAX_SUPPORTED_EAXC_ID_VALUE, and
is_prach_control_plane_enabled is false. -/
theorem is_valid_ru_ofh_config_iff (MAX_SUPPORTED_EAXC_ID_VALUE : Nat)
    (config : ru_ofh_configuration) :
    is_valid_ru_ofh_config MAX_SUPPORTED_EAXC_ID_VALUE config = true ↔
      ((config.ul_compression_params.type = compression_type.none ∨
          config.ul_compression_params.type = compression_type.BFP) ∧
        (config.dl_compression_params.type = compression_type.none ∨
          config.dl_compression_params.type = compression_type.BFP)) ∧
      (config.ul_compression_params.type = compression_type.BFP →
        config.ul_compression_params.data_width = 8 ∨
          config.ul_compression_params.data_width = 9 ∨
          config.ul_compression_params.data_width = 12 ∨
          config.ul_compression_params.data_width = 14 ∨
          config.ul_compression_params.data_width = 16) ∧
      (config.dl_compression_params.type = compression_type.BFP →
        config.dl_compression_params.data_width = 8 ∨
          config.dl_compression_params.data_width = 9 ∨
          config.dl_compression_params.data_width = 12 ∨
          config.dl_compression_params.data_width = 14 ∨
          config.dl_compression_params.data_width = 16) ∧
      (config.is_downlink_broadcast_enabled = true →
        ∀ sector ∈ config.sector_configs, sector.ru_dl_ports.length = 2) ∧
      (∀ sector ∈ config.sector_configs,
        sector.ru_prach_port < MAX_SUPPORTED_EAXC_ID_VALUE ∧
        (∀ port ∈ sector.ru_ul_ports, port < MAX_SUPPORTED_EAXC_ID_VALUE) ∧
        (∀ port ∈ sector.ru_dl_ports, port < MAX_SUPPORTED_EAXC_ID_VALUE)) ∧
      config.is_prach_control_plane_enabled = false := by
  rw [is_valid_ru_ofh_config_eq, check_compression_params_iff, check_compression_params_iff,
    check_dl_ports_if_broadcast_is_enabled, check_dl_ports_loop_iff, check_ports_id,
    check_ports_id_loop_iff]
  constructor
  · rintro ⟨⟨h1, h2⟩, ⟨h3, h4⟩, h5, h6, h7⟩
    exact ⟨⟨h1, h3⟩, h2, h4, h5, h6, h7⟩
  · rintro ⟨⟨h1, h3⟩, h2, h4, h5, h6, h7⟩
    exact ⟨⟨h1, h2⟩, ⟨h3, h4⟩, h5, h6, h7⟩

/-! ## String helper: `string_parse_list` -/

theorem getline_fst_no_delimiter (delimiter : Char) (xs : List Char) :
    delimiter ∉ (getline delimiter xs).1 := by
  induction xs with
  | nil => simp [getline]
  | cons c cs ih =>
    unfold getline
    by_cases h : c = delimiter
    · simp [h]
    · simp only [h, if_false, List.mem_cons, not_or]
      exact ⟨fun hc => h hc.symm, ih⟩

theorem getline_eof (delimiter : Char) (xs : List Char)
    (h : (getline delimiter xs).2.good = false) :
    (getline delimiter xs).1 = xs := by
  induction xs with
  | nil => simp [getline]
  | cons c cs ih =>
    unfold getline at h ⊢
    by_cases hc : c = delimiter
    · simp [hc] at h
    · simp only [hc, if_false] at h ⊢
      rw [ih h]

theorem getline_good (delimiter : Char) (xs : List Char)
    (h : (getline delimiter xs).2.good = true) :
    xs = (getline delimiter xs).1 ++ delimiter :: (getline delimiter xs).2.rest := by
  induction xs with
  | nil => simp [getline] at h
  | cons c cs ih =>
    unfold getline at h ⊢
    by_cases hc : c = delimiter
    · simp [hc]
    · simp only [hc, if_false] at h ⊢
      rw [List.cons_append, ← ih h]

theorem splitOn_of_getline_eof (delimiter : Char) (xs : List Char)
    (h : (getline delimiter xs).2.good = false) : xs.splitOn delimiter = [xs] := by
  have hw := getline_eof delimiter xs h
  have hn := getline_fst_no_delimiter delimiter xs
  rw [hw] at hn
  apply List.splitOnP_eq_single
  intro x hx hxd
  have : x = delimiter := by simpa using hxd
  exact hn (this ▸ hx)

theorem splitOn_of_getline_good (delimiter : Char) (xs : List Char)
    (h : (getline delimiter xs).2.good = true) :
    xs.splitOn delimiter =
      (getline delimiter xs).1 :: (getline delimiter xs).2.rest.splitOn delimiter := by
  have hx := getline_good delimiter xs h
  have hn := getline_fst_no_delimiter delimiter xs
  conv_lhs => rw [hx]
  apply List.splitOnP_first
  · intro x hx2 hxd
    have : x = delimiter := by simpa using hxd
    exact hn (this ▸ hx2)
  · simp

theorem string_parse_list_loop_not_good (delimiter : Char) (fuel : Nat) (ss : stringstream)
    (list : List std_string) (h : ss.good = false) :
    string_parse_list_loop delimiter fuel ss list = some list := by
  cases fuel <;> simp [string_parse_list_loop, h]

theorem string_parse_list_loop_eq (delimiter : Char) (fuel : Nat) :
    ∀ (xs : List Char) (acc : List std_string), xs.length < fuel →
      string_parse_list_loop delimiter fuel { rest := xs, good := true } acc =
        some (acc ++ (xs.splitOn delimiter).filter (fun t => !t.isEmpty)) := by
  induction fuel with
  | zero => intro xs acc h; exact absurd h (Nat.not_lt_zero _)
  | succ fuel ih =>
    intro xs acc hlen
    unfold string_parse_list_loop
    simp only [if_true]
    cases hg : (getline delimiter xs).2.good with
    | false =>
      rw [string_parse_list_loop_not_good delimiter fuel _ _ hg,
        splitOn_of_getline_eof delimiter xs hg, getline_eof delimiter xs hg]
      cases xs with
      | nil => simp
      | cons c cs => simp
    | true =>
      have hss : (getline delimiter xs).2 =
          { rest := (getline delimiter xs).2.rest, good := true } := by
        rw [← hg]
      have hx := getline_good delimiter xs hg
      have hlt : (getline delimiter xs).2.rest.length < fuel := by
        have hl := congrArg List.length hx
        simp only [List.length_append, List.length_cons] at hl
        omega
      rw [hss, ih _ _ hlt, splitOn_of_getline_good delimiter xs hg]
      cases hw : (getline delimiter xs).1 with
      | nil => simp
      | cons c cs => simp

theorem mem_splitOnP_not {α : Type} (p : α → Bool) (xs : List α) :
    ∀ t ∈ xs.splitOnP p, ∀ c ∈ t, p c = false := by
  induction xs with
  | nil =>
    intro t ht c hc
    rw [List.splitOnP_nil, List.mem_singleton] at ht
    subst ht
    cases hc
  | cons x xs ih =>
    intro t ht c hc
    rw [List.splitOnP_cons] at ht
    by_cases hp : p x = true
    · rw [if_pos hp, List.mem_cons] at ht
      rcases ht with ht | ht
      · subst ht; cases hc
      · exact ih t ht c hc
    · rw [if_neg hp] at ht
      cases hs : xs.splitOnP p with
      | nil => exact absurd hs (List.splitOnP_ne_nil p xs)
      | cons hd tl =>
        rw [hs] at ht ih
        simp only [List.modifyHead_cons, List.mem_cons] at ht
        rcases ht with ht | ht
        · subst ht
          rcases List.mem_cons.mp hc with hc | hc
          · subst hc; simpa using hp
          · exact ih hd (List.mem_cons_self _ _) c hc
        · exact ih t (List.mem_cons_of_mem _ ht) c hc

theorem filter_splitOn_of_all_delimiter (delimiter : Char) (xs : List Char)
    (h : ∀ c ∈ xs, c = delimiter) :
    (xs.splitOn delimiter).filter (fun t => !t.isEmpty) = [] := by
  induction xs with
  | nil => rfl
  | cons x xs ih =>
    have hx : x = delimiter := h x (List.mem_cons_self _ _)
    have hrest := ih (fun c hc => h c (List.mem_cons_of_mem _ hc))
    unfold List.splitOn at hrest ⊢
    rw [List.splitOnP_cons]
    simp [hx, hrest]

/-- C20: `string_parse_list(input, delimiter, list)` returns and leaves in a sequence
container exactly the non-empty maximal delimiter-free substrings of the input,
in their order of occurrence, whatever the container held before: no element
is empty, no element contains the delimiter, and an input made only of
delimiters, or the empty input, yields the empty list. -/
theorem string_parse_list_tokens (input : std_string) (delimiter : Char)
    (list : List std_string) :
    ∃ result, string_parse_list input delimiter list = some result ∧
      result = (input.splitOn delimiter).filter (fun t => !t.isEmpty) ∧
      (∀ t ∈ result, t ≠ [] ∧ delimiter ∉ t) ∧
      ((∀ c ∈ input, c = delimiter) → result = []) := by
  refine ⟨_, ?_, rfl, ?_, ?_⟩
  · unfold string_parse_list
    rw [string_parse_list_loop_eq delimiter _ input [] (Nat.lt_succ_self _)]
    rfl
  · intro t ht
    rw [List.mem_filter] at ht
    refine ⟨?_, ?_⟩
    · intro h
      rw [h] at ht
      simp at ht
    · intro hd
      have := mem_splitOnP_not (fun c => c == delimiter) input t ht.1 delimiter hd
      simp at this
  · exact filter_splitOn_of_all_delimiter delimiter input

/-! ## Feedback bookkeeping: lookups are untouched by counter increments -/

theorem findIdx?_modify_of_congr {α : Type} (p : α → Bool) (f : α → α)
    (hp : ∀ x, p (f x) = p x) (l : List α) (n start : Nat) :
    (l.modify f n).findIdx? p start = l.findIdx? p start := by
  induction l generalizing n start with
  | nil => simp
  | cons a t ih =>
    cases n with
    | zero => simp [List.findIdx?_cons, hp]
    | succ k => simp [List.findIdx?_cons, ih]

theorem find_by_rnti_increment (db : ue_repository) (u : du_ue_index_t) (h_id : harq_id_t) :
    (db.increment_pucch_counter u h_id).find_by_rnti = db.find_by_rnti := by
  funext rnti
  exact find_by_rnti_modify_ue db u _ rnti

theorem find_dl_harq_waiting_ack_slot_increment (db : ue_repository) (u : du_ue_index_t)
    (h_id : harq_id_t) :
    (db.increment_pucch_counter u h_id).find_dl_harq_waiting_ack_slot =
      db.find_dl_harq_waiting_ack_slot := by
  funext u2 sl idx
  unfold ue_repository.find_dl_harq_waiting_ack_slot ue_repository.increment_pucch_counter
    ue_repository.modify_ue
  simp only [List.getElem?_modify]
  cases hx : db.ues[u2]? with
  | none => rfl
  | some o =>
    cases o with
    | none => by_cases hu : u = u2 <;> simp [hu]
    | some x =>
      by_cases hu : u = u2
      · simp only [hu, if_true, Option.map_eq_map, Option.map_some', ue.modify_harqs,
          harq_entity.find_dl_harq_waiting_ack_slot]
        apply findIdx?_modify_of_congr
        intro h
        rfl
      · simp [hu]

theorem find_by_rnti_apply_increments (ps : List (du_ue_index_t × harq_id_t))
    (db : ue_repository) : (apply_increments ps db).find_by_rnti = db.find_by_rnti := by
  induction ps generalizing db with
  | nil => rfl
  | cons p t ih =>
    simp only [apply_increments, List.foldl_cons] at ih ⊢
    rw [ih, find_by_rnti_increment]

theorem find_dl_harq_waiting_ack_slot_apply_increments (ps : List (du_ue_index_t × harq_id_t))
    (db : ue_repository) :
    (apply_increments ps db).find_dl_harq_waiting_ack_slot =
      db.find_dl_harq_waiting_ack_slot := by
  induction ps generalizing db with
  | nil => rfl
  | cons p t ih =>
    simp only [apply_increments, List.foldl_cons] at ih ⊢
    rw [ih, find_dl_harq_waiting_ack_slot_increment]

theorem count_harq_bit_events_apply_increments (ps : List (du_ue_index_t × harq_id_t))
    (db : ue_repository) :
    count_harq_bit_events (apply_increments ps db) = count_harq_bit_events db := by
  funext slot u i
  simp only [count_harq_bit_events, find_dl_harq_waiting_ack_slot_apply_increments]

theorem count_pucch_events_apply_increments (ps : List (du_ue_index_t × harq_id_t))
    (db : ue_repository) :
    count_pucch_events (apply_increments ps db) = count_pucch_events db := by
  funext slot pucch
  simp only [count_pucch_events, find_by_rnti_apply_increments,
    count_harq_bit_events_apply_increments]

/-! ## Feedback bookkeeping: the loops as lists of events -/

theorem log_counter_events_nil (s : ue_scheduler_impl) : s.log_counter_events [] = s := by
  simp [ue_scheduler_impl.log_counter_events, apply_increments]

theorem log_counter_events_append (s : ue_scheduler_impl) (a b : List sched_event) :
    s.log_counter_events (a ++ b) = (s.log_counter_events a).log_counter_events b := by
  simp [ue_scheduler_impl.log_counter_events, apply_increments, List.filterMap_append,
    List.foldl_append]

theorem foldl_step_eq_log_counter_events {α : Type}
    (step : ue_scheduler_impl → α → ue_scheduler_impl)
    (evs : ue_repository → α → List sched_event)
    (hstep : ∀ s a, step s a = s.log_counter_events (evs s.ue_db a))
    (hinv : ∀ ps db, evs (apply_increments ps db) = evs db)
    (l : List α) (s : ue_scheduler_impl) :
    l.foldl step s = s.log_counter_events (l.flatMap (evs s.ue_db)) := by
  induction l generalizing s with
  | nil => exact (log_counter_events_nil s).symm
  | cons a t ih =>
    rw [List.foldl_cons, ih, hstep, List.flatMap_cons, log_counter_events_append]
    have h : (s.log_counter_events (evs s.ue_db a)).ue_db =
        apply_increments ((evs s.ue_db a).filterMap increment_of) s.ue_db := rfl
    rw [h, hinv]

theorem count_harq_bit_eq (slot : slot_point) (u : du_ue_index_t) (s : ue_scheduler_impl)
    (harq_bit_idx : Nat) :
    count_harq_bit slot u s harq_bit_idx =
      s.log_counter_events (count_harq_bit_events s.ue_db slot u harq_bit_idx) := by
  unfold count_harq_bit count_harq_bit_events
  cases s.ue_db.find_dl_harq_waiting_ack_slot u slot harq_bit_idx with
  | none =>
    simp [ue_scheduler_impl.log_counter_events, ue_scheduler_impl.record, apply_increments,
      increment_of]
  | some h =>
    simp [ue_scheduler_impl.log_counter_events, ue_scheduler_impl.call_increment_pucch_counter,
      apply_increments, increment_of]

theorem count_pucch_eq (slot : slot_point) (s : ue_scheduler_impl) (pucch : pucch_info) :
    count_pucch slot s pucch = s.log_counter_events (count_pucch_events s.ue_db slot pucch) := by
  unfold count_pucch count_pucch_events
  split
  · cases s.ue_db.find_by_rnti pucch.crnti with
    | none =>
      simp [ue_scheduler_impl.log_counter_events, ue_scheduler_impl.record, apply_increments,
        increment_of]
    | some user =>
      simp only
      exact foldl_step_eq_log_counter_events (count_harq_bit slot user)
        (fun db i => count_harq_bit_events db slot user i)
        (fun s i => count_harq_bit_eq slot user s i)
        (fun ps db => by
          funext i
          simp only [count_harq_bit_events_apply_increments]) _ s
  · exact (log_counter_events_nil s).symm

theorem update_harq_pucch_counter_eq (s : ue_scheduler_impl)
    (cell_alloc : cell_resource_allocator) :
    update_harq_pucch_counter s cell_alloc =
      s.log_counter_events
        (cell_alloc.current.result.ul.pucchs.flatMap
          (count_pucch_events s.ue_db cell_alloc.current.slot)) := by
  unfold update_harq_pucch_counter
  exact foldl_step_eq_log_counter_events (count_pucch cell_alloc.current.slot)
    (fun db g => count_pucch_events db cell_alloc.current.slot g)
    (fun s g => count_pucch_eq cell_alloc.current.slot s g)
    (fun ps db => by
      funext g
      simp only [count_pucch_events_apply_increments]) _ s

theorem filterMap_flatMap {α β γ : Type} (f : α → List β) (g : β → Option γ) (l : List α) :
    (l.flatMap f).filterMap g = l.flatMap (fun a => (f a).filterMap g) := by
  induction l with
  | nil => rfl
  | cons a t ih => simp [List.flatMap_cons, List.filterMap_append, ih]

theorem flatMap_eq_filterMap {α β : Type} (f : α → List β) (g : α → Option β)
    (h : ∀ a, f a = (g a).toList) (l : List α) : l.flatMap f = l.filterMap g := by
  induction l with
  | nil => rfl
  | cons a t ih =>
    rw [List.flatMap_cons, h a, ih]
    cases hg : g a <;> simp [List.filterMap_cons, hg]

theorem count_harq_bit_events_increments (db : ue_repository) (slot : slot_point)
    (u : du_ue_index_t) (n : Nat) :
    ((List.range n).flatMap (count_harq_bit_events db slot u)).filterMap increment_of =
      (List.range n).filterMap
        (fun i => (db.find_dl_harq_waiting_ack_slot u slot i).map (fun h_id => (u, h_id))) := by
  rw [filterMap_flatMap]
  apply flatMap_eq_filterMap
  intro i
  unfold count_harq_bit_events
  cases db.find_dl_harq_waiting_ack_slot u slot i <;> simp [increment_of]

theorem count_pucch_events_increments (db : ue_repository) (slot : slot_point)
    (pucch : pucch_info) :
    (count_pucch_events db slot pucch).filterMap increment_of =
      (if pucch.format = pucch_format.FORMAT_1 ∨ pucch.format = pucch_format.FORMAT_2 then
        match db.find_by_rnti pucch.crnti with
        | none => []
        | some u =>
          (List.range pucch.harq_ack_nof_bits).filterMap
            (fun i => (db.find_dl_harq_waiting_ack_slot u slot i).map (fun h_id => (u, h_id)))
      else []) := by
  unfold count_pucch_events pucch_info.harq_ack_nof_bits
  cases hf : pucch.format with
  | FORMAT_0 => simp
  | FORMAT_3 => simp
  | FORMAT_4 => simp
  | FORMAT_1 =>
    by_cases hb : pucch.format_1.harq_ack_nof_bits > 0
    · simp only [hb, and_true, true_or, if_true, reduceCtorEq, false_and, or_false]
      cases db.find_by_rnti pucch.crnti with
      | none => simp [increment_of]
      | some u => exact count_harq_bit_events_increments db slot u _
    · have h0 : pucch.format_1.harq_ack_nof_bits = 0 := Nat.eq_zero_of_not_pos hb
      cases db.find_by_rnti pucch.crnti <;> simp [h0]
  | FORMAT_2 =>
    by_cases hb : pucch.format_2.harq_ack_nof_bits > 0
    · simp only [hb, and_true, or_true, if_true, reduceCtorEq, false_and, false_or, if_false]
      cases db.find_by_rnti pucch.crnti with
      | none => simp [increment_of]
      | some u => exact count_harq_bit_events_increments db slot u _
    · have h0 : pucch.format_2.harq_ack_nof_bits = 0 := Nat.eq_zero_of_not_pos hb
      cases db.find_by_rnti pucch.crnti <;> simp [h0]

theorem count_pucch_events_kind (db : ue_repository) (slot : slot_point) (pucch : pucch_info) :
    ∀ e ∈ count_pucch_events db slot pucch, e.is_pucch_counter_event := by
  intro e he
  unfold count_pucch_events at he
  split at he
  · cases hfind : db.find_by_rnti pucch.crnti with
    | none =>
      simp only [hfind, List.mem_singleton] at he
      subst he
      trivial
    | some u =>
      simp only [hfind, List.mem_flatMap] at he
      obtain ⟨i, -, hi⟩ := he
      unfold count_harq_bit_events at hi
      cases hh : db.find_dl_harq_waiting_ack_slot u slot i with
      | none =>
        simp only [hh, List.mem_singleton] at hi
        subst hi
        trivial
      | some h =>
        simp only [hh, List.mem_singleton] at hi
        subst hi
        trivial
  · cases he

/-- C13: for every slot result, the `increment_pucch_counter` calls performed by
`update_harq_pucch_counter` are, in order and one each, those of the pairs
(PUCCH grant g, bit index i) such that g has format 1 or 2, i is below the
number of HARQ-ACK bits of g, the RNTI of g is found in the terminal directory
and `find_dl_harq_waiting_ack_slot(slot, i)` returns a process, each applied to
that process; every other pair only yields a warning and the remaining bits
and grants are still processed. -/
theorem update_harq_pucch_counter_increments (s : ue_scheduler_impl)
    (cell_alloc : cell_resource_allocator) :
    ∃ evs, (update_harq_pucch_counter s cell_alloc).events = s.events ++ evs ∧
      evs.filterMap increment_of =
        resolved_feedback_bits s.ue_db cell_alloc.current.slot
          cell_alloc.current.result.ul.pucchs ∧
      (update_harq_pucch_counter s cell_alloc).ue_db =
        apply_increments
          (resolved_feedback_bits s.ue_db cell_alloc.current.slot
            cell_alloc.current.result.ul.pucchs) s.ue_db ∧
      ∀ e ∈ evs, e.is_pucch_counter_event := by
  have hinc : (cell_alloc.current.result.ul.pucchs.flatMap
      (count_pucch_events s.ue_db cell_alloc.current.slot)).filterMap increment_of =
      resolved_feedback_bits s.ue_db cell_alloc.current.slot
        cell_alloc.current.result.ul.pucchs := by
    rw [filterMap_flatMap]
    unfold resolved_feedback_bits
    congr 1
    funext g
    exact count_pucch_events_increments s.ue_db cell_alloc.current.slot g
  refine ⟨_, ?_, hinc, ?_, ?_⟩
  · rw [update_harq_pucch_counter_eq]
    rfl
  · rw [update_harq_pucch_counter_eq, ← hinc]
    rfl
  · intro e he
    rw [List.mem_flatMap] at he
    obtain ⟨g, -, hg⟩ := he
    exact count_pucch_events_kind _ _ g e hg

/-! ## `puxch_grant_sanitizer` -/

theorem sanitize_pucch_eq (slot_alloc : cell_slot_resource_allocator) (s : ue_scheduler_impl)
    (pucch : pucch_info) :
    sanitize_pucch slot_alloc s pucch =
      { s with events := s.events ++ sanitize_pucch_events slot_alloc pucch } := by
  unfold sanitize_pucch sanitize_pucch_events
  cases slot_alloc.result.ul.puschs.find? (fun pusch => pusch.pusch_cfg.rnti == pucch.crnti) with
  | none => simp
  | some g => rfl

theorem foldl_sanitize_pucch_eq (slot_alloc : cell_slot_resource_allocator)
    (l : List pucch_info) (s : ue_scheduler_impl) :
    l.foldl (sanitize_pucch slot_alloc) s =
      { s with events := s.events ++ l.flatMap (sanitize_pucch_events slot_alloc) } := by
  induction l generalizing s with
  | nil => simp
  | cons a t ih =>
    rw [List.foldl_cons, ih, sanitize_pucch_eq]
    simp [List.flatMap_cons, List.append_assoc]

theorem puxch_grant_sanitizer_eq (s : ue_scheduler_impl)
    (cell_alloc : cell_resource_allocator) :
    puxch_grant_sanitizer s cell_alloc =
      { s with events := s.events ++
          (if cell_alloc.cfg.is_ul_enabled cell_alloc.current.slot = true then
            cell_alloc.current.result.ul.pucchs.flatMap (sanitize_pucch_events cell_alloc.current)
          else []) } := by
  unfold puxch_grant_sanitizer
  cases cell_alloc.cfg.is_ul_enabled cell_alloc.current.slot with
  | false => simp
  | true => simp [foldl_sanitize_pucch_eq]

theorem mem_sanitize_pucch_events (slot_alloc : cell_slot_resource_allocator)
    (pucch : pucch_info) (e : sched_event) :
    e ∈ sanitize_pucch_events slot_alloc pucch ↔
      (∃ pusch ∈ slot_alloc.result.ul.puschs, pusch.pusch_cfg.rnti = pucch.crnti) ∧
      e = sched_event.error_pucch_and_pusch pucch.crnti slot_alloc.slot pucch.format
        (logged_pucch_bits pucch).1 (logged_pucch_bits pucch).2.1
        (logged_pucch_bits pucch).2.2 := by
  unfold sanitize_pucch_events
  cases hfind : slot_alloc.result.ul.puschs.find?
      (fun pusch => pusch.pusch_cfg.rnti == pucch.crnti) with
  | none =>
    rw [List.find?_eq_none] at hfind
    simp only [List.not_mem_nil, false_iff, not_and]
    rintro ⟨pusch, hmem, hr⟩
    exact absurd (by simpa using hr) (hfind pusch hmem)
  | some g =>
    have hg := List.find?_some hfind
    have hmem := List.mem_of_find?_eq_some hfind
    simp only [List.mem_singleton]
    constructor
    · intro he
      exact ⟨⟨g, hmem, by simpa using hg⟩, he⟩
    · intro he
      exact he.2

/-- C14 (counterexample): with the uplink enabled, a terminal that has a PUSCH grant
and a PUCCH grant carrying no HARQ-ACK, scheduling-request or CSI bit gets an
error logged; with the uplink not enabled in the slot, a terminal that has a
PUSCH grant and a PUCCH grant carrying one HARQ-ACK bit gets no error logged. -/
theorem puxch_grant_sanitizer_ignores_bit_counts :
    sample_pucch_no_bits.nof_uci_bits = 0 ∧
      (puxch_grant_sanitizer (sample_sched true [])
          (sample_grid_ul true [sample_pucch_no_bits] [sample_pusch])).events =
        [sched_event.error_pucch_and_pusch 17921 55 pucch_format.FORMAT_1 0 0 0] ∧
      0 < sample_pucch_f1.nof_uci_bits ∧
      (puxch_grant_sanitizer (sample_sched true [])
          (sample_grid_ul false [sample_pucch_f1] [sample_pusch])).events = [] := by
  refine ⟨rfl, rfl, by decide, rfl⟩

/-- C14 (as amended): for every finalized slot result, `puxch_grant_sanitizer` logs an
error for a terminal if and only if the uplink is enabled in the slot and that
terminal has, in the same slot, both a PUSCH data grant and a PUCCH control
grant, whatever number of HARQ-ACK, scheduling-request or CSI bits the PUCCH
grant carries. -/
theorem puxch_grant_sanitizer_logs_iff (s : ue_scheduler_impl)
    (cell_alloc : cell_resource_allocator) :
    ∃ evs, (puxch_grant_sanitizer s cell_alloc).events = s.events ++ evs ∧
      ∀ rnti : rnti_t,
        (∃ slot format harq_bits csi_bits sr_bits,
          sched_event.error_pucch_and_pusch rnti slot format harq_bits csi_bits sr_bits ∈ evs) ↔
        (cell_alloc.cfg.is_ul_enabled cell_alloc.current.slot = true ∧
          (∃ pucch ∈ cell_alloc.current.result.ul.pucchs, pucch.crnti = rnti) ∧
          (∃ pusch ∈ cell_alloc.current.result.ul.puschs, pusch.pusch_cfg.rnti = rnti)) := by
  refine ⟨_, by rw [puxch_grant_sanitizer_eq], ?_⟩
  intro rnti
  constructor
  · rintro ⟨slot, format, hb, cb, sb, hmem⟩
    by_cases hul : cell_alloc.cfg.is_ul_enabled cell_alloc.current.slot = true
    · rw [if_pos hul, List.mem_flatMap] at hmem
      obtain ⟨pucch, hp, he⟩ := hmem
      rw [mem_sanitize_pucch_events] at he
      obtain ⟨⟨pusch, hpm, hpr⟩, heq⟩ := he
      injection heq with h1
      exact ⟨hul, ⟨pucch, hp, h1.symm⟩, ⟨pusch, hpm, hpr.trans h1.symm⟩⟩
    · rw [if_neg hul] at hmem
      cases hmem
  · rintro ⟨hul, ⟨pucch, hp, hpr⟩, ⟨pusch, hpm, hur⟩⟩
    refine ⟨cell_alloc.current.slot, pucch.format, (logged_pucch_bits pucch).1,
      (logged_pucch_bits pucch).2.1, (logged_pucch_bits pucch).2.2, ?_⟩
    rw [if_pos hul, List.mem_flatMap]
    refine ⟨pucch, hp, ?_⟩
    rw [mem_sanitize_pucch_events]
    exact ⟨⟨pusch, hpm, hur.trans hpr.symm⟩, by rw [hpr]⟩

/-- C15: for every slot result, also one that holds a PUCCH/PUSCH conflict,
`puxch_grant_sanitizer` returns and only logs: the grant lists of the cells, the
HARQ state of every terminal and the rest of the scheduler are left as they
were, and every recorded event is an error message. -/
theorem puxch_grant_sanitizer_only_logs (s : ue_scheduler_impl)
    (cell_alloc : cell_resource_allocator) :
    (puxch_grant_sanitizer s cell_alloc).ue_db = s.ue_db ∧
      (puxch_grant_sanitizer s cell_alloc).cells = s.cells ∧
      (puxch_grant_sanitizer s cell_alloc).sync_point = s.sync_point ∧
      ∃ evs, (puxch_grant_sanitizer s cell_alloc).events = s.events ++ evs ∧
        ∀ e ∈ evs, e.is_sanitizer_event := by
  rw [puxch_grant_sanitizer_eq]
  refine ⟨rfl, rfl, rfl, _, rfl, ?_⟩
  intro e he
  by_cases hul : cell_alloc.cfg.is_ul_enabled cell_alloc.current.slot = true
  · rw [if_pos hul, List.mem_flatMap] at he
    obtain ⟨pucch, -, hev⟩ := he
    rw [mem_sanitize_pucch_events] at hev
    rw [hev.2]
    trivial
  · rw [if_neg hul] at he
    cases he

/-! ## Error-indication rollback: the calls of each category -/

theorem pdcch_category_cancellations_eq_expected (db : ue_repository) (res : sched_result) :
    pdcch_category_cancellations db.find_by_rnti res = expected_pdcch_cancellations db res := by
  unfold pdcch_category_cancellations expected_pdcch_cancellations
  congr 1
  · apply flatMap_eq_filterMap
    intro pdcch
    unfold dl_pdcch_cancellations
    cases db.find_by_rnti pdcch.ctx.rnti with
    | none => rfl
    | some u => cases ht : pdcch.dci.type <;> simp
  · apply flatMap_eq_filterMap
    intro pdcch
    unfold ul_pdcch_cancellations
    cases db.find_by_rnti pdcch.ctx.rnti with
    | none => rfl
    | some u => cases ht : pdcch.dci.type <;> simp

/-- C17: for every slot present in history and every error indication with
pdcch_discarded set, the cancellations performed for that category are exactly:
codeword 0 of the downlink HARQ process numbered by the DCI for each downlink
PDCCH of type tc_rnti_f1_0 or c_rnti_f1_0, and the uplink HARQ process numbered
by the DCI for each uplink PDCCH of type c_rnti_f0_0 or c_rnti_f0_1, each for a
terminal found by the RNTI of the PDCCH; a PDCCH of any other DCI type cancels
nothing. They are performed first, and the calls that follow are those the same
indication performs without the category. -/
theorem handle_error_indication_pdcch_category_calls (s : ue_scheduler_impl)
    (sl_tx : slot_point) (cell_index : du_cell_index_t) (event : error_outcome)
    (res_grid : cell_resource_allocator) (prev_slot_result : cell_slot_resource_allocator)
    (hcell : s.cell_res_alloc cell_index = some res_grid)
    (hhist : res_grid.get_history sl_tx = some prev_slot_result)
    (hflag : event.pdcch_discarded = true) :
    ∃ r r0 rest, handle_error_indication s sl_tx cell_index event = some r ∧
      handle_error_indication s sl_tx cell_index { event with pdcch_discarded := false } =
        some r0 ∧
      r0.events = s.events ++ rest ∧
      r.events = s.events ++
        (expected_pdcch_cancellations s.ue_db prev_slot_result.result).map sched_event.cancel ++
        rest ∧
      (event.pdsch_discarded = false → event.pusch_and_pucch_discarded = false → rest = []) := by
  obtain ⟨r, hr, -, hev, -⟩ := handle_error_indication_ue_db s sl_tx cell_index event res_grid
    prev_slot_result hcell hhist
  obtain ⟨r0, hr0, -, hev0, -⟩ := handle_error_indication_ue_db s sl_tx cell_index
    { event with pdcch_discarded := false } res_grid prev_slot_result hcell hhist
  refine ⟨r, r0, _, hr, hr0, hev0, ?_, ?_⟩
  · rw [hev, ← pdcch_category_cancellations_eq_expected]
    simp [rollback_cancellations, hflag, List.append_assoc]
  · intro h2 h3
    simp [rollback_cancellations, h2, h3]

theorem handle_error_indication_pdcch_category_calls_witness :
    (sample_sched true sample_history_removed_ue).cell_res_alloc 0 =
        some (sample_grid true sample_history_removed_ue) ∧
      expected_pdcch_cancellations sample_ue_db
          { dl := { dl_pdcchs := [sample_dl_pdcch_unknown, sample_dl_pdcch] } } =
        [harq_cancellation.dl_cancel_harq 0 0 0] ∧
      ∃ r r0 rest, handle_error_indication (sample_sched true sample_history_removed_ue) 54 0
          { pdcch_discarded := true, pdsch_discarded := false,
            pusch_and_pucch_discarded := false } = some r ∧
        handle_error_indication (sample_sched true sample_history_removed_ue) 54 0
          { pdcch_discarded := false, pdsch_discarded := false,
            pusch_and_pucch_discarded := false } = some r0 ∧
        r0.events = (sample_sched true sample_history_removed_ue).events ++ rest ∧
        r.events = (sample_sched true sample_history_removed_ue).events ++
          (expected_pdcch_cancellations (sample_sched true sample_history_removed_ue).ue_db
            { dl := { dl_pdcchs := [sample_dl_pdcch_unknown, sample_dl_pdcch] } }).map
            sched_event.cancel ++ rest ∧
        ((false : Bool) = false → (false : Bool) = false → rest = []) :=
  ⟨rfl, rfl,
    handle_error_indication_pdcch_category_calls (sample_sched true sample_history_removed_ue)
      54 0
      { pdcch_discarded := true, pdsch_discarded := false, pusch_and_pucch_discarded := false }
      (sample_grid true sample_history_removed_ue)
      { slot := 54,
        result := { dl := { dl_pdcchs := [sample_dl_pdcch_unknown, sample_dl_pdcch] } } }
      rfl rfl rfl⟩

theorem mem_pdsch_category_cancellations (find : rnti_t → Option du_ue_index_t)
    (res : sched_result) (c : harq_cancellation) :
    c ∈ pdsch_category_cancellations find res ↔
      ∃ grant ∈ res.dl.ue_grants, ∃ u cw_idx, find grant.pdsch_cfg.rnti = some u ∧
        cw_idx < grant.pdsch_cfg.codewords.length ∧
        c = harq_cancellation.dl_cancel_harq u grant.pdsch_cfg.harq_id cw_idx := by
  unfold pdsch_category_cancellations
  rw [List.mem_flatMap]
  constructor
  · rintro ⟨grant, hmem, hc⟩
    unfold ue_grant_cancellations at hc
    cases hf : find grant.pdsch_cfg.rnti with
    | none => simp [hf] at hc
    | some u =>
      simp only [hf, List.mem_map, List.mem_range] at hc
      obtain ⟨cw, hcw, rfl⟩ := hc
      exact ⟨grant, hmem, u, cw, hf, hcw, rfl⟩
  · rintro ⟨grant, hmem, u, cw, hf, hcw, rfl⟩
    refine ⟨grant, hmem, ?_⟩
    unfold ue_grant_cancellations
    simp only [hf, List.mem_map, List.mem_range]
    exact ⟨cw, hcw, rfl⟩

theorem dl_cancel_harq_not_mem_pusch_pucch_category (sl_tx : slot_point)
    (find : rnti_t → Option du_ue_index_t) (res : sched_result) (u : du_ue_index_t)
    (h_id : harq_id_t) (cw_idx : Nat) :
    harq_cancellation.dl_cancel_harq u h_id cw_idx ∉
      pusch_pucch_category_cancellations sl_tx find res := by
  unfold pusch_pucch_category_cancellations
  rw [List.mem_append, List.mem_flatMap, List.mem_flatMap]
  rintro (⟨grant, -, hc⟩ | ⟨pucch, -, hc⟩)
  · unfold pusch_cancellations at hc
    cases hf : find grant.pusch_cfg.rnti with
    | none => simp [hf] at hc
    | some u0 => cases hh : grant.has_harq_ack <;> simp [hf, hh] at hc
  · unfold pucch_cancellations at hc
    cases hf : find pucch.crnti with
    | none => simp [hf] at hc
    | some u0 => cases hh : pucch.has_harq_ack <;> simp [hf, hh] at hc

theorem ul_cancel_harq_mem_pusch_pucch_category (sl_tx : slot_point)
    (find : rnti_t → Option du_ue_index_t) (res : sched_result) (grant : ul_sched_info)
    (u : du_ue_index_t) (hmem : grant ∈ res.ul.puschs)
    (hf : find grant.pusch_cfg.rnti = some u) :
    harq_cancellation.ul_cancel_harq u grant.pusch_cfg.harq_id ∈
      pusch_pucch_category_cancellations sl_tx find res := by
  unfold pusch_pucch_category_cancellations
  rw [List.mem_append, List.mem_flatMap]
  left
  refine ⟨grant, hmem, ?_⟩
  simp [pusch_cancellations, hf]

/-! ## Effect of the cancellations on one uplink process -/

theorem ul_effect_ul_cancel_harq (u0 : du_ue_index_t) (h0 : harq_id_t)
    (u : du_ue_index_t) (h_id : harq_id_t) :
    (harq_cancellation.ul_cancel_harq u0 h0).ul_effect u h_id =
      fun st => if u0 = u ∧ h0 = h_id then harq_state.empty else st := rfl

theorem ul_effect_dl_cancel_harq (u0 : du_ue_index_t) (h0 : harq_id_t) (c0 : Nat)
    (u : du_ue_index_t) (h_id : harq_id_t) :
    (harq_cancellation.dl_cancel_harq u0 h0 c0).ul_effect u h_id = fun st => st := rfl

theorem ul_effect_cancel_dl_harqs (u0 : du_ue_index_t) (sl : slot_point)
    (u : du_ue_index_t) (h_id : harq_id_t) :
    (harq_cancellation.cancel_dl_harqs u0 sl).ul_effect u h_id = fun st => st := rfl

theorem ul_harq_state_run (c : harq_cancellation) (db : ue_repository) (u : du_ue_index_t)
    (h_id : harq_id_t) :
    (c.run db).ul_harq_state u h_id = (db.ul_harq_state u h_id).map (c.ul_effect u h_id) := by
  rw [run_eq_modify_ue]
  unfold ue_repository.ul_harq_state ue_repository.modify_ue
  simp only [List.getElem?_modify]
  cases hx : db.ues[u]? with
  | none => rfl
  | some o =>
    cases o with
    | none => by_cases hu : c.target = u <;> simp [hu]
    | some x =>
      by_cases hu : c.target = u
      · simp only [hu, if_true, Option.map_eq_map, Option.map_some', ue.modify_harqs]
        cases c with
        | dl_cancel_harq u0 h0 c0 =>
          simp only [harq_cancellation.on_harqs, harq_entity.dl_cancel_harq,
            ul_effect_dl_cancel_harq]
          cases hp : x.pcell.harqs.ul_harqs[h_id]? <;> simp
        | cancel_dl_harqs u0 sl =>
          simp only [harq_cancellation.on_harqs, harq_entity.cancel_dl_harqs,
            ul_effect_cancel_dl_harqs]
          cases hp : x.pcell.harqs.ul_harqs[h_id]? <;> simp
        | ul_cancel_harq u0 h0 =>
          simp only [harq_cancellation.target] at hu
          subst hu
          simp only [harq_cancellation.on_harqs, harq_entity.ul_cancel_harq,
            List.getElem?_modify, ul_effect_ul_cancel_harq]
          cases hp : x.pcell.harqs.ul_harqs[h_id]? with
          | none => rfl
          | some p =>
            by_cases hh : h0 = h_id
            · simp [hh, ul_harq_process.cancel_harq]
            · simp [hh]
      · simp only [hu, if_false, Option.map_eq_map, Option.map_some']
        have hid : c.ul_effect u h_id = id := by
          funext st
          cases c <;> simp only [harq_cancellation.target] at hu <;>
            simp [harq_cancellation.ul_effect, hu]
        rw [hid]
        simp

theorem ul_harq_state_of_ul_cancel_harq_mem (cs : List harq_cancellation) (db : ue_repository)
    (u : du_ue_index_t) (h_id : harq_id_t)
    (hmem : harq_cancellation.ul_cancel_harq u h_id ∈ cs) :
    (run_cancellations cs db).ul_harq_state u h_id =
      (db.ul_harq_state u h_id).map (fun _ => harq_state.empty) := by
  have hfix := run_cancellations_absorb _ cs hmem db
  have hrun := ul_harq_state_run (harq_cancellation.ul_cancel_harq u h_id)
    (run_cancellations cs db) u h_id
  rw [hfix, ul_effect_ul_cancel_harq] at hrun
  have hsome : ∀ (ds : List harq_cancellation) (d : ue_repository),
      ((run_cancellations ds d).ul_harq_state u h_id).isSome =
        (d.ul_harq_state u h_id).isSome := by
    intro ds
    induction ds with
    | nil => intro d; rfl
    | cons c t ih =>
      intro d
      rw [run_cancellations_cons, ih, ul_harq_state_run]
      cases d.ul_harq_state u h_id <;> rfl
  have hs := hsome cs db
  cases hfin : (run_cancellations cs db).ul_harq_state u h_id with
  | none =>
    rw [hfin] at hs
    cases hini : db.ul_harq_state u h_id with
    | none => rfl
    | some st => rw [hini] at hs; simp at hs
  | some st =>
    rw [hfin] at hs hrun
    cases hini : db.ul_harq_state u h_id with
    | none => rw [hini] at hs; simp at hs
    | some st0 =>
      simp only [Option.map_some', and_self, if_true] at hrun ⊢
      exact hrun

/-- C18: for every slot present in history, with pdsch_discarded set the call issues,
for each downlink data grant whose terminal is found, `cancel_harq(cw)` on the
downlink HARQ process `grant.pdsch_cfg.harq_id` for every codeword index below
the number of codewords of the grant, and for no other codeword index (outside
the control-channel category every `cancel_harq(cw)` on a downlink process
comes from such a grant and index); with pusch_and_pucch_discarded set the
uplink HARQ process `grant.pusch_cfg.harq_id` of every PUSCH grant whose
terminal is found is cancelled and ends in Empty. -/
theorem handle_error_indication_data_category_calls (s : ue_scheduler_impl)
    (sl_tx : slot_point) (cell_index : du_cell_index_t) (event : error_outcome)
    (res_grid : cell_resource_allocator) (prev_slot_result : cell_slot_resource_allocator)
    (hcell : s.cell_res_alloc cell_index = some res_grid)
    (hhist : res_grid.get_history sl_tx = some prev_slot_result) :
    ∃ r evs, handle_error_indication s sl_tx cell_index event = some r ∧
      r.events = s.events ++ evs ∧
      (event.pdsch_discarded = true →
        ∀ grant ∈ prev_slot_result.result.dl.ue_grants, ∀ u,
          s.ue_db.find_by_rnti grant.pdsch_cfg.rnti = some u →
          ∀ cw_idx, cw_idx < grant.pdsch_cfg.codewords.length →
            sched_event.cancel
              (harq_cancellation.dl_cancel_harq u grant.pdsch_cfg.harq_id cw_idx) ∈ evs) ∧
      (event.pdcch_discarded = false →
        ∀ u h_id cw_idx,
          sched_event.cancel (harq_cancellation.dl_cancel_harq u h_id cw_idx) ∈ evs →
          event.pdsch_discarded = true ∧
            ∃ grant ∈ prev_slot_result.result.dl.ue_grants,
              s.ue_db.find_by_rnti grant.pdsch_cfg.rnti = some u ∧
              h_id = grant.pdsch_cfg.harq_id ∧
              cw_idx < grant.pdsch_cfg.codewords.length) ∧
      (event.pusch_and_pucch_discarded = true →
        ∀ grant ∈ prev_slot_result.result.ul.puschs, ∀ u,
          s.ue_db.find_by_rnti grant.pusch_cfg.rnti = some u →
          sched_event.cancel (harq_cancellation.ul_cancel_harq u grant.pusch_cfg.harq_id) ∈ evs ∧
            r.ue_db.ul_harq_state u grant.pusch_cfg.harq_id =
              (s.ue_db.ul_harq_state u grant.pusch_cfg.harq_id).map
                (fun _ => harq_state.empty)) := by
  obtain ⟨r, hr, hdb, hev, -⟩ := handle_error_indication_ue_db s sl_tx cell_index event res_grid
    prev_slot_result hcell hhist
  refine ⟨r, _, hr, hev, ?_, ?_, ?_⟩
  · intro hflag grant hmem u hf cw hcw
    apply List.mem_map_of_mem
    rw [mem_rollback_cancellations]
    right; left
    exact ⟨hflag, (mem_pdsch_category_cancellations _ _ _).mpr ⟨grant, hmem, u, cw, hf, hcw, rfl⟩⟩
  · intro hflag u h_id cw hmem
    rw [List.mem_map] at hmem
    obtain ⟨c, hc, hceq⟩ := hmem
    injection hceq with hceq
    subst hceq
    rw [mem_rollback_cancellations] at hc
    rcases hc with ⟨h1, -⟩ | ⟨h2, hc⟩ | ⟨-, hc⟩
    · rw [hflag] at h1
      cases h1
    · obtain ⟨grant, hg, u0, cw0, hf, hcw, heq⟩ :=
        (mem_pdsch_category_cancellations _ _ _).mp hc
      injection heq with e1 e2 e3
      subst e1 e2 e3
      exact ⟨h2, grant, hg, hf, rfl, hcw⟩
    · exact absurd hc (dl_cancel_harq_not_mem_pusch_pucch_category _ _ _ _ _ _)
  · intro hflag grant hmem u hf
    have hin : harq_cancellation.ul_cancel_harq u grant.pusch_cfg.harq_id ∈
        rollback_cancellations s.ue_db.find_by_rnti sl_tx event prev_slot_result.result := by
      rw [mem_rollback_cancellations]
      right; right
      exact ⟨hflag, ul_cancel_harq_mem_pusch_pucch_category _ _ _ grant u hmem hf⟩
    refine ⟨List.mem_map_of_mem _ hin, ?_⟩
    rw [hdb]
    exact ul_harq_state_of_ul_cancel_harq_mem _ _ _ _ hin

theorem handle_error_indication_data_category_calls_witness :
    (sample_sched true sample_history_data).cell_res_alloc 0 =
        some (sample_grid true sample_history_data) ∧
      ∃ r evs, handle_error_indication (sample_sched true sample_history_data) 54 0
          { pdcch_discarded := false, pdsch_discarded := true,
            pusch_and_pucch_discarded := true } = some r ∧
        r.events = (sample_sched true sample_history_data).events ++ evs ∧
        ((true : Bool) = true →
          ∀ grant ∈ [sample_ue_grant], ∀ u,
            (sample_sched true sample_history_data).ue_db.find_by_rnti grant.pdsch_cfg.rnti =
              some u →
            ∀ cw_idx, cw_idx < grant.pdsch_cfg.codewords.length →
              sched_event.cancel
                (harq_cancellation.dl_cancel_harq u grant.pdsch_cfg.harq_id cw_idx) ∈ evs) ∧
        ((false : Bool) = false →
          ∀ u h_id cw_idx,
            sched_event.cancel (harq_cancellation.dl_cancel_harq u h_id cw_idx) ∈ evs →
            (true : Bool) = true ∧
              ∃ grant ∈ [sample_ue_grant],
                (sample_sched true sample_history_data).ue_db.find_by_rnti
                  grant.pdsch_cfg.rnti = some u ∧
                h_id = grant.pdsch_cfg.harq_id ∧
                cw_idx < grant.pdsch_cfg.codewords.length) ∧
        ((true : Bool) = true →
          ∀ grant ∈ [sample_pusch], ∀ u,
            (sample_sched true sample_history_data).ue_db.find_by_rnti grant.pusch_cfg.rnti =
              some u →
            sched_event.cancel
                (harq_cancellation.ul_cancel_harq u grant.pusch_cfg.harq_id) ∈ evs ∧
              r.ue_db.ul_harq_state u grant.pusch_cfg.harq_id =
                ((sample_sched true sample_history_data).ue_db.ul_harq_state u
                  grant.pusch_cfg.harq_id).map (fun _ => harq_state.empty)) :=
  ⟨rfl,
    handle_error_indication_data_category_calls (sample_sched true sample_history_data) 54 0
      { pdcch_discarded := false, pdsch_discarded := true, pusch_and_pucch_discarded := true }
      (sample_grid true sample_history_data)
      { slot := 54,
        result := { dl := { ue_grants := [sample_ue_grant] },
                    ul := { puschs := [sample_pusch] } } }
      rfl rfl⟩

/-! ## `run_slot`: the cell table and the barrier -/

theorem run_slot_before_wait_sync_point (cenv : slot_collaborators) (s : ue_scheduler_impl)
    (slot_tx : slot_point) (cell_index : du_cell_index_t) (res_alloc : cell_resource_allocator) :
    (run_slot_before_wait cenv s slot_tx cell_index res_alloc).sync_point = s.sync_point := rfl

theorem run_slot_before_wait_expert_cfg (cenv : slot_collaborators) (s : ue_scheduler_impl)
    (slot_tx : slot_point) (cell_index : du_cell_index_t) (res_alloc : cell_resource_allocator) :
    (run_slot_before_wait cenv s slot_tx cell_index res_alloc).expert_cfg = s.expert_cfg := rfl

/-- A thread that waits in the round being assembled and calls `wait` again is
refused. -/
theorem wait_repeated_fails (sp : slot_sync_point) (caller : du_cell_index_t)
    (sl : slot_point) (nof_workers : Nat) (h : caller ∈ sp.waiting) :
    sp.wait caller sl nof_workers = none := by
  have hne : sp.waiting ≠ [] := List.ne_nil_of_mem h
  unfold slot_sync_point.wait
  by_cases h0 : nof_workers = 0
  · simp [h0]
  · by_cases hd : sp.last_sl ≠ some sl ∨ sp.nof_workers ≠ nof_workers
    · simp [h0, hne, hd]
    · rw [if_neg h0, if_neg hne, if_neg hd, if_pos h]

/-- A call for a slot that is not newer than the slot of the round last opened is
refused, unless it joins the round of that very slot while it is assembled. -/
theorem wait_older_slot_fails (sp : slot_sync_point) (caller : du_cell_index_t)
    (sl last : slot_point) (nof_workers : Nat) (hlast : sp.last_sl = some last)
    (h : sl < last ∨ (sl = last ∧ sp.waiting = [])) :
    sp.wait caller sl nof_workers = none := by
  unfold slot_sync_point.wait
  by_cases h0 : nof_workers = 0
  · simp [h0]
  · by_cases hw : sp.waiting = []
    · have hle : sl ≤ last := by
        rcases h with h | h
        · exact Nat.le_of_lt h
        · exact Nat.le_of_eq h.1
      simp [h0, hw, hlast, hle]
    · have hne : sl ≠ last := by
        rcases h with h | h
        · exact Nat.ne_of_lt h
        · exact absurd h.2 hw
      have hd : sp.last_sl ≠ some sl := by
        rw [hlast]
        intro heq
        exact hne (Option.some.inj heq).symm
      simp [h0, hw, hd]

/-- In the scheduler with two cells, a second `run_slot` of cell 0 for slot 55 while
cell 1 has not arrived is refused by the barrier, and so is a call for slot 54
once the round of slot 55 has been released. -/
theorem run_slot_arrivals_contract_violations :
    (run_slot_arrivals sample_env sample_cenv 55 sample_sched_two_cells [0, 0]).isSome = false ∧
      (run_slot_arrivals sample_env sample_cenv 55 sample_sched_two_cells [0, 1]).isSome = true ∧
      ((run_slot_arrivals sample_env sample_cenv 55 sample_sched_two_cells [0, 1]).bind
        (fun r => run_slot_arrivals sample_env sample_cenv 54 r [0])).isSome = false ∧
      ((run_slot_arrivals sample_env sample_cenv 55 sample_sched_two_cells [0, 1]).bind
        (fun r => run_slot_arrivals sample_env sample_cenv 56 r [1, 0])).isSome = true := by
  refine ⟨rfl, rfl, rfl, rfl⟩

/-- C21: for every MAC SSB PDU, whatever the FAPI PDU held before,
`convert_ssb_mac_to_fapi` leaves a FAPI PDU whose `beta_pss_profile_nr` has the
numeric value of the MAC `pss_to_sss_epre`, whose `phys_cell_id`,
`ssb_block_index`, `ssb_subcarrier_offset`, `ssb_offset_pointA`, case type,
`L_max`, subcarrier spacing, `pdcch_config_sib1`, DM-RS type-A position,
`cell_barred` and `intrafreq_reselection` are those of the MAC PDU, and whose BCH
payload flag is `phy_full`. -/
theorem convert_ssb_mac_to_fapi_fields (fapi_pdu : fapi.dl_ssb_pdu) (mac_pdu : dl_ssb_pdu) :
    (fapi_adaptor.convert_ssb_mac_to_fapi fapi_pdu mac_pdu).beta_pss_profile_nr.to_uint =
        mac_pdu.pss_to_sss_epre.to_uint ∧
      (fapi_adaptor.convert_ssb_mac_to_fapi fapi_pdu mac_pdu).phys_cell_id = mac_pdu.pci ∧
      (fapi_adaptor.convert_ssb_mac_to_fapi fapi_pdu mac_pdu).ssb_block_index =
        mac_pdu.ssb_index ∧
      (fapi_adaptor.convert_ssb_mac_to_fapi fapi_pdu mac_pdu).ssb_subcarrier_offset =
        mac_pdu.subcarrier_offset ∧
      (fapi_adaptor.convert_ssb_mac_to_fapi fapi_pdu mac_pdu).ssb_offset_pointA =
        mac_pdu.offset_to_pointA ∧
      (fapi_adaptor.convert_ssb_mac_to_fapi fapi_pdu mac_pdu).ssb_maintenance_v3.case_type =
        mac_pdu.ssb_case ∧
      (fapi_adaptor.convert_ssb_mac_to_fapi fapi_pdu mac_pdu).ssb_maintenance_v3.L_max =
        mac_pdu.L_max ∧
      (fapi_adaptor.convert_ssb_mac_to_fapi fapi_pdu mac_pdu).ssb_maintenance_v3.scs =
        mac_pdu.scs ∧
      (fapi_adaptor.convert_ssb_mac_to_fapi fapi_pdu mac_pdu).bch_payload_flag =
        fapi.bch_payload_type.phy_full ∧
      (fapi_adaptor.convert_ssb_mac_to_fapi fapi_pdu
        mac_pdu).bch_payload.phy_mib_pdu.pdcch_config_sib1 =
        mac_pdu.mib_data.pdcch_config_sib1 ∧
      (fapi_adaptor.convert_ssb_mac_to_fapi fapi_pdu
        mac_pdu).bch_payload.phy_mib_pdu.dmrs_typeA_position =
        (if mac_pdu.mib_data.dmrs_typeA_pos = dmrs_typeA_position.pos2
         then fapi.dmrs_typeA_pos.pos2 else fapi.dmrs_typeA_pos.pos3) ∧
      (fapi_adaptor.convert_ssb_mac_to_fapi fapi_pdu
        mac_pdu).bch_payload.phy_mib_pdu.cell_barred = mac_pdu.mib_data.cell_barred ∧
      (fapi_adaptor.convert_ssb_mac_to_fapi fapi_pdu
        mac_pdu).bch_payload.phy_mib_pdu.intrafreq_reselection =
        mac_pdu.mib_data.intra_freq_reselection := by
  refine ⟨?_, rfl, rfl, rfl, rfl, rfl, rfl, rfl, rfl, rfl, rfl, rfl, rfl⟩
  cases h : mac_pdu.pss_to_sss_epre <;>
    simp [fapi_adaptor.convert_ssb_mac_to_fapi, fapi_adaptor.convert_ssb_mac_to_fapi_builder,
      fapi.dl_ssb_pdu_builder.set_basic_parameters,
      fapi.dl_ssb_pdu_builder.set_maintenance_v3_basic_parameters,
      fapi.dl_ssb_pdu_builder.set_bch_payload_phy_full,
      fapi_adaptor.convert_to_beta_pss_profile_nr, h,
      fapi.beta_pss_profile_type.to_uint, ssb_pss_to_sss_epre.to_uint]

/-! ## Open Fronthaul RU configuration validator: downlink ports under broadcast -/

/-- C22: `check_dl_ports_if_broadcast_is_enabled` accepts a configuration with
downlink broadcast enabled if and only if every sector has exactly two downlink
ports, and accepts every configuration with broadcast disabled whatever the
number of downlink ports of its sectors (none included); a configuration with
no sectors is accepted. -/
theorem check_dl_ports_if_broadcast_is_enabled_accepts (config : ru_ofh_configuration) :
    (config.is_downlink_broadcast_enabled = true →
      (check_dl_ports_if_broadcast_is_enabled config = true ↔
        ∀ sector ∈ config.sector_configs, sector.ru_dl_ports.length = 2)) ∧
    (config.is_downlink_broadcast_enabled = false →
      check_dl_ports_if_broadcast_is_enabled config = true) ∧
    (config.sector_configs = [] → check_dl_ports_if_broadcast_is_enabled config = true) := by
  unfold check_dl_ports_if_broadcast_is_enabled
  refine ⟨?_, ?_, ?_⟩
  · intro hb
    rw [check_dl_ports_loop_iff]
    simp [hb]
  · intro hb
    rw [check_dl_ports_loop_iff]
    simp [hb]
  · intro hs
    rw [hs]
    rfl

/-! ## F1AP PDU helpers: `get_gnb_du_ue_f1ap_id` -/

/-- C23: `get_gnb_du_ue_f1ap_id(pdu)` returns a value only when `pdu` is an initiating
message of one of the eight UE-associated types, and the value is then the
`gnb_du_ue_f1ap_id` of that message; for every successful-outcome PDU, every
unsuccessful-outcome PDU, every other initiating message and the unset PDU it
returns the error result. -/
theorem get_gnb_du_ue_f1ap_id_value_iff (pdu : f1ap_pdu_c) :
    (∀ id, get_gnb_du_ue_f1ap_id pdu = Except.ok id ↔
      ∃ msg ies, pdu = f1ap_pdu_c.init_msg { value := msg } ∧
        msg.ue_associated = some ies ∧ id = ies.gnb_du_ue_f1ap_id) ∧
    ((¬ ∃ msg ies, pdu = f1ap_pdu_c.init_msg { value := msg } ∧
        msg.ue_associated = some ies) →
      get_gnb_du_ue_f1ap_id pdu = Except.error {}) ∧
    (∀ m, get_gnb_du_ue_f1ap_id (f1ap_pdu_c.successful_outcome m) = Except.error {}) ∧
    (∀ m, get_gnb_du_ue_f1ap_id (f1ap_pdu_c.unsuccessful_outcome m) = Except.error {}) ∧
    (∀ ies : f1ap_ue_msg_ies,
      get_gnb_du_ue_f1ap_id (f1ap_pdu_c.init_msg ⟨init_msg_c.ue_context_setup_request ies⟩) =
        Except.ok ies.gnb_du_ue_f1ap_id ∧
      get_gnb_du_ue_f1ap_id (f1ap_pdu_c.init_msg ⟨init_msg_c.ue_context_release_cmd ies⟩) =
        Except.ok ies.gnb_du_ue_f1ap_id ∧
      get_gnb_du_ue_f1ap_id (f1ap_pdu_c.init_msg ⟨init_msg_c.ue_context_mod_request ies⟩) =
        Except.ok ies.gnb_du_ue_f1ap_id ∧
      get_gnb_du_ue_f1ap_id (f1ap_pdu_c.init_msg ⟨init_msg_c.ue_context_mod_required ies⟩) =
        Except.ok ies.gnb_du_ue_f1ap_id ∧
      get_gnb_du_ue_f1ap_id (f1ap_pdu_c.init_msg ⟨init_msg_c.ue_context_release_request ies⟩) =
        Except.ok ies.gnb_du_ue_f1ap_id ∧
      get_gnb_du_ue_f1ap_id (f1ap_pdu_c.init_msg ⟨init_msg_c.dl_rrc_msg_transfer ies⟩) =
        Except.ok ies.gnb_du_ue_f1ap_id ∧
      get_gnb_du_ue_f1ap_id (f1ap_pdu_c.init_msg ⟨init_msg_c.ul_rrc_msg_transfer ies⟩) =
        Except.ok ies.gnb_du_ue_f1ap_id ∧
      get_gnb_du_ue_f1ap_id (f1ap_pdu_c.init_msg ⟨init_msg_c.init_ul_rrc_msg_transfer ies⟩) =
        Except.ok ies.gnb_du_ue_f1ap_id) := by
  refine ⟨?_, ?_, fun _ => rfl, fun _ => rfl, fun _ => ⟨rfl, rfl, rfl, rfl, rfl, rfl, rfl, rfl⟩⟩
  · intro id
    rcases pdu with ⟨⟨msg⟩⟩ | m | m | _
    · cases msg <;>
        simp [get_gnb_du_ue_f1ap_id, get_gnb_du_ue_f1ap_id_init_msg, init_msg_c.ue_associated,
          eq_comm]
    · simp [get_gnb_du_ue_f1ap_id, get_gnb_du_ue_f1ap_id_successful_outcome]
    · simp [get_gnb_du_ue_f1ap_id, get_gnb_du_ue_f1ap_id_unsuccessful_outcome]
    · simp [get_gnb_du_ue_f1ap_id]
  · intro h
    rcases pdu with ⟨⟨msg⟩⟩ | m | m | _
    · cases msg <;>
        first
        | rfl
        | exact absurd ⟨_, _, rfl, rfl⟩ h
    · rfl
    · rfl
    · rfl

/-! ## `run_sched_strategy`: when the strategy is invoked -/

/-- C24: `run_sched_strategy(slot, cell)` returns for a registered cell; after the slot
indication it invokes `ul_sched` if and only if `is_dl_enabled(slot)` holds for
that cell, and `dl_sched` if and only if `is_dl_enabled(slot)` holds and either
`enable_csi_rs_pdsch_multiplexing` is set or the current-slot result of the cell
holds no CSI-RS, so that the uplink allocation too is skipped on slots without
downlink. The calls are decided by the configuration and grid of the cell of
the calling thread alone: a scheduler with the same expert configuration and
the same allocator for that cell issues the same calls, whatever its other
cells are. -/
theorem run_sched_strategy_call_conditions (env : collaborators) (s : ue_scheduler_impl)
    (slot_tx : slot_point) (cell_index : du_cell_index_t) (res_alloc : cell_resource_allocator)
    (hcell : s.cell_res_alloc cell_index = some res_alloc) :
    ∃ r calls, run_sched_strategy env s slot_tx cell_index = some r ∧
      r.events = s.events ++ sched_event.ue_db_slot_indication slot_tx :: calls ∧
      (∀ e ∈ calls, e = sched_event.dl_sched ∨ e = sched_event.ul_sched) ∧
      (sched_event.ul_sched ∈ calls ↔ res_alloc.cfg.is_dl_enabled slot_tx = true) ∧
      (sched_event.dl_sched ∈ calls ↔
        res_alloc.cfg.is_dl_enabled slot_tx = true ∧
          (s.expert_cfg.enable_csi_rs_pdsch_multiplexing = true ∨
            res_alloc.current.result.dl.csi_rs = [])) ∧
      (res_alloc.cfg.is_dl_enabled slot_tx = false → calls = []) ∧
      ∀ s2 : ue_scheduler_impl, s2.expert_cfg = s.expert_cfg →
        s2.cell_res_alloc cell_index = some res_alloc →
        ∃ r2, run_sched_strategy env s2 slot_tx cell_index = some r2 ∧
          r2.events = s2.events ++ sched_event.ue_db_slot_indication slot_tx :: calls := by
  obtain ⟨r, hr, hev⟩ := run_sched_strategy_events env s slot_tx cell_index res_alloc hcell
  refine ⟨r, _, hr, hev, ?_, ?_, ?_, ?_, ?_⟩
  · intro e he
    cases hdl : res_alloc.cfg.is_dl_enabled slot_tx <;>
      cases hp : (s.expert_cfg.enable_csi_rs_pdsch_multiplexing ||
        res_alloc.current.result.dl.csi_rs.isEmpty) <;>
      rw [hdl, hp] at he <;> simp [strategy_calls] at he ⊢ <;> tauto
  · cases hdl : res_alloc.cfg.is_dl_enabled slot_tx <;>
      cases hp : (s.expert_cfg.enable_csi_rs_pdsch_multiplexing ||
        res_alloc.current.result.dl.csi_rs.isEmpty) <;>
      simp [strategy_calls]
  · cases hdl : res_alloc.cfg.is_dl_enabled slot_tx <;>
      cases hm : s.expert_cfg.enable_csi_rs_pdsch_multiplexing <;>
      cases hc : res_alloc.current.result.dl.csi_rs <;>
      simp [strategy_calls]
  · intro hdl
    rw [hdl]
    rfl
  · intro s2 hcfg hcell2
    obtain ⟨r2, hr2, hev2⟩ :=
      run_sched_strategy_events env s2 slot_tx cell_index res_alloc hcell2
    rw [hcfg] at hev2
    exact ⟨r2, hr2, hev2⟩

theorem run_sched_strategy_call_conditions_witness :
    sample_sched_mixed_cells.cell_res_alloc 1 = some (sample_grid false []) ∧
      ∃ r calls, run_sched_strategy sample_env sample_sched_mixed_cells 55 1 = some r ∧
        r.events = sample_sched_mixed_cells.events ++
          sched_event.ue_db_slot_indication 55 :: calls ∧
        (∀ e ∈ calls, e = sched_event.dl_sched ∨ e = sched_event.ul_sched) ∧
        (sched_event.ul_sched ∈ calls ↔ (sample_grid false []).cfg.is_dl_enabled 55 = true) ∧
        (sched_event.dl_sched ∈ calls ↔
          (sample_grid false []).cfg.is_dl_enabled 55 = true ∧
            (sample_sched_mixed_cells.expert_cfg.enable_csi_rs_pdsch_multiplexing = true ∨
              (sample_grid false []).current.result.dl.csi_rs = [])) ∧
        ((sample_grid false []).cfg.is_dl_enabled 55 = false → calls = []) ∧
        ∀ s2 : ue_scheduler_impl, s2.expert_cfg = sample_sched_mixed_cells.expert_cfg →
          s2.cell_res_alloc 1 = some (sample_grid false []) →
          ∃ r2, run_sched_strategy sample_env s2 55 1 = some r2 ∧
            r2.events = s2.events ++ sched_event.ue_db_slot_indication 55 :: calls :=
  ⟨rfl, run_sched_strategy_call_conditions sample_env sample_sched_mixed_cells 55 1
    (sample_grid false []) rfl⟩

/-! ## Error-indication rollback: the category flags gate the rollback -/

theorem filterMap_cancellation_map_cancel (cs : List harq_cancellation) :
    (cs.map sched_event.cancel).filterMap sched_event.cancellation = cs := by
  induction cs with
  | nil => rfl
  | cons c t ih => simp [sched_event.cancellation, ih]

theorem performed_cancellations_eq (s r : ue_scheduler_impl) (cs : List harq_cancellation)
    (h : r.events = s.events ++ cs.map sched_event.cancel) :
    performed_cancellations s r = cs := by
  unfold performed_cancellations
  rw [h, List.drop_left, filterMap_cancellation_map_cancel]

theorem ul_harq_state_run_cancellations_of_dl (u : du_ue_index_t) (h_id : harq_id_t)
    (cs : List harq_cancellation) :
    ∀ db : ue_repository,
      (∀ c ∈ cs, ∃ u0 h0 cw, c = harq_cancellation.dl_cancel_harq u0 h0 cw) →
      (run_cancellations cs db).ul_harq_state u h_id = db.ul_harq_state u h_id := by
  induction cs with
  | nil => intro db _; rfl
  | cons c t ih =>
    intro db hall
    rw [run_cancellations_cons, ih _ (fun d hd => hall d (List.mem_cons_of_mem _ hd)),
      ul_harq_state_run]
    obtain ⟨u0, h0, cw, hc⟩ := hall c (List.mem_cons_self _ _)
    rw [hc, ul_effect_dl_cancel_harq]
    cases db.ul_harq_state u h_id <;> rfl

theorem pdsch_category_cancellations_dl (find : rnti_t → Option du_ue_index_t)
    (res : sched_result) :
    ∀ c ∈ pdsch_category_cancellations find res,
      ∃ u0 h0 cw, c = harq_cancellation.dl_cancel_harq u0 h0 cw := by
  intro c hc
  unfold pdsch_category_cancellations at hc
  rw [List.mem_flatMap] at hc
  obtain ⟨grant, -, hg⟩ := hc
  unfold ue_grant_cancellations at hg
  cases hf : find grant.pdsch_cfg.rnti with
  | none => rw [hf] at hg; cases hg
  | some u0 =>
    rw [hf] at hg
    simp only [List.mem_map] at hg
    obtain ⟨cw, -, hcw⟩ := hg
    exact ⟨u0, grant.pdsch_cfg.harq_id, cw, hcw.symm⟩

/-- C25: the category flags gate the rollback. For every slot present in history,
`handle_error_indication` returns for every category set, and the cancellations
it performs are those performed for each set flag alone, taken together (as
sets of calls; in order they are those of the control-channel flag, then of the
downlink-data flag, then of the uplink flag) and they account for the terminal
directory it leaves. With no flag set the scheduler is left as it was, and with
only pdsch_discarded set every call cancels a codeword of a downlink process
and every uplink HARQ process keeps its state. -/
theorem handle_error_indication_flags_gate_rollback (s : ue_scheduler_impl)
    (sl_tx : slot_point) (cell_index : du_cell_index_t) (event : error_outcome)
    (res_grid : cell_resource_allocator) (prev_slot_result : cell_slot_resource_allocator)
    (hcell : s.cell_res_alloc cell_index = some res_grid)
    (hhist : res_grid.get_history sl_tx = some prev_slot_result) :
    ∃ r r_pdcch r_pdsch r_ul,
      handle_error_indication s sl_tx cell_index event = some r ∧
      handle_error_indication s sl_tx cell_index
        { pdcch_discarded := true, pdsch_discarded := false,
          pusch_and_pucch_discarded := false } = some r_pdcch ∧
      handle_error_indication s sl_tx cell_index
        { pdcch_discarded := false, pdsch_discarded := true,
          pusch_and_pucch_discarded := false } = some r_pdsch ∧
      handle_error_indication s sl_tx cell_index
        { pdcch_discarded := false, pdsch_discarded := false,
          pusch_and_pucch_discarded := true } = some r_ul ∧
      handle_error_indication s sl_tx cell_index
        { pdcch_discarded := false, pdsch_discarded := false,
          pusch_and_pucch_discarded := false } = some s ∧
      (∀ c, c ∈ performed_cancellations s r ↔
        (event.pdcch_discarded = true ∧ c ∈ performed_cancellations s r_pdcch) ∨
        (event.pdsch_discarded = true ∧ c ∈ performed_cancellations s r_pdsch) ∨
        (event.pusch_and_pucch_discarded = true ∧ c ∈ performed_cancellations s r_ul)) ∧
      performed_cancellations s r =
        (if event.pdcch_discarded then performed_cancellations s r_pdcch else []) ++
        (if event.pdsch_discarded then performed_cancellations s r_pdsch else []) ++
        (if event.pusch_and_pucch_discarded then performed_cancellations s r_ul else []) ∧
      r.events = s.events ++ (performed_cancellations s r).map sched_event.cancel ∧
      r.ue_db = run_cancellations (performed_cancellations s r) s.ue_db ∧
      (event.pdcch_discarded = false → event.pdsch_discarded = false →
        event.pusch_and_pucch_discarded = false → r = s) ∧
      (∀ c ∈ performed_cancellations s r_pdsch,
        ∃ u h_id cw_idx, c = harq_cancellation.dl_cancel_harq u h_id cw_idx) ∧
      (∀ u h_id, r_pdsch.ue_db.ul_harq_state u h_id = s.ue_db.ul_harq_state u h_id) := by
  obtain ⟨r, hr, hdb, hev, -⟩ := handle_error_indication_ue_db s sl_tx cell_index event
    res_grid prev_slot_result hcell hhist
  obtain ⟨r1, hr1, -, hev1, -⟩ := handle_error_indication_ue_db s sl_tx cell_index
    { pdcch_discarded := true, pdsch_discarded := false, pusch_and_pucch_discarded := false }
    res_grid prev_slot_result hcell hhist
  obtain ⟨r2, hr2, hdb2, hev2, -⟩ := handle_error_indication_ue_db s sl_tx cell_index
    { pdcch_discarded := false, pdsch_discarded := true, pusch_and_pucch_discarded := false }
    res_grid prev_slot_result hcell hhist
  obtain ⟨r3, hr3, -, hev3, -⟩ := handle_error_indication_ue_db s sl_tx cell_index
    { pdcch_discarded := false, pdsch_discarded := false, pusch_and_pucch_discarded := true }
    res_grid prev_slot_result hcell hhist
  have h0 := handle_error_indication_eq s sl_tx cell_index
    { pdcch_discarded := false, pdsch_discarded := false, pusch_and_pucch_discarded := false }
    res_grid prev_slot_result hcell hhist
  have hp := performed_cancellations_eq s r _ hev
  have hp1 := performed_cancellations_eq s r1 _ hev1
  have hp2 := performed_cancellations_eq s r2 _ hev2
  have hp3 := performed_cancellations_eq s r3 _ hev3
  have hc1 : rollback_cancellations s.ue_db.find_by_rnti sl_tx
      { pdcch_discarded := true, pdsch_discarded := false, pusch_and_pucch_discarded := false }
      prev_slot_result.result =
      pdcch_category_cancellations s.ue_db.find_by_rnti prev_slot_result.result := by
    simp [rollback_cancellations]
  have hc2 : rollback_cancellations s.ue_db.find_by_rnti sl_tx
      { pdcch_discarded := false, pdsch_discarded := true, pusch_and_pucch_discarded := false }
      prev_slot_result.result =
      pdsch_category_cancellations s.ue_db.find_by_rnti prev_slot_result.result := by
    simp [rollback_cancellations]
  have hc3 : rollback_cancellations s.ue_db.find_by_rnti sl_tx
      { pdcch_discarded := false, pdsch_discarded := false, pusch_and_pucch_discarded := true }
      prev_slot_result.result =
      pusch_pucch_category_cancellations sl_tx s.ue_db.find_by_rnti prev_slot_result.result := by
    simp [rollback_cancellations]
  rw [hc1] at hp1
  rw [hc2] at hp2 hdb2
  rw [hc3] at hp3
  refine ⟨r, r1, r2, r3, hr, hr1, hr2, hr3, ?_, ?_, ?_, ?_, ?_, ?_, ?_, ?_⟩
  · rw [h0]
    rfl
  · intro c
    rw [hp, hp1, hp2, hp3]
    exact mem_rollback_cancellations _ _ _ _ _
  · rw [hp, hp1, hp2, hp3]
    unfold rollback_cancellations
    rw [List.append_assoc]
  · rw [hp]
    exact hev
  · rw [hp]
    exact hdb
  · intro e1 e2 e3
    have he : event = ⟨false, false, false⟩ := by
      rcases event with ⟨a, b, c⟩
      simp only at e1 e2 e3
      rw [e1, e2, e3]
    rw [he, h0] at hr
    have := Option.some.inj hr
    rw [← this]
    rfl
  · rw [hp2]
    exact pdsch_category_cancellations_dl _ _
  · intro u h_id
    rw [hdb2]
    exact ul_harq_state_run_cancellations_of_dl u h_id _ _
      (pdsch_category_cancellations_dl _ _)

theorem handle_error_indication_flags_gate_rollback_witness :
    (sample_sched true sample_history_data).cell_res_alloc 0 =
        some (sample_grid true sample_history_data) ∧
      (sample_grid true sample_history_data).get_history 54 =
        some { slot := 54, result := { dl := { ue_grants := [sample_ue_grant] },
                                       ul := { puschs := [sample_pusch] } } } ∧
      ∃ r r_pdcch r_pdsch r_ul,
        handle_error_indication (sample_sched true sample_history_data) 54 0
          { pdcch_discarded := false, pdsch_discarded := true,
            pusch_and_pucch_discarded := true } = some r ∧
        handle_error_indication (sample_sched true sample_history_data) 54 0
          { pdcch_discarded := true, pdsch_discarded := false,
            pusch_and_pucch_discarded := false } = some r_pdcch ∧
        handle_error_indication (sample_sched true sample_history_data) 54 0
          { pdcch_discarded := false, pdsch_discarded := true,
            pusch_and_pucch_discarded := false } = some r_pdsch ∧
        handle_error_indication (sample_sched true sample_history_data) 54 0
          { pdcch_discarded := false, pdsch_discarded := false,
            pusch_and_pucch_discarded := true } = some r_ul ∧
        handle_error_indication (sample_sched true sample_history_data) 54 0
          { pdcch_discarded := false, pdsch_discarded := false,
            pusch_and_pucch_discarded := false } = some (sample_sched true sample_history_data) ∧
        (∀ c, c ∈ performed_cancellations (sample_sched true sample_history_data) r ↔
          (false = true ∧
            c ∈ performed_cancellations (sample_sched true sample_history_data) r_pdcch) ∨
          (true = true ∧
            c ∈ performed_cancellations (sample_sched true sample_history_data) r_pdsch) ∨
          (true = true ∧
            c ∈ performed_cancellations (sample_sched true sample_history_data) r_ul)) ∧
        performed_cancellations (sample_sched true sample_history_data) r =
          (if false then performed_cancellations (sample_sched true sample_history_data) r_pdcch
           else []) ++
          (if true then performed_cancellations (sample_sched true sample_history_data) r_pdsch
           else []) ++
          (if true then performed_cancellations (sample_sched true sample_history_data) r_ul
           else []) ∧
        r.events = (sample_sched true sample_history_data).events ++
          (performed_cancellations (sample_sched true sample_history_data) r).map
            sched_event.cancel ∧
        r.ue_db = run_cancellations
          (performed_cancellations (sample_sched true sample_history_data) r)
          (sample_sched true sample_history_data).ue_db ∧
        (false = false → true = false → true = false →
          r = sample_sched true sample_history_data) ∧
        (∀ c ∈ performed_cancellations (sample_sched true sample_history_data) r_pdsch,
          ∃ u h_id cw_idx, c = harq_cancellation.dl_cancel_harq u h_id cw_idx) ∧
        (∀ u h_id, r_pdsch.ue_db.ul_harq_state u h_id =
          (sample_sched true sample_history_data).ue_db.ul_harq_state u h_id) :=
  ⟨rfl, rfl, handle_error_indication_flags_gate_rollback
    (sample_sched true sample_history_data) 54 0
    { pdcch_discarded := false, pdsch_discarded := true, pusch_and_pucch_discarded := true }
    (sample_grid true sample_history_data)
    { slot := 54, result := { dl := { ue_grants := [sample_ue_grant] },
                              ul := { puschs := [sample_pusch] } } } rfl rfl⟩

/-! ## CU-CP metrics handler: session ids -/

theorem create_periodic_session_of_empty (h : metrics_handler_impl)
    (request : periodic_metric_report_request) (hf : h.free_list = []) :
    (h.create_periodic_session request).2 = h.sessions.length ∧
      (h.create_periodic_session request).1.free_list = [] ∧
      (h.create_periodic_session request).1.sessions.length = h.sessions.length + 1 := by
  simp [metrics_handler_impl.create_periodic_session, hf]

theorem create_periodic_session_of_concat (h : metrics_handler_impl)
    (request : periodic_metric_report_request) (init : List Nat) (x : Nat)
    (hf : h.free_list = init ++ [x]) :
    (h.create_periodic_session request).2 = x ∧
      (h.create_periodic_session request).1.free_list = init ∧
      (h.create_periodic_session request).1.sessions.length = h.sessions.length := by
  simp [metrics_handler_impl.create_periodic_session, hf]

theorem released_once_create (w : metrics_sessions) (request : periodic_metric_report_request)
    (hw : w.released_once) : (w.create_periodic_report_session request).released_once := by
  obtain ⟨ha, hb, hc, hd, he⟩ := hw
  rcases List.eq_nil_or_concat w.handler.free_list with hf | ⟨init, x, hf⟩
  · obtain ⟨h2, hfl, hlen⟩ := create_periodic_session_of_empty w.handler request hf
    unfold metrics_sessions.released_once metrics_sessions.create_periodic_report_session
    simp only [h2, hfl, hlen]
    refine ⟨?_, List.nodup_nil, ?_, ?_, ?_⟩
    · rw [List.pairwise_append]
      refine ⟨ha, List.pairwise_singleton _ _, ?_⟩
      intro a hma b hmb
      rw [List.mem_singleton] at hmb
      rw [hmb]
      exact Nat.ne_of_lt (hd a hma).1
    · intro session _
      exact List.not_mem_nil _
    · intro session hs
      rcases List.mem_append.mp hs with h | h
      · exact ⟨Nat.lt_succ_of_lt (hd session h).1, (hd session h).2⟩
      · rw [List.mem_singleton] at h
        rw [h]
        exact ⟨Nat.lt_succ_self _, rfl⟩
    · intro i hi
      exact absurd hi (List.not_mem_nil _)
  · rw [List.concat_eq_append] at hf
    obtain ⟨h2, hfl, hlen⟩ := create_periodic_session_of_concat w.handler request init x hf
    rw [hf] at hb hc he
    have hx : x ∉ init := by
      intro hmem
      rw [List.nodup_append] at hb
      exact hb.2.2 hmem (List.mem_singleton_self x)
    unfold metrics_sessions.released_once metrics_sessions.create_periodic_report_session
    simp only [h2, hfl, hlen]
    refine ⟨?_, ?_, ?_, ?_, ?_⟩
    · rw [List.pairwise_append]
      refine ⟨ha, List.pairwise_singleton _ _, ?_⟩
      intro a hma b hmb
      rw [List.mem_singleton] at hmb
      rw [hmb]
      intro heq
      exact hc a hma (by rw [heq]; exact List.mem_append_right _ (List.mem_singleton_self x))
    · exact (List.nodup_append.mp hb).1
    · intro session hs
      rcases List.mem_append.mp hs with h | h
      · intro hmem
        exact hc session h (List.mem_append_left _ hmem)
      · rw [List.mem_singleton] at h
        rw [h]
        exact hx
    · intro session hs
      rcases List.mem_append.mp hs with h | h
      · exact hd session h
      · rw [List.mem_singleton] at h
        rw [h]
        exact ⟨he x (List.mem_append_right _ (List.mem_singleton_self x)), rfl⟩
    · intro i hi
      exact he i (List.mem_append_left _ hi)

theorem released_once_destroy (w : metrics_sessions) (k : Nat) (hw : w.released_once) :
    (w.destroy k).released_once := by
  obtain ⟨ha, hb, hc, hd, he⟩ := hw
  unfold metrics_sessions.destroy
  cases hk : w.live[k]? with
  | none => exact ⟨ha, hb, hc, hd, he⟩
  | some session =>
    have hmem : session ∈ w.live := List.getElem?_mem hk
    have hh : session.handler = true := (hd session hmem).2
    have hstop : (session.stop w.handler).2 =
        { w.handler with free_list := w.handler.free_list ++ [session.session_id] } := by
      simp [periodic_metrics_report_session_impl.stop, hh,
        metrics_handler_impl.request_session_deletion]
    have hsub : ∀ t ∈ w.live.eraseIdx k, t ∈ w.live :=
      fun t ht => (List.eraseIdx_sublist w.live k).subset ht
    have hne : ∀ t ∈ w.live.eraseIdx k, t.session_id ≠ session.session_id := by
      intro t ht
      rw [List.mem_eraseIdx_iff_getElem?] at ht
      obtain ⟨i, hik, hi⟩ := ht
      obtain ⟨hil, hie⟩ := List.getElem?_eq_some.mp hi
      obtain ⟨hkl, hke⟩ := List.getElem?_eq_some.mp hk
      rw [List.pairwise_iff_getElem] at ha
      rcases Nat.lt_or_gt_of_ne hik with hlt | hgt
      · have := ha i k hil hkl hlt
        rw [hie, hke] at this
        exact this
      · have := ha k i hkl hil hgt
        rw [hie, hke] at this
        exact fun h => this h.symm
    simp only [hstop]
    refine ⟨ha.sublist (List.eraseIdx_sublist _ _), ?_, ?_, ?_, ?_⟩
    · rw [List.nodup_append]
      refine ⟨hb, List.nodup_singleton _, ?_⟩
      intro a ha1 ha2
      rw [List.mem_singleton] at ha2
      rw [ha2] at ha1
      exact hc session hmem ha1
    · intro t ht hin
      rcases List.mem_append.mp hin with h | h
      · exact hc t (hsub t ht) h
      · rw [List.mem_singleton] at h
        exact hne t ht h
    · intro t ht
      exact hd t (hsub t ht)
    · intro i hi
      rcases List.mem_append.mp hi with h | h
      · exact he i h
      · rw [List.mem_singleton] at h
        rw [h]
        exact (hd session hmem).1

/-- Without explicit `stop()` calls every session id is released once, by the
destructor, and the ids stay consistent: the live sessions have pairwise
distinct ids and none of them is in the free list. -/
theorem ids_consistent_of_no_stop (calls : List metrics_session_call)
    (h : ∀ k, metrics_session_call.stop k ∉ calls) :
    (metrics_sessions.run calls).ids_consistent := by
  have hgen : ∀ (cs : List metrics_session_call) (w : metrics_sessions),
      (∀ k, metrics_session_call.stop k ∉ cs) → w.released_once →
      (cs.foldl metrics_sessions.call w).released_once := by
    intro cs
    induction cs with
    | nil => intro w _ hw; exact hw
    | cons c t ih =>
      intro w hcs hw
      rw [List.foldl_cons]
      apply ih _ (fun k hk => hcs k (List.mem_cons_of_mem _ hk))
      cases c with
      | create request => exact released_once_create w request hw
      | stop k => exact absurd (List.mem_cons_self _ _) (hcs k)
      | destroy k => exact released_once_destroy w k hw
  have h0 : ({} : metrics_sessions).released_once := by
    refine ⟨List.Pairwise.nil, List.nodup_nil, ?_, ?_, ?_⟩ <;> intro x hx <;> cases hx
  obtain ⟨ha, -, hc, -, -⟩ := hgen calls {} h h0
  exact ⟨List.pairwise_map.mpr ha, hc⟩

/-- C26 (failing input): a session is created, stopped explicitly and destroyed, and two
sessions are created afterwards. The destructor calls `stop()` once more and
`stop()` never resets `handler`, so that id 0 is released twice: the free list
is `[0, 0]` after the destruction, the two sessions created afterwards both get
id 0, and the ids of the live sessions are not pairwise distinct. Already after
the explicit `stop()` the id of the session, which is still there, is in the
free list. -/
theorem metrics_handler_session_id_released_twice :
    (metrics_sessions.run
      [metrics_session_call.create { period := 1000, report_notifier := 0 },
       metrics_session_call.stop 0]).handler.free_list = [0] ∧
    (metrics_sessions.run
      [metrics_session_call.create { period := 1000, report_notifier := 0 },
       metrics_session_call.stop 0,
       metrics_session_call.destroy 0]).handler.free_list = [0, 0] ∧
    (metrics_sessions.run
      [metrics_session_call.create { period := 1000, report_notifier := 0 },
       metrics_session_call.stop 0,
       metrics_session_call.destroy 0,
       metrics_session_call.create { period := 1000, report_notifier := 1 },
       metrics_session_call.create { period := 1000, report_notifier := 2 }]).live =
      [{ handler := true, session_id := 0 }, { handler := true, session_id := 0 }] ∧
    ¬ (metrics_sessions.run
      [metrics_session_call.create { period := 1000, report_notifier := 0 },
       metrics_session_call.stop 0,
       metrics_session_call.destroy 0,
       metrics_session_call.create { period := 1000, report_notifier := 1 },
       metrics_session_call.create { period := 1000, report_notifier := 2 }]).ids_consistent := by
  refine ⟨by decide, by decide, by decide, by decide⟩

/-! ## F1-U split gateway bearer: `stop` -/

theorem f1u_stop_of_stopped (b : f1u_split_gateway_cu_bearer × f1u_bearer_disconnector)
    (h : b.1.stopped = true) : f1u_split_gateway_cu_bearer.stop b = b := by
  rcases b with ⟨⟨ue_index, stopped, ul⟩, d⟩
  simp only at h
  subst h
  rfl

theorem f1u_stop_stopped (b : f1u_split_gateway_cu_bearer × f1u_bearer_disconnector) :
    (f1u_split_gateway_cu_bearer.stop b).1.stopped = true := rfl

theorem f1u_stop_times_succ (n : Nat)
    (b : f1u_split_gateway_cu_bearer × f1u_bearer_disconnector) :
    f1u_split_gateway_cu_bearer.stop_times (n + 1) b = f1u_split_gateway_cu_bearer.stop b := by
  induction n with
  | zero => rfl
  | succ n ih =>
    unfold f1u_split_gateway_cu_bearer.stop_times at ih ⊢
    rw [Function.iterate_succ_apply', ih,
      f1u_stop_of_stopped _ (f1u_stop_stopped b)]

/-- C27: `f1u_split_gateway_cu_bearer::stop` is idempotent (a second `stop()` changes
neither the bearer nor the disconnector), and over any number `n` of `stop()`
calls on a newly constructed bearer followed by its destruction,
`disconnect_cu_bearer(ul_tnl_info)` is invoked on the disconnector exactly
once: the calls the disconnector has received grow by that single call. -/
theorem f1u_split_gateway_cu_bearer_stop_disconnects_once (n : Nat) (ue_index : Nat)
    (ul_tnl_info : up_transport_layer_info) (disconnector : f1u_bearer_disconnector)
    (b : f1u_split_gateway_cu_bearer × f1u_bearer_disconnector) :
    f1u_split_gateway_cu_bearer.stop (f1u_split_gateway_cu_bearer.stop b) =
        f1u_split_gateway_cu_bearer.stop b ∧
      (f1u_split_gateway_cu_bearer.destroy
        (f1u_split_gateway_cu_bearer.stop_times n
          (f1u_split_gateway_cu_bearer.create ue_index ul_tnl_info,
            disconnector))).disconnect_cu_bearer_calls =
        disconnector.disconnect_cu_bearer_calls ++ [ul_tnl_info] := by
  refine ⟨f1u_stop_of_stopped _ (f1u_stop_stopped b), ?_⟩
  cases n with
  | zero => rfl
  | succ n =>
    rw [f1u_stop_times_succ]
    unfold f1u_split_gateway_cu_bearer.destroy
    rw [f1u_stop_of_stopped _ (f1u_stop_stopped _)]
    rfl

/-! ## String helper: joining the parsed list -/

theorem string_parse_list_eq (input : std_string) (delimiter : Char) (list : List std_string) :
    string_parse_list input delimiter list =
      some ((input.splitOn delimiter).filter (fun t => !t.isEmpty)) := by
  unfold string_parse_list
  rw [string_parse_list_loop_eq delimiter _ input [] (Nat.lt_succ_self _)]
  rfl

theorem splitOn_tokens_ne_nil (delimiter : Char) (xs : List Char) :
    xs.Chain' (fun a b => ¬(a = delimiter ∧ b = delimiter)) →
    xs.getLast? ≠ some delimiter →
      (∀ t ∈ (xs.splitOn delimiter).tail, t ≠ []) ∧
      (xs ≠ [] → xs.head? ≠ some delimiter → ∀ t ∈ xs.splitOn delimiter, t ≠ []) := by
  induction xs with
  | nil =>
    intro _ _
    refine ⟨?_, fun h => absurd rfl h⟩
    intro t ht
    simp [List.splitOn, List.splitOnP_nil] at ht
  | cons x ys ih =>
    intro hchain hlast
    have hchain2 : ys.Chain' (fun a b => ¬(a = delimiter ∧ b = delimiter)) :=
      (List.chain'_cons'.1 hchain).2
    have hhead : ∀ y ∈ ys.head?, ¬(x = delimiter ∧ y = delimiter) :=
      (List.chain'_cons'.1 hchain).1
    have hlast2 : ys.getLast? ≠ some delimiter := by
      cases ys with
      | nil => simp
      | cons y zs => rwa [List.getLast?_cons_cons] at hlast
    obtain ⟨ihA, ihB⟩ := ih hchain2 hlast2
    unfold List.splitOn at ihA ihB ⊢
    rw [List.splitOnP_cons]
    by_cases hx : x = delimiter
    · have hys : ys ≠ [] := by
        intro h
        rw [h, hx] at hlast
        exact hlast rfl
      have hyh : ys.head? ≠ some delimiter := by
        intro h
        exact hhead delimiter (by rw [h]; rfl) ⟨hx, rfl⟩
      have hall := ihB hys hyh
      have hp : (x == delimiter) = true := by simp [hx]
      rw [if_pos hp]
      refine ⟨?_, ?_⟩
      · intro t ht
        exact hall t (by simpa using ht)
      · intro _ hh
        exact absurd (by simp [hx]) hh
    · have hp : ¬((x == delimiter) = true) := by simp [hx]
      rw [if_neg hp]
      cases hs : ys.splitOnP (fun c => c == delimiter) with
      | nil => exact absurd hs (List.splitOnP_ne_nil _ ys)
      | cons hd tl =>
        rw [hs] at ihA
        simp only [List.modifyHead_cons, List.tail_cons] at ihA ⊢
        refine ⟨ihA, ?_⟩
        intro _ _ t ht
        rcases List.mem_cons.mp ht with h | h
        · rw [h]
          exact List.cons_ne_nil _ _
        · exact ihA t h

theorem filter_not_isEmpty_eq_self (l : List std_string) (h : ∀ t ∈ l, t ≠ []) :
    l.filter (fun t => !t.isEmpty) = l := by
  rw [List.filter_eq_self]
  intro t ht
  have := h t ht
  cases t with
  | nil => exact absurd rfl this
  | cons c cs => rfl

/-- C28: for every input without empty token (the input is not empty, neither starts
nor ends with the delimiter and has no two delimiters in a row), joining the
elements that `string_parse_list` produces with the delimiter gives back the
input; for every input, parsing the joined output again returns the same list,
whatever the container held. -/
theorem string_parse_list_join (input : std_string) (delimiter : Char)
    (list : List std_string) :
    ∃ result, string_parse_list input delimiter list = some result ∧
      (input ≠ [] → input.head? ≠ some delimiter → input.getLast? ≠ some delimiter →
        input.Chain' (fun a b => ¬(a = delimiter ∧ b = delimiter)) →
        string_join delimiter result = input) ∧
      ∀ list2, string_parse_list (string_join delimiter result) delimiter list2 =
        some result := by
  refine ⟨_, string_parse_list_eq input delimiter list, ?_, ?_⟩
  · intro hne hhead hlast hchain
    have hall := (splitOn_tokens_ne_nil delimiter input hchain hlast).2 hne hhead
    rw [filter_not_isEmpty_eq_self _ hall]
    exact List.intercalate_splitOn input delimiter
  · intro list2
    rw [string_parse_list_eq]
    congr 1
    have hmem : ∀ t ∈ (input.splitOn delimiter).filter (fun t => !t.isEmpty),
        t ≠ [] ∧ delimiter ∉ t := by
      intro t ht
      rw [List.mem_filter] at ht
      refine ⟨?_, ?_⟩
      · intro h
        rw [h] at ht
        simp at ht
      · intro hd
        have := mem_splitOnP_not (fun c => c == delimiter) input t ht.1 delimiter hd
        simp at this
    cases hres : (input.splitOn delimiter).filter (fun t => !t.isEmpty) with
    | nil => rfl
    | cons t ts =>
      rw [hres] at hmem
      unfold string_join
      rw [List.splitOn_intercalate (t :: ts) delimiter (fun l hl => (hmem l hl).2)
        (List.cons_ne_nil _ _)]
      exact filter_not_isEmpty_eq_self _ (fun l hl => (hmem l hl).1)

theorem string_parse_list_join_witness :
    ∃ result, string_parse_list ['a', ',', 'b'] ',' [] = some result ∧
      string_join ',' result = ['a', ',', 'b'] ∧
      ∀ list2, string_parse_list (string_join ',' result) ',' list2 = some result :=
  match string_parse_list_join ['a', ',', 'b'] ',' [] with
  | ⟨result, h, hjoin, hparse⟩ =>
    ⟨result, h, hjoin (by decide) (by decide) (by decide) (by simp), hparse⟩

/-! ## Error-indication rollback: the HARQ-ACK bits of the discarded uplink grants -/

theorem pucch_has_harq_ack_iff (pucch : pucch_info) :
    pucch.has_harq_ack = true ↔
      (pucch.format = pucch_format.FORMAT_1 ∨ pucch.format = pucch_format.FORMAT_2) ∧
        0 < pucch.harq_ack_nof_bits := by
  unfold pucch_info.has_harq_ack pucch_info.harq_ack_nof_bits
  cases h : pucch.format <;> simp

theorem pusch_has_harq_ack_iff (grant : ul_sched_info) :
    grant.has_harq_ack = true ↔
      ∃ uci harq, grant.uci = some uci ∧ uci.harq = some harq ∧
        0 < harq.harq_ack_nof_bits := by
  unfold ul_sched_info.has_harq_ack
  cases hu : grant.uci with
  | none => simp
  | some uci =>
    cases hh : uci.harq with
    | none => simp [hh]
    | some harq => simp [hh]

theorem mem_cancel_dl_harqs_rollback (find : rnti_t → Option du_ue_index_t)
    (sl_tx sl : slot_point) (event : error_outcome) (res : sched_result) (u : du_ue_index_t) :
    harq_cancellation.cancel_dl_harqs u sl ∈ rollback_cancellations find sl_tx event res ↔
      event.pusch_and_pucch_discarded = true ∧ sl = sl_tx ∧
        ((∃ pucch ∈ res.ul.pucchs, find pucch.crnti = some u ∧
            (pucch.format = pucch_format.FORMAT_1 ∨ pucch.format = pucch_format.FORMAT_2) ∧
            0 < pucch.harq_ack_nof_bits) ∨
          (∃ grant ∈ res.ul.puschs, find grant.pusch_cfg.rnti = some u ∧
            ∃ uci harq, grant.uci = some uci ∧ uci.harq = some harq ∧
              0 < harq.harq_ack_nof_bits)) := by
  rw [mem_rollback_cancellations]
  constructor
  · rintro (⟨-, h⟩ | ⟨-, h⟩ | ⟨hflag, h⟩)
    · obtain ⟨u0, h0, hc | hc⟩ := mem_pdcch_category_cancellations _ _ _ h <;> cases hc
    · obtain ⟨u0, h0, cw, hc⟩ := pdsch_category_cancellations_dl _ _ _ h
      cases hc
    · unfold pusch_pucch_category_cancellations at h
      rw [List.mem_append, List.mem_flatMap, List.mem_flatMap] at h
      rcases h with ⟨grant, hmem, hin⟩ | ⟨pucch, hmem, hin⟩
      · unfold pusch_cancellations at hin
        cases hf : find grant.pusch_cfg.rnti with
        | none => rw [hf] at hin; cases hin
        | some u0 =>
          rw [hf] at hin
          cases hack : grant.has_harq_ack with
          | false => simp [hack] at hin
          | true =>
            simp only [hack, if_true, List.mem_cons, List.mem_singleton,
              harq_cancellation.cancel_dl_harqs.injEq, List.mem_nil_iff, or_false] at hin
            rcases hin with hin | hin
            · cases hin
            · obtain ⟨h1, h2⟩ := hin
              subst h1
              exact ⟨hflag, h2, Or.inr ⟨grant, hmem, hf, (pusch_has_harq_ack_iff grant).mp hack⟩⟩
      · unfold pucch_cancellations at hin
        cases hf : find pucch.crnti with
        | none => rw [hf] at hin; cases hin
        | some u0 =>
          rw [hf] at hin
          cases hack : pucch.has_harq_ack with
          | false => simp [hack] at hin
          | true =>
            simp only [hack, if_true, List.mem_singleton,
              harq_cancellation.cancel_dl_harqs.injEq] at hin
            obtain ⟨h1, h2⟩ := hin
            subst h1
            obtain ⟨hfmt, hbits⟩ := (pucch_has_harq_ack_iff pucch).mp hack
            exact ⟨hflag, h2, Or.inl ⟨pucch, hmem, hf, hfmt, hbits⟩⟩
  · rintro ⟨hflag, hsl, hgrant⟩
    subst hsl
    right; right
    refine ⟨hflag, ?_⟩
    unfold pusch_pucch_category_cancellations
    rw [List.mem_append]
    rcases hgrant with ⟨pucch, hmem, hfind, hfmt, hbits⟩ | ⟨grant, hmem, hfind, hrest⟩
    · right
      rw [List.mem_flatMap]
      refine ⟨pucch, hmem, ?_⟩
      simp [pucch_cancellations, hfind, (pucch_has_harq_ack_iff pucch).mpr ⟨hfmt, hbits⟩]
    · left
      rw [List.mem_flatMap]
      refine ⟨grant, hmem, ?_⟩
      simp [pusch_cancellations, hfind, (pusch_has_harq_ack_iff grant).mpr hrest]

theorem rollback_cancellations_without_other_pucch_formats
    (find : rnti_t → Option du_ue_index_t) (sl_tx : slot_point) (event : error_outcome)
    (res : sched_result) :
    rollback_cancellations find sl_tx event (without_other_pucch_formats res) =
      rollback_cancellations find sl_tx event res := by
  have h : (res.ul.pucchs.filter
      (fun pucch => decide (pucch.format = pucch_format.FORMAT_1 ∨
        pucch.format = pucch_format.FORMAT_2))).flatMap (pucch_cancellations sl_tx find) =
      res.ul.pucchs.flatMap (pucch_cancellations sl_tx find) := by
    apply flatMap_filter_of_nil
    intro pucch hp
    have hack : pucch.has_harq_ack = false := by
      cases hk : pucch.has_harq_ack with
      | false => rfl
      | true =>
        have := ((pucch_has_harq_ack_iff pucch).mp hk).1
        simp [this] at hp
    unfold pucch_cancellations
    cases find pucch.crnti <;> simp [hack]
  simp only [rollback_cancellations, pdcch_category_cancellations, pdsch_category_cancellations,
    pusch_pucch_category_cancellations, without_other_pucch_formats, h]

/-- C2 (as amended): for a slot present in history and an error indication with
pusch_and_pucch_discarded set, every PUCCH grant of format 1 or 2, and every
PUSCH grant with multiplexed UCI, that carries at least one HARQ-ACK bit for a
terminal found by RNTI makes the call cancel the downlink HARQ processes of that
terminal awaiting their acknowledgment at that slot: they end in Empty. A PUCCH
grant of any other format triggers no cancellation: every `cancel_dl_harqs`
call that is made is for the slot of the indication and comes from a grant of
the kind above, and the call does to the directory and records exactly what it
does when the history holds the slot without the PUCCH grants of other
formats. -/
theorem handle_error_indication_uplink_discarded_cancels_dl_harqs (s : ue_scheduler_impl)
    (sl_tx : slot_point) (cell_index : du_cell_index_t) (event : error_outcome)
    (res_grid : cell_resource_allocator) (prev_slot_result : cell_slot_resource_allocator)
    (hcell : s.cell_res_alloc cell_index = some res_grid)
    (hhist : res_grid.get_history sl_tx = some prev_slot_result)
    (hflag : event.pusch_and_pucch_discarded = true) :
    ∃ r evs, handle_error_indication s sl_tx cell_index event = some r ∧
      r.events = s.events ++ evs ∧
      (∀ u,
        ((∃ pucch ∈ prev_slot_result.result.ul.pucchs,
            s.ue_db.find_by_rnti pucch.crnti = some u ∧
            (pucch.format = pucch_format.FORMAT_1 ∨ pucch.format = pucch_format.FORMAT_2) ∧
            0 < pucch.harq_ack_nof_bits) ∨
          (∃ grant ∈ prev_slot_result.result.ul.puschs,
            s.ue_db.find_by_rnti grant.pusch_cfg.rnti = some u ∧
            ∃ uci harq, grant.uci = some uci ∧ uci.harq = some harq ∧
              0 < harq.harq_ack_nof_bits)) →
        sched_event.cancel (harq_cancellation.cancel_dl_harqs u sl_tx) ∈ evs ∧
          ∀ h_id cw_idx,
            s.ue_db.dl_harq_state u h_id cw_idx = some (harq_state.waiting_ack sl_tx) →
            r.ue_db.dl_harq_state u h_id cw_idx = some harq_state.empty) ∧
      (∀ u sl, sched_event.cancel (harq_cancellation.cancel_dl_harqs u sl) ∈ evs →
        sl = sl_tx ∧
          ((∃ pucch ∈ prev_slot_result.result.ul.pucchs,
              s.ue_db.find_by_rnti pucch.crnti = some u ∧
              (pucch.format = pucch_format.FORMAT_1 ∨
                pucch.format = pucch_format.FORMAT_2) ∧
              0 < pucch.harq_ack_nof_bits) ∨
            (∃ grant ∈ prev_slot_result.result.ul.puschs,
              s.ue_db.find_by_rnti grant.pusch_cfg.rnti = some u ∧
              ∃ uci harq, grant.uci = some uci ∧ uci.harq = some harq ∧
                0 < harq.harq_ack_nof_bits))) ∧
      (∀ (cells2 : List (Option cell)) (res_grid2 : cell_resource_allocator)
        (prev_slot_result2 : cell_slot_resource_allocator),
        ({ s with cells := cells2 } : ue_scheduler_impl).cell_res_alloc cell_index =
          some res_grid2 →
        res_grid2.get_history sl_tx = some prev_slot_result2 →
        prev_slot_result2.result = without_other_pucch_formats prev_slot_result.result →
        ∃ r2, handle_error_indication { s with cells := cells2 } sl_tx cell_index event =
            some r2 ∧
          r2.ue_db = r.ue_db ∧ r2.events = r.events) := by
  obtain ⟨r, hr, hdb, hev, -⟩ := handle_error_indication_ue_db s sl_tx cell_index event res_grid
    prev_slot_result hcell hhist
  refine ⟨r, _, hr, hev, ?_, ?_, ?_⟩
  · intro u hgrant
    have hmem : harq_cancellation.cancel_dl_harqs u sl_tx ∈
        rollback_cancellations s.ue_db.find_by_rnti sl_tx event prev_slot_result.result :=
      (mem_cancel_dl_harqs_rollback _ _ _ _ _ _).mpr ⟨hflag, rfl, hgrant⟩
    refine ⟨List.mem_map_of_mem _ hmem, ?_⟩
    intro h_id cw_idx hst
    rw [hdb]
    exact dl_harq_state_of_cancel_dl_harqs_mem _ _ _ _ hmem _ _ hst
  · intro u sl hmem
    rw [List.mem_map] at hmem
    obtain ⟨c, hc, hce⟩ := hmem
    cases hce
    exact ((mem_cancel_dl_harqs_rollback _ _ _ _ _ _).mp hc).2
  · intro cells2 res_grid2 prev_slot_result2 hcell2 hhist2 hres
    obtain ⟨r2, hr2, hdb2, hev2, -⟩ := handle_error_indication_ue_db { s with cells := cells2 }
      sl_tx cell_index event res_grid2 prev_slot_result2 hcell2 hhist2
    refine ⟨r2, hr2, ?_, ?_⟩
    · rw [hdb, hdb2, hres]
      simp only [rollback_cancellations_without_other_pucch_formats]
    · rw [hev, hev2, hres]
      simp only [rollback_cancellations_without_other_pucch_formats]

theorem handle_error_indication_uplink_discarded_cancels_dl_harqs_witness :
    (sample_sched true sample_history_pucch_formats).cell_res_alloc 0 =
        some (sample_grid true sample_history_pucch_formats) ∧
      (sample_grid true sample_history_pucch_formats).get_history 54 =
        some { slot := 54,
               result := { ul := { pucchs := [sample_pucch_f3, sample_pucch_f1] } } } ∧
      sample_ue_db.dl_harq_state 0 0 0 = some (harq_state.waiting_ack 54) ∧
      ∃ r evs, handle_error_indication (sample_sched true sample_history_pucch_formats) 54 0
          { pdcch_discarded := false, pdsch_discarded := false,
            pusch_and_pucch_discarded := true } = some r ∧
        r.events = (sample_sched true sample_history_pucch_formats).events ++ evs ∧
        (∀ u,
          ((∃ pucch ∈ [sample_pucch_f3, sample_pucch_f1],
              sample_ue_db.find_by_rnti pucch.crnti = some u ∧
              (pucch.format = pucch_format.FORMAT_1 ∨
                pucch.format = pucch_format.FORMAT_2) ∧
              0 < pucch.harq_ack_nof_bits) ∨
            (∃ grant ∈ ([] : List ul_sched_info),
              sample_ue_db.find_by_rnti grant.pusch_cfg.rnti = some u ∧
              ∃ uci harq, grant.uci = some uci ∧ uci.harq = some harq ∧
                0 < harq.harq_ack_nof_bits)) →
          sched_event.cancel (harq_cancellation.cancel_dl_harqs u 54) ∈ evs ∧
            ∀ h_id cw_idx,
              sample_ue_db.dl_harq_state u h_id cw_idx = some (harq_state.waiting_ack 54) →
              r.ue_db.dl_harq_state u h_id cw_idx = some harq_state.empty) ∧
        (∀ u sl, sched_event.cancel (harq_cancellation.cancel_dl_harqs u sl) ∈ evs →
          sl = 54 ∧
            ((∃ pucch ∈ [sample_pucch_f3, sample_pucch_f1],
                sample_ue_db.find_by_rnti pucch.crnti = some u ∧
                (pucch.format = pucch_format.FORMAT_1 ∨
                  pucch.format = pucch_format.FORMAT_2) ∧
                0 < pucch.harq_ack_nof_bits) ∨
              (∃ grant ∈ ([] : List ul_sched_info),
                sample_ue_db.find_by_rnti grant.pusch_cfg.rnti = some u ∧
                ∃ uci harq, grant.uci = some uci ∧ uci.harq = some harq ∧
                  0 < harq.harq_ack_nof_bits))) ∧
        (∀ (cells2 : List (Option cell)) (res_grid2 : cell_resource_allocator)
          (prev_slot_result2 : cell_slot_resource_allocator),
          ({ sample_sched true sample_history_pucch_formats with
              cells := cells2 } : ue_scheduler_impl).cell_res_alloc 0 = some res_grid2 →
          res_grid2.get_history 54 = some prev_slot_result2 →
          prev_slot_result2.result = without_other_pucch_formats
            { ul := { pucchs := [sample_pucch_f3, sample_pucch_f1] } } →
          ∃ r2, handle_error_indication
              { sample_sched true sample_history_pucch_formats with cells := cells2 } 54 0
              { pdcch_discarded := false, pdsch_discarded := false,
                pusch_and_pucch_discarded := true } = some r2 ∧
            r2.ue_db = r.ue_db ∧ r2.events = r.events) :=
  ⟨rfl, rfl, rfl,
    handle_error_indication_uplink_discarded_cancels_dl_harqs
      (sample_sched true sample_history_pucch_formats) 54 0
      { pdcch_discarded := false, pdsch_discarded := false, pusch_and_pucch_discarded := true }
      (sample_grid true sample_history_pucch_formats)
      { slot := 54, result := { ul := { pucchs := [sample_pucch_f3, sample_pucch_f1] } } }
      rfl rfl rfl⟩

/-- In the sample history with a PUCCH grant of format 3 and one of format 1, the
indication records the one `cancel_dl_harqs` call of the format 1 grant. -/
theorem handle_error_indication_pucch_formats_calls :
    (handle_error_indication (sample_sched true sample_history_pucch_formats) 54 0
        { pdcch_discarded := false, pdsch_discarded := false,
          pusch_and_pucch_discarded := true }).map (fun r => r.events) =
      some [sched_event.cancel (harq_cancellation.cancel_dl_harqs 0 54)] := by
  rfl

end srsran
